import Mathlib

/-!
# Verification of the geospatial polyhedron subsystem of react-three-map

This development shallowly embeds the coordinate-conversion and polyhedral-surface
core of the repository (src/api/coords-to-vector-3.ts, src/api/vector-3-to-coords.ts,
src/api/polyhedral-surface.ts, src/api/coordinates.tsx) and proves or refutes the
frozen specification claims about it.

Modelling conventions:
* JS numbers are modelled as exact real numbers (geometry positions that only ever
  undergo rational arithmetic are kept generic in a linear ordered field so they can
  also be instantiated at `ℚ` and decided by computation).
* JS strings are modelled as `List Char`.
* The module-level mercator-scale memoization cache is threaded explicitly through
  every function that reads or writes it.
* Functions that `throw` are modelled with `Except String`.
-/

namespace ReactThreeMap

noncomputable section

open Real

/-- Modelled from the spec: "EarthRadius is a fixed mean-radius constant (meters) shared
by both directions".  The constant lives in `src/core/earth-radius.ts`, which is not among
the provided sources; its value is the mean Earth radius in meters used by the map engine. -/
def earthRadius : ℝ := 6371008.8

/-- three.js `MathUtils.DEG2RAD` (external collaborator). -/
def DEG2RAD : ℝ := Real.pi / 180

/-- three.js `MathUtils.RAD2DEG` (external collaborator). -/
def RAD2DEG : ℝ := 180 / Real.pi

/-- `Coords` (src/api/near-coordinates.tsx): a geographic coordinate whose altitude is
optional. -/
structure Coords where
  longitude : ℝ
  latitude : ℝ
  altitude : Option ℝ

/-- JS `c.altitude || 0`: the altitude, or `0` when it is absent (an explicit altitude of
`0` is falsy in JS but yields the same value `0`). -/
def Coords.altitudeOr0 (c : Coords) : ℝ := c.altitude.getD 0

/-- The module-level `mercatorScaleLookup` object of src/api/coords-to-vector-3.ts,
modelled as an insert-once association list from the rounded-latitude key to the cached
scale value. -/
def MercCache : Type := List (ℤ × ℝ)

/-- The empty (fresh) mercator cache, i.e. the module state before any conversion ran. -/
def MercCache.fresh : MercCache := ([] : List (ℤ × ℝ))

/-- Association-list lookup for the mercator cache. -/
def cacheLookup : MercCache → ℤ → Option ℝ
  | ([] : List (ℤ × ℝ)), _ => none
  | ((k, v) :: rest : List (ℤ × ℝ)), k' =>
      if k = k' then some v else cacheLookup rest k'

/-- Insertion of a fresh entry into the mercator cache (`mercatorScaleLookup[index] = v`). -/
def cacheInsert (c : MercCache) (k : ℤ) (v : ℝ) : MercCache :=
  ((k, v) :: c : List (ℤ × ℝ))

/-- `getMercatorScale` (src/api/coords-to-vector-3.ts lines 7-13): memoized
`1 / Math.cos(lat * DEG2RAD)` keyed by `Math.round(lat * 1000)` (JS `Math.round` is
`⌊x + 1/2⌋`, which is Mathlib's `round`).  On a cache miss the value computed from the
*exact* latitude is stored under the *rounded* key.  Returns the scale together with the
updated cache. -/
def getMercatorScale (cache : MercCache) (lat : ℝ) : ℝ × MercCache :=
  let index : ℤ := round (lat * 1000)
  match cacheLookup cache index with
  | some v => (v, cache)
  | none =>
      let v := 1 / Real.cos (lat * DEG2RAD)
      (v, cacheInsert cache index v)

/-- The accumulation loop of `averageMercatorScale`: sums `getMercatorScale` over a list
of sample latitudes, threading the cache. -/
def mercFold (cache : MercCache) (total : ℝ) : List ℝ → ℝ × MercCache
  | [] => (total, cache)
  | lat :: rest =>
      let sc := getMercatorScale cache lat
      mercFold sc.2 (total + sc.1) rest

/-- The sample latitudes `lat = originLat + latStep * i`, `i = 0, …, steps`, with
`latStep = (pointLat - originLat) / steps`, visited by `averageMercatorScale`'s loop. -/
def sampleLats (originLat pointLat : ℝ) (steps : ℕ) : List ℝ :=
  (List.range (steps + 1)).map fun i : ℕ =>
    originLat + (pointLat - originLat) / (steps : ℝ) * (i : ℝ)

/-- `averageMercatorScale` (src/api/coords-to-vector-3.ts lines 28-36): the average of the
memoized mercator scale over `steps + 1` equally spaced sample latitudes from `originLat`
to `pointLat`. -/
def averageMercatorScale (cache : MercCache) (originLat pointLat : ℝ) (steps : ℕ) :
    ℝ × MercCache :=
  let f := mercFold cache 0 (sampleLats originLat pointLat steps)
  (f.1 / ((steps : ℝ) + 1), f.2)

/-- three.js `Vector3` / `Vector3Tuple` (external collaborator), generic in the scalar
field so that purely rational geometry can be decided by computation. -/
structure V3 (α : Type) where
  x : α
  y : α
  z : α
deriving DecidableEq, Repr

/-- `a.sub(b)` / `subVectors`. -/
def V3.sub {α : Type} [Sub α] (a b : V3 α) : V3 α :=
  ⟨a.x - b.x, a.y - b.y, a.z - b.z⟩

/-- `a.dot(b)`. -/
def V3.dot {α : Type} [Mul α] [Add α] (a b : V3 α) : α :=
  a.x * b.x + a.y * b.y + a.z * b.z

/-- `a.cross(b)` / `crossVectors`. -/
def V3.cross {α : Type} [Mul α] [Sub α] (a b : V3 α) : V3 α :=
  ⟨a.y * b.z - a.z * b.y, a.z * b.x - a.x * b.z, a.x * b.y - a.y * b.x⟩

/-- `a.lengthSq()`. -/
def V3.lengthSq {α : Type} [Mul α] [Add α] (a : V3 α) : α := a.dot a

/-- `a.addScaledVector(v, s)`. -/
def V3.addScaled {α : Type} [Add α] [Mul α] (a v : V3 α) (s : α) : V3 α :=
  ⟨a.x + v.x * s, a.y + v.y * s, a.z + v.z * s⟩

/-- Squared distance between two points (distance comparisons
`p.distanceTo(q) <= t` in the source are modelled as `distSq p q ≤ t^2`, which is
equivalent for the nonnegative tolerances used). -/
def V3.distSq {α : Type} [Mul α] [Add α] [Sub α] (a b : V3 α) : α :=
  (a.sub b).lengthSq

/-- `a.length()`. -/
def V3.length (a : V3 ℝ) : ℝ := Real.sqrt a.lengthSq

/-- three.js `Vector3.normalize`: `divideScalar(length() || 1)` (a zero-length vector is
left unchanged). -/
def V3.normalize (a : V3 ℝ) : V3 ℝ :=
  if a.length = 0 then a else ⟨a.x / a.length, a.y / a.length, a.z / a.length⟩

/-- `coordsToVector3` (src/api/coords-to-vector-3.ts lines 76-91).  Returns the
`[x, y, z]` tuple together with the updated mercator cache; the loop count is
`Math.ceil(Math.abs(Δlat)) * 100 + 1`. -/
def coordsToVector3 (cache : MercCache) (point origin : Coords) : V3 ℝ × MercCache :=
  let latitudeDiff := (point.latitude - origin.latitude) * DEG2RAD
  let longitudeDiff := (point.longitude - origin.longitude) * DEG2RAD
  let altitudeDiff := point.altitudeOr0 - origin.altitudeOr0
  let x := longitudeDiff * earthRadius * Real.cos (origin.latitude * DEG2RAD)
  let y := altitudeDiff
  let steps : ℕ := (⌈|point.latitude - origin.latitude|⌉).toNat * 100 + 1
  let av := averageMercatorScale cache origin.latitude point.latitude steps
  let sc := getMercatorScale av.2 origin.latitude
  let z := -latitudeDiff * earthRadius / sc.1 * av.1
  (⟨x, y, z⟩, sc.2)

/-- `vector3ToCoords` (src/api/vector-3-to-coords.ts lines 44-51): the (intentionally
only approximate) inverse conversion, using only the origin's mercator scale. -/
def vector3ToCoords (position : V3 ℝ) (origin : Coords) : Coords :=
  let latitude := origin.latitude + -position.z / earthRadius * RAD2DEG
  let longitude :=
    origin.longitude + position.x / earthRadius * RAD2DEG / Real.cos (origin.latitude * DEG2RAD)
  let altitude := origin.altitudeOr0 + position.y
  ⟨longitude, latitude, some altitude⟩

end

/-! ## Basic facts about the conversion pair -/

theorem earthRadius_pos : (0 : ℝ) < earthRadius := by norm_num [earthRadius]

theorem DEG2RAD_pos : (0 : ℝ) < DEG2RAD := by
  have := Real.pi_pos
  unfold DEG2RAD
  positivity

/-- The `z` output of `coordsToVector3` vanishes whenever the two latitudes agree,
independently of the cache contents (the latitude difference multiplies the whole
expression). -/
theorem coordsToVector3_z_eq_zero_of_lat_eq (cache : MercCache) (point origin : Coords)
    (h : point.latitude = origin.latitude) :
    ((coordsToVector3 cache point origin).1).z = 0 := by
  simp only [coordsToVector3, h, sub_self, zero_mul, neg_zero, zero_div]

theorem coordsToVector3_x (cache : MercCache) (point origin : Coords) :
    ((coordsToVector3 cache point origin).1).x =
      (point.longitude - origin.longitude) * DEG2RAD * earthRadius *
        Real.cos (origin.latitude * DEG2RAD) := rfl

theorem coordsToVector3_y (cache : MercCache) (point origin : Coords) :
    ((coordsToVector3 cache point origin).1).y =
      point.altitudeOr0 - origin.altitudeOr0 := rfl

/-- Helper: the round trip at equal latitudes, away from the poles, is exact. -/
theorem roundtrip_exact_of_lat_eq_aux (cache : MercCache) (lat lonP lonO : ℝ)
    (altP altO : Option ℝ) (hcos : Real.cos (lat * DEG2RAD) ≠ 0) :
    vector3ToCoords ((coordsToVector3 cache ⟨lonP, lat, altP⟩ ⟨lonO, lat, altO⟩).1)
        ⟨lonO, lat, altO⟩ =
      ⟨lonP, lat, some (altP.getD 0)⟩ := by
  have hz : ((coordsToVector3 cache ⟨lonP, lat, altP⟩ ⟨lonO, lat, altO⟩).1).z = 0 :=
    coordsToVector3_z_eq_zero_of_lat_eq _ _ _ rfl
  have hpi : Real.pi ≠ 0 := Real.pi_ne_zero
  have hR : earthRadius ≠ 0 := ne_of_gt earthRadius_pos
  unfold vector3ToCoords
  rw [hz, coordsToVector3_x, coordsToVector3_y]
  simp only [Coords.mk.injEq, Coords.altitudeOr0, Option.some.injEq]
  set c := Real.cos (lat * DEG2RAD) with hcdef
  refine ⟨?_, by ring, by ring⟩
  simp only [DEG2RAD, RAD2DEG]
  field_simp
  ring

/-- Claim C9 (amended): for every origin *whose latitude is not a pole of the projection
(`cos(lat·π/180) ≠ 0`)* and every point at the same latitude,
`vector3ToCoords (coordsToVector3 point origin) origin` returns exactly the point's
longitude, latitude and altitude (absent altitudes treated as 0), under every cache
state; and `coordsToVector3 origin origin = (0, 0, 0)` for every origin whatsoever. -/
theorem roundtrip_exact_of_lat_eq :
    (∀ (cache : MercCache) (lat lonP lonO : ℝ) (altP altO : Option ℝ),
        Real.cos (lat * DEG2RAD) ≠ 0 →
        vector3ToCoords ((coordsToVector3 cache ⟨lonP, lat, altP⟩ ⟨lonO, lat, altO⟩).1)
            ⟨lonO, lat, altO⟩ =
          ⟨lonP, lat, some (altP.getD 0)⟩) ∧
    (∀ (cache : MercCache) (origin : Coords),
        (coordsToVector3 cache origin origin).1 = ⟨0, 0, 0⟩) := by
  refine ⟨fun cache lat lonP lonO altP altO hcos =>
    roundtrip_exact_of_lat_eq_aux cache lat lonP lonO altP altO hcos, fun cache origin => ?_⟩
  have hz : ((coordsToVector3 cache origin origin).1).z = 0 :=
    coordsToVector3_z_eq_zero_of_lat_eq _ _ _ rfl
  have hx := coordsToVector3_x cache origin origin
  have hy := coordsToVector3_y cache origin origin
  cases hv : (coordsToVector3 cache origin origin).1 with
  | mk a b c =>
    rw [hv] at hz hx hy
    simp only at hz hx hy
    simp only [V3.mk.injEq]
    refine ⟨?_, ?_, hz⟩
    · rw [hx]; ring
    · rw [hy]; ring

/-- Witness for `roundtrip_exact_of_lat_eq` at latitude `0`, longitudes `1` and `2`. -/
theorem roundtrip_exact_of_lat_eq_witness :
    vector3ToCoords
        ((coordsToVector3 MercCache.fresh ⟨1, 0, none⟩ ⟨2, 0, none⟩).1) ⟨2, 0, none⟩ =
      ⟨1, 0, some 0⟩ :=
  roundtrip_exact_of_lat_eq.1 MercCache.fresh 0 1 2 none none
    (by rw [zero_mul, Real.cos_zero]; norm_num)

/-- Claim C9, counterexample: at the north pole (`latitude = 90`) the exact-arithmetic
round trip does *not* return the point: `cos (90°) = 0`, so the `x` offset collapses to
`0` and the longitude degenerates to the origin's longitude. -/
theorem roundtrip_fails_at_pole :
    (vector3ToCoords ((coordsToVector3 MercCache.fresh ⟨1, 90, none⟩ ⟨0, 90, none⟩).1)
        ⟨0, 90, none⟩).longitude ≠ (1 : ℝ) := by
  have hcos : Real.cos ((90 : ℝ) * DEG2RAD) = 0 := by
    have : (90 : ℝ) * DEG2RAD = Real.pi / 2 := by
      unfold DEG2RAD; ring
    rw [this, Real.cos_pi_div_two]
  have hz : ((coordsToVector3 MercCache.fresh ⟨1, 90, none⟩ ⟨0, 90, none⟩).1).x = 0 := by
    rw [coordsToVector3_x, hcos, mul_zero]
  unfold vector3ToCoords
  rw [hz]
  norm_num

/-! ## Mesh data model and the point-containment engine (src/api/coordinates.tsx) -/

noncomputable section
local instance (priority := low) propDecA (p : Prop) : Decidable p :=
  Classical.propDecidable p

/-- A three.js `BufferAttribute` holding flat vertex data (external collaborator):
a flat numeric array plus the per-item component count. -/
structure PositionAttr (α : Type) where
  array : List α
  itemSize : ℕ

/-- A three.js `BufferGeometry` as consumed by this core (the spec's "indexed or
non-indexed triangle soup with 3D positions"): an optional position attribute and an
optional index buffer. -/
structure BufferGeometry (α : Type) where
  position : Option (PositionAttr α)
  index : Option (List ℕ)

/-- `GeoVertex` (src/api/polyhedral-surface.ts): a geographic vertex whose altitude is
always present. -/
structure GeoVertex where
  longitude : ℝ
  latitude : ℝ
  altitude : ℝ


/-- `GeoTriangle` (src/api/polyhedral-surface.ts). -/
structure GeoTriangle where
  v0 : GeoVertex
  v1 : GeoVertex
  v2 : GeoVertex


/-- A `GeoVertex` used as a `Coords` value (the source passes it structurally). -/
def GeoVertex.toCoords (v : GeoVertex) : Coords :=
  ⟨v.longitude, v.latitude, some v.altitude⟩

/-- `isFiniteNumber` (src/api/polyhedral-surface.ts lines 61-63).  In the exact-real
model NaN and ±∞ do not exist, so every modelled number is finite; in the source this
rejects non-finite doubles.  (Where the source *produces* a non-finite number — reading
past the end of a typed array — the model uses `Option` reads instead, see
`vertexAtOpt`.) -/
def isFiniteNumber (_x : ℝ) : Bool := true

/-- Consecutive 9-element chunks of a flat position array, as walked by the non-indexed
branches of the containment engine (`for (i = 0; i < positions.length; i += 9)`).
A trailing incomplete chunk is dropped: in JS it reads `undefined`/NaN components, and a
NaN triangle is never within tolerance and never intersects the ray, so dropping it is
extensionally faithful for these loops. -/
def chunks9 {α : Type} : List α → List (V3 α × V3 α × V3 α)
  | a :: b :: c :: d :: e :: f :: g :: h :: i :: rest =>
      (⟨a, b, c⟩, ⟨d, e, f⟩, ⟨g, h, i⟩) :: chunks9 rest
  | _ => []

/-- Consecutive index triples (`for (i = 0; i < indices.length; i += 3)`), dropping a
trailing incomplete triple (same NaN argument as `chunks9`). -/
def idxTriples : List ℕ → List (ℕ × ℕ × ℕ)
  | a :: b :: c :: rest => (a, b, c) :: idxTriples rest
  | _ => []

/-- Vertex number `j` of a flat position array (`positions[3j], positions[3j+1],
positions[3j+2]`); out-of-range reads default to `0` (the claims never exercise them). -/
def vertexAt {α : Type} (zero : α) (positions : List α) (j : ℕ) : V3 α :=
  ⟨positions.getD (3 * j) zero, positions.getD (3 * j + 1) zero,
    positions.getD (3 * j + 2) zero⟩

/-- The triangle list walked by the containment/validation loops: indexed triples when an
index buffer is present, otherwise consecutive 9-element position chunks. -/
def triangleList {α : Type} (zero : α) (g : BufferGeometry α) : List (V3 α × V3 α × V3 α) :=
  match g.position, g.index with
  | none, _ => []
  | some p, some idx =>
      (idxTriples idx).map fun t =>
        (vertexAt zero p.array t.1, vertexAt zero p.array t.2.1, vertexAt zero p.array t.2.2)
  | some p, none => chunks9 p.array

/-- `RAY_DIRECTION` (src/api/coordinates.tsx line 149): `(1, 0.0001, 0.0001).normalize()`. -/
def RAY_DIRECTION : V3 ℝ := (V3.mk (1 : ℝ) 0.0001 0.0001).normalize

/-- `RAY_EPSILON` (src/api/coordinates.tsx line 150). -/
def RAY_EPSILON : ℝ := 1e-12

/-- `BOUNDARY_TOLERANCE` (src/api/coordinates.tsx line 151). -/
def BOUNDARY_TOLERANCE : ℝ := 1e-3

/-- Port of three.js `Triangle.closestPointToPoint` (external collaborator; the clamped
closest-point-on-triangle computation from Ericson, *Real-Time Collision Detection*). -/
def closestPointToPoint (a b c p : V3 ℝ) : V3 ℝ :=
  let vab := b.sub a
  let vac := c.sub a
  let vap := p.sub a
  let d1 := vab.dot vap
  let d2 := vac.dot vap
  if d1 ≤ 0 ∧ d2 ≤ 0 then a
  else
    let vbp := p.sub b
    let d3 := vab.dot vbp
    let d4 := vac.dot vbp
    if d3 ≥ 0 ∧ d4 ≤ d3 then b
    else
      let vc := d1 * d4 - d3 * d2
      if vc ≤ 0 ∧ d1 ≥ 0 ∧ d3 ≤ 0 then a.addScaled vab (d1 / (d1 - d3))
      else
        let vcp := p.sub c
        let d5 := vab.dot vcp
        let d6 := vac.dot vcp
        if d6 ≥ 0 ∧ d5 ≤ d6 then c
        else
          let vb := d5 * d2 - d1 * d6
          if vb ≤ 0 ∧ d2 ≥ 0 ∧ d6 ≤ 0 then a.addScaled vac (d2 / (d2 - d6))
          else
            let va := d3 * d6 - d5 * d4
            if va ≤ 0 ∧ d4 - d3 ≥ 0 ∧ d5 - d6 ≥ 0 then
              b.addScaled (c.sub b) ((d4 - d3) / (d4 - d3 + (d5 - d6)))
            else
              let denom := 1 / (va + vb + vc)
              (a.addScaled vab (vb * denom)).addScaled vac (vc * denom)

/-- The guarded body of three.js `Ray.intersectTriangle` after the sign of the
direction/normal product has been resolved. -/
def intersectTriangleCore (rayOrigin rayDir a edge1 edge2 normal : V3 ℝ)
    (sgn DdN : ℝ) : Option (V3 ℝ) :=
  let diff := rayOrigin.sub a
  let DdQxE2 := sgn * rayDir.dot (diff.cross edge2)
  if DdQxE2 < 0 then none
  else
    let DdE1xQ := sgn * rayDir.dot (edge1.cross diff)
    if DdE1xQ < 0 then none
    else if DdQxE2 + DdE1xQ > DdN then none
    else
      let QdN := -sgn * diff.dot normal
      if QdN < 0 then none
      else some (rayOrigin.addScaled rayDir (QdN / DdN))

/-- Port of three.js `Ray.intersectTriangle` (external collaborator). -/
def intersectTriangle (rayOrigin rayDir a b c : V3 ℝ) (backfaceCulling : Bool) :
    Option (V3 ℝ) :=
  let edge1 := b.sub a
  let edge2 := c.sub a
  let normal := edge1.cross edge2
  let DdN := rayDir.dot normal
  if DdN > 0 then
    if backfaceCulling then none
    else intersectTriangleCore rayOrigin rayDir a edge1 edge2 normal 1 DdN
  else if DdN < 0 then intersectTriangleCore rayOrigin rayDir a edge1 edge2 normal (-1) (-DdN)
  else none

/-- The boundary scan shared by `isPointOnSurface` and `isPointInPolyhedron`: whether the
point is within `tolerance` of some triangle (`distanceTo ≤ tolerance`, modelled on
squares). -/
def onSurfaceB (point : V3 ℝ) (tris : List (V3 ℝ × V3 ℝ × V3 ℝ)) (tolerance : ℝ) : Bool :=
  tris.any fun t =>
    decide (point.distSq (closestPointToPoint t.1 t.2.1 t.2.2 point) ≤ tolerance ^ 2)

/-- `isPointOnSurface` (src/api/coordinates.tsx lines 409-459). -/
def isPointOnSurface (point : V3 ℝ) (g : BufferGeometry ℝ) (tolerance : ℝ) :
    Except String Bool :=
  match g.position with
  | none =>
      .error ("BufferGeometry must have a 'position' attribute for surface testing. " ++
        "Ensure the geometry is properly initialized.")
  | some _ => .ok (onSurfaceB point (triangleList 0 g) tolerance)

/-- The counting loop of `isPointInPolyhedron`: ray-triangle hits strictly ahead of the
origin (dot with the ray direction above `RAY_EPSILON`). -/
def countRayHits (rayOrigin : V3 ℝ) (tris : List (V3 ℝ × V3 ℝ × V3 ℝ)) : ℕ :=
  tris.foldl
    (fun n t =>
      match intersectTriangle rayOrigin RAY_DIRECTION t.1 t.2.1 t.2.2 false with
      | none => n
      | some target =>
          if (target.sub rayOrigin).dot RAY_DIRECTION > RAY_EPSILON then n + 1 else n)
    0

/-- The result record of the containment engine.  (In the source `onBoundary` is an
optional field of the interface, but every return site of the functions modelled here
sets it, so it is modelled as a plain `Bool`.) -/
structure PointInPolyhedronResult where
  inside : Bool
  onBoundary : Bool
  intersectionCount : ℕ
deriving DecidableEq, Repr

/-- `isPointInPolyhedron` (src/api/coordinates.tsx lines 183-266). -/
def isPointInPolyhedron (point : V3 ℝ) (g : BufferGeometry ℝ) :
    Except String PointInPolyhedronResult :=
  match g.position with
  | none =>
      .error ("BufferGeometry must have a 'position' attribute for point-in-polyhedron " ++
        "testing. Ensure the geometry is properly initialized.")
  | some p =>
      if p.itemSize ≠ 3 then
        .error "Expected position attribute itemSize of 3. BufferGeometry must contain 3D positions."
      else if g.index = none ∧ p.array.length % 3 ≠ 0 then
        .error "Non-indexed BufferGeometry position array length must be a multiple of 3."
      else if (g.index.getD []).length % 3 ≠ 0 then
        .error "Indexed BufferGeometry must have indices in multiples of 3."
      else if onSurfaceB point (triangleList 0 g) BOUNDARY_TOLERANCE then
        .ok ⟨true, true, 0⟩
      else
        let n := countRayHits point (triangleList 0 g)
        .ok ⟨decide (n % 2 = 1), false, n⟩

/-- One vertex conversion of `isPointInGeoTriangles` (`geoVertexToVector3`), threading the
mercator cache. -/
def geoVertexToVector3 (cache : MercCache) (v : GeoVertex) (origin : Coords) :
    V3 ℝ × MercCache :=
  coordsToVector3 cache v.toCoords origin

/-- The triangle loop of `isPointInGeoTriangles`: converts the three vertices, returns the
boundary record when the point is within tolerance of the converted triangle, and
otherwise accumulates ray hits. -/
def isPointInGeoTrianglesLoop (rayOrigin : V3 ℝ) (origin : Coords) :
    MercCache → ℕ → List GeoTriangle → PointInPolyhedronResult × MercCache
  | cache, n, [] => (⟨decide (n % 2 = 1), false, n⟩, cache)
  | cache, n, tri :: rest =>
      let ra := geoVertexToVector3 cache tri.v0 origin
      let rb := geoVertexToVector3 ra.2 tri.v1 origin
      let rc := geoVertexToVector3 rb.2 tri.v2 origin
      if rayOrigin.distSq (closestPointToPoint ra.1 rb.1 rc.1 rayOrigin) ≤
          BOUNDARY_TOLERANCE ^ 2 then
        (⟨true, true, 0⟩, rc.2)
      else
        let n' :=
          match intersectTriangle rayOrigin RAY_DIRECTION ra.1 rb.1 rc.1 false with
          | none => n
          | some target =>
              if (target.sub rayOrigin).dot RAY_DIRECTION > RAY_EPSILON then n + 1 else n
        isPointInGeoTrianglesLoop rayOrigin origin rc.2 n' rest

/-- `isPointInGeoTriangles` (src/api/coordinates.tsx lines 341-388). -/
def isPointInGeoTriangles (point : V3 ℝ) (triangles : List GeoTriangle) (origin : Coords)
    (cache : MercCache) : PointInPolyhedronResult × MercCache :=
  isPointInGeoTrianglesLoop point origin cache 0 triangles

/-- `isCoordsInGeoTriangles` (src/api/coordinates.tsx lines 324-331). -/
def isCoordsInGeoTriangles (coords : Coords) (triangles : List GeoTriangle)
    (origin : Coords) (cache : MercCache) : PointInPolyhedronResult × MercCache :=
  let pc := coordsToVector3 cache coords origin
  isPointInGeoTriangles pc.1 triangles origin pc.2

/-- `geoTrianglesToBufferGeometry` (src/api/polyhedral-surface.ts lines 538-570); the
derived `computeVertexNormals` attribute is outside the model.  `assertFiniteVertex`
always succeeds in the exact-real model (see `isFiniteNumber`). -/
def geoTrianglesToBufferGeometry (triangles : List GeoTriangle) (origin : Coords)
    (cache : MercCache) : Except String (BufferGeometry ℝ × MercCache) :=
  if triangles.length = 0 then
    .error ("Cannot create BufferGeometry from empty triangles array. " ++
      "Provide at least one GeoTriangle.")
  else
    let fold :=
      triangles.foldl
        (fun (acc : List ℝ × MercCache) tri =>
          let p0 := coordsToVector3 acc.2 tri.v0.toCoords origin
          let p1 := coordsToVector3 p0.2 tri.v1.toCoords origin
          let p2 := coordsToVector3 p1.2 tri.v2.toCoords origin
          (acc.1 ++ [p0.1.x, p0.1.y, p0.1.z, p1.1.x, p1.1.y, p1.1.z,
            p2.1.x, p2.1.y, p2.1.z], p2.2))
        ([], cache)
    .ok (⟨some ⟨fold.1, 3⟩, none⟩, fold.2)

end

/-! ## Claim C10: empty triangle lists -/

/-- Claim C10: `isPointInGeoTriangles` (and hence `isCoordsInGeoTriangles`) on an empty
triangle list does not fail: it returns `{inside := false, onBoundary := false,
intersectionCount := 0}` for every point, origin and cache state — unlike
`geoTrianglesToBufferGeometry`, which fails on an empty triangle list. -/
theorem emptyTriangles_contrast :
    (∀ (point : V3 ℝ) (origin : Coords) (cache : MercCache),
        (isPointInGeoTriangles point [] origin cache).1 = ⟨false, false, 0⟩) ∧
    (∀ (coords origin : Coords) (cache : MercCache),
        (isCoordsInGeoTriangles coords [] origin cache).1 = ⟨false, false, 0⟩) ∧
    (∀ (origin : Coords) (cache : MercCache), ∃ msg,
        geoTrianglesToBufferGeometry [] origin cache = .error msg) := by
  refine ⟨fun point origin cache => rfl, fun coords origin cache => rfl,
    fun origin cache => ⟨_, rfl⟩⟩

/-! ## Claim C5: the boundary convention -/

/-- "The query point lies within the boundary tolerance of some triangle", for the
geo-triangle flavour of the engine: the loop's own boundary test holds at some triangle,
with the mercator cache threaded through the vertex conversions exactly as the loop
threads it. -/
def nearSomeGeoTriangle (rayOrigin : V3 ℝ) (origin : Coords) :
    MercCache → List GeoTriangle → Prop
  | _, [] => False
  | cache, tri :: rest =>
      let ra := geoVertexToVector3 cache tri.v0 origin
      let rb := geoVertexToVector3 ra.2 tri.v1 origin
      let rc := geoVertexToVector3 rb.2 tri.v2 origin
      rayOrigin.distSq (closestPointToPoint ra.1 rb.1 rc.1 rayOrigin) ≤
          BOUNDARY_TOLERANCE ^ 2 ∨
        nearSomeGeoTriangle rayOrigin origin rc.2 rest

/-- Helper: the geo-triangle loop returns the boundary record as soon as some triangle is
within tolerance, for every starting count and cache. -/
theorem isPointInGeoTrianglesLoop_boundary (rayOrigin : V3 ℝ) (origin : Coords) :
    ∀ (tris : List GeoTriangle) (cache : MercCache) (n : ℕ),
      nearSomeGeoTriangle rayOrigin origin cache tris →
      (isPointInGeoTrianglesLoop rayOrigin origin cache n tris).1 = ⟨true, true, 0⟩ := by
  intro tris
  induction tris with
  | nil => intro cache n h; exact absurd h (by simp [nearSomeGeoTriangle])
  | cons tri rest ih =>
      intro cache n h
      simp only [nearSomeGeoTriangle] at h
      simp only [isPointInGeoTrianglesLoop]
      by_cases hb :
        rayOrigin.distSq
            (closestPointToPoint (geoVertexToVector3 cache tri.v0 origin).1
              (geoVertexToVector3 (geoVertexToVector3 cache tri.v0 origin).2 tri.v1 origin).1
              (geoVertexToVector3
                (geoVertexToVector3 (geoVertexToVector3 cache tri.v0 origin).2 tri.v1
                  origin).2 tri.v2 origin).1 rayOrigin) ≤ BOUNDARY_TOLERANCE ^ 2
      · rw [if_pos hb]
      · rw [if_neg hb]
        rcases h with h | h
        · exact absurd h hb
        · exact ih _ _ h

/-- Claim C5: for every mesh (passing the structural checks that precede the test) and
every query point within `BOUNDARY_TOLERANCE = 1e-3` of some triangle, and likewise for
every GeoTriangle list, the containment test returns
`{inside := true, onBoundary := true, intersectionCount := 0}` (the ray-cast counter is
never reported). -/
theorem boundary_convention :
    (∀ (g : BufferGeometry ℝ) (pa : PositionAttr ℝ) (point : V3 ℝ),
        g.position = some pa → pa.itemSize = 3 →
        (g.index = none → pa.array.length % 3 = 0) →
        (∀ idx, g.index = some idx → idx.length % 3 = 0) →
        (∃ t ∈ triangleList 0 g,
          point.distSq (closestPointToPoint t.1 t.2.1 t.2.2 point) ≤
            BOUNDARY_TOLERANCE ^ 2) →
        isPointInPolyhedron point g = .ok ⟨true, true, 0⟩) ∧
    (∀ (point : V3 ℝ) (origin : Coords) (cache : MercCache) (tris : List GeoTriangle),
        nearSomeGeoTriangle point origin cache tris →
        (isPointInGeoTriangles point tris origin cache).1 = ⟨true, true, 0⟩) := by
  constructor
  · intro g pa point hpos hitem hlen hidx hnear
    have hsurf : onSurfaceB point (triangleList 0 g) BOUNDARY_TOLERANCE = true := by
      rcases hnear with ⟨t, ht, hd⟩
      simp only [onSurfaceB, List.any_eq_true, decide_eq_true_eq]
      exact ⟨t, ht, hd⟩
    rcases g with ⟨gp, gidx⟩
    simp only at hpos
    subst hpos
    cases gidx with
    | none => simp [isPointInPolyhedron, hitem, hlen rfl, hsurf]
    | some idx =>
        have hidx' := hidx idx rfl
        simp [isPointInPolyhedron, hitem, hidx', hsurf]
  · intro point origin cache tris h
    exact isPointInGeoTrianglesLoop_boundary point origin tris cache 0 h

/-- Helper: converting the zero geo-vertex relative to the zero origin yields the zero
local point, whatever the cache. -/
theorem geoVertexToVector3_zero (cache : MercCache) :
    (geoVertexToVector3 cache ⟨0, 0, 0⟩ ⟨0, 0, none⟩).1 = ⟨0, 0, 0⟩ := by
  have hz : ((coordsToVector3 cache ⟨0, 0, some 0⟩ ⟨0, 0, none⟩).1).z = 0 :=
    coordsToVector3_z_eq_zero_of_lat_eq _ _ _ rfl
  have hx := coordsToVector3_x cache ⟨0, 0, some 0⟩ ⟨0, 0, none⟩
  have hy := coordsToVector3_y cache ⟨0, 0, some 0⟩ ⟨0, 0, none⟩
  simp only [Coords.altitudeOr0, Option.getD_some, Option.getD_none, sub_self,
    zero_mul, sub_zero] at hx hy
  unfold geoVertexToVector3 GeoVertex.toCoords
  cases hv : (coordsToVector3 cache ⟨0, 0, some 0⟩ ⟨0, 0, none⟩).1 with
  | mk a b c =>
      rw [hv] at hz hx hy
      simp only at hz hx hy
      simp only [V3.mk.injEq]
      exact ⟨hx, hy, hz⟩

/-- Helper: the closest point on the degenerate all-zero triangle to the zero point is
the zero point itself, so the zero point is within tolerance. -/
theorem closestPoint_zero_triangle :
    V3.distSq (⟨0, 0, 0⟩ : V3 ℝ)
        (closestPointToPoint ⟨0, 0, 0⟩ ⟨0, 0, 0⟩ ⟨0, 0, 0⟩ ⟨0, 0, 0⟩) ≤
      BOUNDARY_TOLERANCE ^ 2 := by
  have hc : closestPointToPoint (⟨0, 0, 0⟩ : V3 ℝ) ⟨0, 0, 0⟩ ⟨0, 0, 0⟩ ⟨0, 0, 0⟩ =
      ⟨0, 0, 0⟩ := by
    unfold closestPointToPoint
    rw [if_pos]
    constructor <;> simp [V3.sub, V3.dot]
  rw [hc]
  simp [V3.distSq, V3.sub, V3.dot, V3.lengthSq, BOUNDARY_TOLERANCE]
  norm_num

/-- Witness for `boundary_convention`: a query point sitting exactly on a triangle vertex
is classified `inside`/`onBoundary` with intersection count `0`, in both flavours. -/
theorem boundary_convention_witness :
    isPointInPolyhedron (⟨0, 0, 0⟩ : V3 ℝ)
        ⟨some ⟨[0, 0, 0, 0, 0, 0, 0, 0, 0], 3⟩, none⟩ = .ok ⟨true, true, 0⟩ ∧
    (isPointInGeoTriangles ⟨0, 0, 0⟩ [⟨⟨0, 0, 0⟩, ⟨0, 0, 0⟩, ⟨0, 0, 0⟩⟩] ⟨0, 0, none⟩
        MercCache.fresh).1 = ⟨true, true, 0⟩ := by
  constructor
  · refine boundary_convention.1 _ ⟨[0, 0, 0, 0, 0, 0, 0, 0, 0], 3⟩ ⟨0, 0, 0⟩ rfl rfl
      (fun _ => by norm_num) (fun idx h => Option.noConfusion h) ?_
    refine ⟨(⟨0, 0, 0⟩, ⟨0, 0, 0⟩, ⟨0, 0, 0⟩), ?_, closestPoint_zero_triangle⟩
    simp [triangleList, chunks9]
  · refine boundary_convention.2 _ _ _ _ ?_
    simp only [nearSomeGeoTriangle, geoVertexToVector3_zero]
    exact Or.inl closestPoint_zero_triangle

/-! ## Geometry validator (src/api/polyhedral-surface.ts lines 597-724)

The validator performs only rational arithmetic on the mesh positions, so it is defined
generically over a linear ordered field with a floor: instantiating it at `ℚ` lets
concrete meshes be validated by `decide`, while `ℝ` keeps it compatible with the rest of
the model. -/

section Validator

variable {α : Type} [LinearOrderedField α] [FloorRing α]

/-- `MIN_AREA_TOLERANCE` (src/api/polyhedral-surface.ts line 56): `1e-12`. -/
def MIN_AREA_TOLERANCE {α : Type} [DivisionRing α] : α := 1 / 10 ^ 12

/-- Generic association-list lookup (JS `Map.get`). -/
def alLookup {κ ν : Type} [DecidableEq κ] : List (κ × ν) → κ → Option ν
  | [], _ => none
  | (k, v) :: rest, k' => if k = k' then some v else alLookup rest k'

/-- `getVertexId`: look up the rounded-position key, or assign the next id (`map.size`)
and append the entry (JS `Map.set` appends in insertion order). -/
def getVertexId (m : List ((ℤ × ℤ × ℤ) × ℕ)) (k : ℤ × ℤ × ℤ) :
    ℕ × List ((ℤ × ℤ × ℤ) × ℕ) :=
  match alLookup m k with
  | some id => (id, m)
  | none => (m.length, m ++ [(k, m.length)])

/-- `addEdge`'s unordered edge key: the source builds the string `"a-b"` with `a < b`
(injective in the id pair), modelled as the ordered pair itself. -/
def edgeKey (a b : ℕ) : ℕ × ℕ := if a < b then (a, b) else (b, a)

/-- `edgeCounts.set(key, (edgeCounts.get(key) ?? 0) + 1)`: bump the counter of an edge
key, keeping insertion order (JS `Map` semantics). -/
def bumpEdge : List ((ℕ × ℕ) × ℕ) → (ℕ × ℕ) → List ((ℕ × ℕ) × ℕ)
  | [], k => [(k, 1)]
  | (k', n) :: rest, k =>
      if k' = k then (k', n + 1) :: rest else (k', n) :: bumpEdge rest k

/-- The mutable state of `validatePolyhedronGeometry`'s triangle loop. -/
structure ValidState where
  errors : List String
  vertexIds : List ((ℤ × ℤ × ℤ) × ℕ)
  edgeCounts : List ((ℕ × ℕ) × ℕ)
  triangleCount : ℕ

/-- The rounded-to-tolerance vertex identity key
(`Math.round(coord * (1 / tolerance))` per axis; the source joins the three integers
into a string, which is injective, so the integer triple is kept directly). -/
def vertexKey (tolerance : α) (v : V3 α) : ℤ × ℤ × ℤ :=
  let inv := 1 / tolerance
  (round (v.x * inv), round (v.y * inv), round (v.z * inv))

/-- `processTriangle` (src/api/polyhedral-surface.ts lines 670-689): flag degenerate
triangles (and skip their edges), otherwise resolve logical vertex ids and bump the three
edge counters. -/
def processTriangle (tolerance : α) (st : ValidState) (t : V3 α × V3 α × V3 α) :
    ValidState :=
  let a := t.1
  let b := t.2.1
  let c := t.2.2
  let areaSq := ((b.sub a).cross (c.sub a)).lengthSq
  if areaSq ≤ MIN_AREA_TOLERANCE then
    { st with errors := st.errors ++ ["Degenerate triangle detected (zero area)."] }
  else
    let ra := getVertexId st.vertexIds (vertexKey tolerance a)
    let rb := getVertexId ra.2 (vertexKey tolerance b)
    let rc := getVertexId rb.2 (vertexKey tolerance c)
    let e1 := bumpEdge st.edgeCounts (edgeKey ra.1 rb.1)
    let e2 := bumpEdge e1 (edgeKey rb.1 rc.1)
    let e3 := bumpEdge e2 (edgeKey rc.1 ra.1)
    ⟨st.errors, rc.2, e3, st.triangleCount + 1⟩

/-- The result record of `validatePolyhedronGeometry`. -/
structure GeometryValidationResult where
  isValid : Bool
  errors : List String
  triangleCount : ℕ
  nonManifoldEdgeCount : ℕ
deriving DecidableEq, Repr

/-- `validatePolyhedronGeometry` (src/api/polyhedral-surface.ts lines 597-724); the
source's default `tolerance` is `1e-6` (passed explicitly here). -/
def validatePolyhedronGeometry (g : BufferGeometry α) (tolerance : α) :
    GeometryValidationResult :=
  match g.position with
  | none => ⟨false, ["BufferGeometry must have a 'position' attribute."], 0, 0⟩
  | some p =>
      let errs0 : List String :=
        (if p.itemSize ≠ 3 then ["Expected position attribute itemSize of 3."] else []) ++
        (if p.array.length % 3 ≠ 0 then
          ["Position array length must be a multiple of 3."] else []) ++
        (if g.index = none ∧ p.array.length % 9 ≠ 0 then
          ["Non-indexed geometries must have 9 position entries per triangle."] else []) ++
        (match g.index with
          | some idx =>
              if idx.length % 3 ≠ 0 then
                ["Indexed geometries must have indices in multiples of 3."] else []
          | none => [])
      if errs0 ≠ [] then ⟨false, errs0, 0, 0⟩
      else
        let st := (triangleList 0 g).foldl (processTriangle tolerance) ⟨[], [], [], 0⟩
        let nonManifold := (st.edgeCounts.filter fun e => e.2 ≠ 2).length
        let errs := st.errors ++
          (if nonManifold > 0 then
            ["Found " ++ toString nonManifold ++
              " non-manifold edges (expected 2 uses per edge)."] else [])
        ⟨errs.isEmpty, errs, st.triangleCount, nonManifold⟩

end Validator

/-! ## Claim C4: watertightness of a cube mesh -/

/-- A non-indexed unit-cube mesh: 12 triangles (two per face), 36 vertex triples, whose
8 logical corners coincide exactly (hence within any vertex-rounding tolerance). -/
def cubePositions : List ℚ :=
  [0, 0, 0,  1, 0, 0,  1, 1, 0,   0, 0, 0,  1, 1, 0,  0, 1, 0,
   0, 0, 1,  1, 0, 1,  1, 1, 1,   0, 0, 1,  1, 1, 1,  0, 1, 1,
   0, 0, 0,  1, 0, 0,  1, 0, 1,   0, 0, 0,  1, 0, 1,  0, 0, 1,
   0, 1, 0,  1, 1, 0,  1, 1, 1,   0, 1, 0,  1, 1, 1,  0, 1, 1,
   0, 0, 0,  0, 1, 0,  0, 1, 1,   0, 0, 0,  0, 1, 1,  0, 0, 1,
   1, 0, 0,  1, 1, 0,  1, 1, 1,   1, 0, 0,  1, 1, 1,  1, 0, 1]

/-- The cube mesh as a (rational) `BufferGeometry`. -/
def cubeGeometry : BufferGeometry ℚ := ⟨some ⟨cubePositions, 3⟩, none⟩

/-- The same cube with its last triangle removed (33 vertex triples). -/
def cubeMissingOne : BufferGeometry ℚ := ⟨some ⟨cubePositions.take 99, 3⟩, none⟩

/-- Claim C4: the watertight 12-triangle cube validates with `nonManifoldEdgeCount = 0`
and `isValid = true`; removing one triangle yields `nonManifoldEdgeCount > 0` and
`isValid = false` (at the source's default tolerance `1e-6`). -/
theorem cube_watertightness :
    (validatePolyhedronGeometry cubeGeometry (1 / 10 ^ 6)).nonManifoldEdgeCount = 0 ∧
    (validatePolyhedronGeometry cubeGeometry (1 / 10 ^ 6)).isValid = true ∧
    (validatePolyhedronGeometry cubeMissingOne (1 / 10 ^ 6)).nonManifoldEdgeCount > 0 ∧
    (validatePolyhedronGeometry cubeMissingOne (1 / 10 ^ 6)).isValid = false := by
  refine ⟨by with_unfolding_all decide, by with_unfolding_all decide,
    by with_unfolding_all decide, by with_unfolding_all decide⟩

/-! ## Triangle extraction (src/api/polyhedral-surface.ts lines 209-276) -/

noncomputable section
local instance (priority := low) propDecB (p : Prop) : Decidable p :=
  Classical.propDecidable p

/-- Read the three components of one vertex from a flat position array.  A read past the
end is JS `undefined`, which poisons the converted vertex with NaN and makes
`assertFiniteVertex` throw; this is modelled by returning `none`. -/
def vertexAtOpt (positions : List ℝ) (i : ℕ) : Option (V3 ℝ) :=
  match positions.get? i, positions.get? (i + 1), positions.get? (i + 2) with
  | some a, some b, some c => some ⟨a, b, c⟩
  | _, _, _ => none

/-- `toGeoVertex` (src/api/polyhedral-surface.ts lines 180-189): convert a local tuple via
`vector3ToCoords` and assert finiteness.  A `none` tuple models the NaN-poisoned case, in
which `assertFiniteVertex` throws. -/
def toGeoVertex (tuple : Option (V3 ℝ)) (origin : Coords) : Except String GeoVertex :=
  match tuple with
  | none => .error "Encountered non-finite coordinate when building GeoVertex."
  | some t =>
      let coords := vector3ToCoords t origin
      .ok ⟨coords.longitude, coords.latitude, coords.altitudeOr0⟩

/-- One iteration of the non-indexed extraction loop, reading the 9-float chunk starting
at offset `i`. -/
def extractTriangleAt (positions : List ℝ) (origin : Coords) (i : ℕ) :
    Except String GeoTriangle := do
  let v0 ← toGeoVertex (vertexAtOpt positions i) origin
  let v1 ← toGeoVertex (vertexAtOpt positions (i + 3)) origin
  let v2 ← toGeoVertex (vertexAtOpt positions (i + 6)) origin
  .ok ⟨v0, v1, v2⟩

/-- One iteration of the indexed extraction loop for an index triple. -/
def extractTriangleIdx (positions : List ℝ) (origin : Coords) (t : ℕ × ℕ × ℕ) :
    Except String GeoTriangle := do
  let v0 ← toGeoVertex (vertexAtOpt positions (t.1 * 3)) origin
  let v1 ← toGeoVertex (vertexAtOpt positions (t.2.1 * 3)) origin
  let v2 ← toGeoVertex (vertexAtOpt positions (t.2.2 * 3)) origin
  .ok ⟨v0, v1, v2⟩

/-- `extractGeoTriangles` (src/api/polyhedral-surface.ts lines 209-276).  The non-indexed
loop visits offsets `0, 9, 18, …` while the offset is below the array length
(`⌈length/9⌉` iterations). -/
def extractGeoTriangles (g : BufferGeometry ℝ) (origin : Coords) :
    Except String (List GeoTriangle) :=
  match g.position with
  | none =>
      .error ("BufferGeometry must have a 'position' attribute. " ++
        "Ensure the geometry is properly initialized before conversion.")
  | some p =>
      if p.itemSize ≠ 3 then
        .error ("Expected position attribute itemSize of 3. " ++
          "BufferGeometry must contain 3D positions.")
      else
        match g.index with
        | none =>
            if p.array.length % 3 ≠ 0 then
              .error "Non-indexed BufferGeometry position array length must be a multiple of 3."
            else
              ((List.range ((p.array.length + 8) / 9)).map (· * 9)).mapM
                (extractTriangleAt p.array origin)
        | some indices =>
            if indices.length % 3 ≠ 0 then
              .error "Indexed BufferGeometry must have indices in multiples of 3."
            else (idxTriples indices).mapM (extractTriangleIdx p.array origin)

end

/-! ## Claim C8: extraction errors -/

/-- Helper: `mapM` over `Except` fails whenever some list element fails. -/
theorem mapM_error_of_mem {α β : Type} (f : α → Except String β) :
    ∀ l : List α, (∃ x ∈ l, ∃ m, f x = .error m) → ∃ m', l.mapM f = .error m' := by
  intro l
  induction l with
  | nil => rintro ⟨x, hx, _⟩; cases hx
  | cons a t ih =>
      rintro ⟨x, hx, m, hm⟩
      rw [List.mapM_cons]
      cases hfa : f a with
      | error e => exact ⟨e, rfl⟩
      | ok b =>
          cases hx with
          | head => rw [hfa] at hm; cases hm
          | tail _ hx =>
              rcases ih ⟨x, hx, m, hm⟩ with ⟨m', hm'⟩
              exact ⟨m', by rw [hm']; rfl⟩

/-- Helper: a 9-float chunk whose third vertex starts past the end of the array cannot be
extracted. -/
theorem extractTriangleAt_error_of_short (positions : List ℝ) (origin : Coords) (i : ℕ)
    (h : positions.length ≤ i + 8) :
    ∃ m, extractTriangleAt positions origin i = .error m := by
  have h2 : vertexAtOpt positions (i + 6) = none := by
    have hg : positions.get? (i + 6 + 2) = none := by
      rw [List.get?_eq_none]
      omega
    unfold vertexAtOpt
    rw [hg]
    rcases positions.get? (i + 6) with _ | a <;>
      rcases positions.get? (i + 6 + 1) with _ | b <;> rfl
  unfold extractTriangleAt
  cases hv0 : toGeoVertex (vertexAtOpt positions i) origin with
  | error e => exact ⟨e, rfl⟩
  | ok v0 =>
      cases hv1 : toGeoVertex (vertexAtOpt positions (i + 3)) origin with
      | error e => exact ⟨e, rfl⟩
      | ok v1 =>
          refine ⟨"Encountered non-finite coordinate when building GeoVertex.", ?_⟩
          rw [h2]
          rfl

/-- Claim C8: `extractGeoTriangles` fails whenever the geometry has no position
attribute, or the position `itemSize` is not 3, or it is non-indexed with position length
not divisible by 9, or indexed with index length not divisible by 3; the `Except` result
means no partial triangle list is produced in these cases. -/
theorem extract_errors (g : BufferGeometry ℝ) (origin : Coords)
    (h : g.position = none ∨
      (∃ pa, g.position = some pa ∧ pa.itemSize ≠ 3) ∨
      (∃ pa, g.position = some pa ∧ g.index = none ∧ pa.array.length % 9 ≠ 0) ∨
      (∃ pa idx, g.position = some pa ∧ g.index = some idx ∧ idx.length % 3 ≠ 0)) :
    (extractGeoTriangles g origin).isOk = false := by
  obtain ⟨gp, gidx⟩ := g
  rcases h with h | ⟨pa, hp, hsz⟩ | ⟨pa, hp, hidx, hlen⟩ | ⟨pa, idx, hp, hidx, hlen⟩
  · simp only at h
    subst h
    rfl
  · simp only at hp
    subst hp
    have hred : extractGeoTriangles ⟨some pa, gidx⟩ origin = .error
        ("Expected position attribute itemSize of 3. " ++
          "BufferGeometry must contain 3D positions.") := by
      simp [extractGeoTriangles, hsz]
    rw [hred]
    rfl
  · simp only at hp hidx
    subst hp
    subst hidx
    by_cases hsz : pa.itemSize = 3
    · by_cases h3 : pa.array.length % 3 = 0
      · have hn : 0 < (pa.array.length + 8) / 9 := by
          have : 1 ≤ pa.array.length := by omega
          omega
        have hmem : ((pa.array.length + 8) / 9 - 1) * 9 ∈
            (List.range ((pa.array.length + 8) / 9)).map (· * 9) :=
          List.mem_map.2 ⟨(pa.array.length + 8) / 9 - 1, List.mem_range.2 (by omega), rfl⟩
        have hshort : pa.array.length ≤ ((pa.array.length + 8) / 9 - 1) * 9 + 8 := by
          omega
        rcases extractTriangleAt_error_of_short pa.array origin
            (((pa.array.length + 8) / 9 - 1) * 9) hshort with ⟨m, hm⟩
        rcases mapM_error_of_mem (extractTriangleAt pa.array origin) _
            ⟨((pa.array.length + 8) / 9 - 1) * 9, hmem, m, hm⟩ with ⟨m', hm'⟩
        have hred : extractGeoTriangles ⟨some pa, none⟩ origin =
            ((List.range ((pa.array.length + 8) / 9)).map (· * 9)).mapM
              (extractTriangleAt pa.array origin) := by
          simp [extractGeoTriangles, hsz, h3]
        rw [hred, hm']
        rfl
      · have hred : extractGeoTriangles ⟨some pa, none⟩ origin = .error
            "Non-indexed BufferGeometry position array length must be a multiple of 3." := by
          simp [extractGeoTriangles, hsz, h3]
        rw [hred]
        rfl
    · have hred : extractGeoTriangles ⟨some pa, none⟩ origin = .error
          ("Expected position attribute itemSize of 3. " ++
            "BufferGeometry must contain 3D positions.") := by
        simp [extractGeoTriangles, hsz]
      rw [hred]
      rfl
  · simp only at hp hidx
    subst hp
    subst hidx
    by_cases hsz : pa.itemSize = 3
    · have hred : extractGeoTriangles ⟨some pa, some idx⟩ origin = .error
          "Indexed BufferGeometry must have indices in multiples of 3." := by
        simp [extractGeoTriangles, hsz, hlen]
      rw [hred]
      rfl
    · have hred : extractGeoTriangles ⟨some pa, some idx⟩ origin = .error
          ("Expected position attribute itemSize of 3. " ++
            "BufferGeometry must contain 3D positions.") := by
        simp [extractGeoTriangles, hsz]
      rw [hred]
      rfl

/-- Witness for `extract_errors`: a geometry whose position attribute has `itemSize = 2`. -/
theorem extract_errors_witness :
    (extractGeoTriangles ⟨some ⟨[0, 0, 0], 2⟩, none⟩ ⟨0, 0, none⟩).isOk = false :=
  extract_errors ⟨some ⟨[0, 0, 0], 2⟩, none⟩ ⟨0, 0, none⟩
    (Or.inr (Or.inl ⟨⟨[0, 0, 0], 2⟩, rfl, by decide⟩))

/-! ## WKT parsing: string utilities (src/api/polyhedral-surface.ts lines 418-492)

JS strings are modelled as `List Char`; the regex-based scanning of the source is
modelled by equivalent character-level functions (the equivalences are spelled out in
each doc comment).  The numeric results of `Number()` on decimal tokens are exact
decimal rationals and are kept in `ℚ`, so this whole phase is executable and concrete
parses can be settled by `decide`/`rfl`. -/

section WktStrings

/-- JS whitespace (`\s`) for the ASCII range used by this format: space, tab, newline,
carriage return, vertical tab, form feed.  (JS also trims some exotic Unicode spaces,
which never occur in this format.) -/
def isWsChar (c : Char) : Bool :=
  c = ' ' || c = '\t' || c = '\n' || c = '\r' || c = '\x0b' || c = '\x0c'

/-- Drop leading whitespace. -/
def trimL : List Char → List Char
  | [] => []
  | c :: rest => if isWsChar c then trimL rest else c :: rest

/-- Drop trailing whitespace. -/
def trimR (l : List Char) : List Char := (trimL l.reverse).reverse

/-- JS `String.prototype.trim`. -/
def trimWs (l : List Char) : List Char := trimR (trimL l)

/-- ASCII upper-casing, for the source's case-insensitive (`/i`) regexes. -/
def upChar (c : Char) : Char :=
  if 'a' ≤ c ∧ c ≤ 'z' then Char.ofNat (c.toNat - 32) else c

/-- Match a literal pattern (given upper-case) case-insensitively at the front,
returning the rest of the input. -/
def stripCI : List Char → List Char → Option (List Char)
  | [], s => some s
  | _ :: _, [] => none
  | p :: ps, c :: cs => if upChar c = p then stripCI ps cs else none

def isDigitChar (c : Char) : Bool := '0' ≤ c && c ≤ '9'

def digitVal (c : Char) : ℕ := c.toNat - '0'.toNat

/-- The `SRID=<int>;` prefix strip (`/^SRID=\d+;([\s\S]*)$/i`): case-insensitive
`SRID=`, one or more digits, `;`; on no match the input is returned unchanged. -/
def stripSRID (s : List Char) : List Char :=
  match stripCI ['S', 'R', 'I', 'D', '='] s with
  | none => s
  | some rest =>
      if (rest.takeWhile isDigitChar).isEmpty then s
      else
        match rest.dropWhile isDigitChar with
        | ';' :: tail => tail
        | _ => s

/-- The literal `POLYHEDRALSURFACE` as a character pattern. -/
def surfaceKeyword : List Char :=
  ['P', 'O', 'L', 'Y', 'H', 'E', 'D', 'R', 'A', 'L', 'S', 'U', 'R', 'F', 'A', 'C', 'E']

/-- The optional dimension qualifier `(?:ZM|Z|M)?` (first-match semantics, which agrees
with the regex's backtracking here because the qualifier letters are never `(` or `E`). -/
def dropQualifier (s : List Char) : List Char :=
  match s with
  | c₁ :: c₂ :: rest =>
      if upChar c₁ = 'Z' ∧ upChar c₂ = 'M' then rest
      else if upChar c₁ = 'Z' ∨ upChar c₁ = 'M' then c₂ :: rest
      else s
  | [c₁] => if upChar c₁ = 'Z' ∨ upChar c₁ = 'M' then [] else s
  | [] => s

/-- The `EMPTY` form (`/^POLYHEDRALSURFACE\s*(?:ZM|Z|M)?\s*EMPTY$/i`). -/
def emptySurface (s : List Char) : Bool :=
  match stripCI surfaceKeyword s with
  | none => false
  | some rest => (trimL (dropQualifier (trimL rest))).map upChar = ['E', 'M', 'P', 'T', 'Y']

/-- The outer grammar match
(`/^(POLYHEDRALSURFACE)\s*(?:ZM|Z|M)?\s*\(\s*([\s\S]*)\s*\)$/i`): keyword, optional
qualifier, `(`, then the greedy group captures everything up to the final `)` (which must
be the last character), with the leading whitespace consumed by the greedy `\s*` after
the `(`. -/
def outerMatch (s : List Char) : Option (List Char) :=
  match stripCI surfaceKeyword s with
  | none => none
  | some rest =>
      match trimL (dropQualifier (trimL rest)) with
      | '(' :: body =>
          match body.getLast? with
          | some ')' => some (trimL body.dropLast)
          | _ => none
      | _ => none

/-- Scan to just past the first occurrence of `((`. -/
def findOpen : List Char → Option (List Char)
  | '(' :: '(' :: rest => some rest
  | _ :: rest => findOpen rest
  | [] => none

/-- Split at the first occurrence of `))`: the content before it and the rest after it. -/
def takeUntilClose : List Char → Option (List Char × List Char)
  | ')' :: ')' :: rest => some ([], rest)
  | c :: rest => (takeUntilClose rest).map fun p => (c :: p.1, p.2)
  | [] => none

/-- The global scan `/\(\(\s*([\s\S]*?)\s*\)\)/g`: repeatedly find `((`, lazily take
until the first `))`, and trim the captured group (the `\s*`s absorb the surrounding
whitespace, as the lazy-group analysis of the regex shows); continue after the `))`. -/
def scanPolygonsAux : ℕ → List Char → List (List Char)
  | 0, _ => []
  | fuel + 1, s =>
      match findOpen s with
      | none => []
      | some afterOpen =>
          match takeUntilClose afterOpen with
          | none => []
          | some (content, rest) => trimWs content :: scanPolygonsAux fuel rest

def scanPolygons (s : List Char) : List (List Char) :=
  scanPolygonsAux (s.length + 1) s

/-- Whether the interior-ring separator pattern `\)\s*,\s*\(` starts here. -/
def interiorSepAt (s : List Char) : Bool :=
  match s with
  | ')' :: rest =>
      match trimL rest with
      | ',' :: rest2 =>
          match trimL rest2 with
          | '(' :: _ => true
          | _ => false
      | _ => false
  | _ => false

/-- `rawRing.split(/\)\s*,\s*\(/).length > 1`, i.e. the separator occurs somewhere. -/
def hasInteriorSep : List Char → Bool
  | [] => false
  | c :: rest => interiorSepAt (c :: rest) || hasInteriorSep rest

/-- JS `String.prototype.split(",")`. -/
def splitComma : List Char → List (List Char)
  | [] => [[]]
  | ',' :: rest => [] :: splitComma rest
  | c :: rest =>
      match splitComma rest with
      | [] => [[c]]
      | t :: ts => (c :: t) :: ts

/-- `token.split(/\s+/).filter(p => p.length > 0)`: the whitespace-separated fields. -/
def fieldsWsAux : List Char → List Char → List (List Char)
  | acc, [] => if acc.isEmpty then [] else [acc.reverse]
  | acc, c :: rest =>
      if isWsChar c then
        if acc.isEmpty then fieldsWsAux [] rest else acc.reverse :: fieldsWsAux [] rest
      else fieldsWsAux (c :: acc) rest

def fieldsWs (s : List Char) : List (List Char) := fieldsWsAux [] s

/-- The numeric value of a digit run. -/
def digitsVal (ds : List Char) : ℕ := ds.foldl (fun n c => n * 10 + digitVal c) 0

/-- The exponent tail of a JS number literal: all remaining characters must be digits. -/
def expDigits (mag : ℚ) (sgn : ℤ) (ds : List Char) : Option ℚ :=
  let d := ds.takeWhile isDigitChar
  if d.isEmpty || !(ds.dropWhile isDigitChar).isEmpty then none
  else some (if sgn = 1 then mag * 10 ^ digitsVal d else mag / 10 ^ digitsVal d)

/-- An optional `e`/`E` exponent suffix. -/
def jsExponent (mag : ℚ) : List Char → Option ℚ
  | [] => some mag
  | e :: rest =>
      if e = 'e' || e = 'E' then
        match rest with
        | '+' :: ds => expDigits mag 1 ds
        | '-' :: ds => expDigits mag (-1) ds
        | ds => expDigits mag 1 ds
      else none

/-- The unsigned part of a JS decimal number literal: `digits [. digits]` or `. digits`,
with an optional exponent. -/
def jsNumberMag (s : List Char) : Option ℚ :=
  let intDs := s.takeWhile isDigitChar
  let s1 := s.dropWhile isDigitChar
  match s1 with
  | '.' :: rest =>
      let frDs := rest.takeWhile isDigitChar
      if intDs.isEmpty && frDs.isEmpty then none
      else
        jsExponent ((digitsVal intDs : ℚ) + (digitsVal frDs : ℚ) / 10 ^ frDs.length)
          (rest.dropWhile isDigitChar)
  | _ => if intDs.isEmpty then none else jsExponent (digitsVal intDs : ℚ) s1

/-- JS `Number(str)` on a whitespace-free token, where `none` stands for a non-finite
result (NaN or ±Infinity — both rejected by the source's `isFiniteNumber` check).
Decimal literals with optional sign and exponent are parsed exactly; the exotic literal
forms (`0x…`, `0b…`, `0o…`) that `Number()` also accepts are out of the model. -/
def jsNumber (s : List Char) : Option ℚ :=
  match s with
  | [] => some 0
  | '+' :: rest => jsNumberMag rest
  | '-' :: rest => (jsNumberMag rest).map (fun q => -q)
  | _ => jsNumberMag s

/-- A parsed WKT vertex, kept rational (see the section comment). -/
structure QVertex where
  longitude : ℚ
  latitude : ℚ
  altitude : ℚ
deriving DecidableEq, Repr

instance : Inhabited QVertex := ⟨⟨0, 0, 0⟩⟩

/-- `RING_CLOSURE_TOLERANCE` (src/api/polyhedral-surface.ts line 55): `1e-9`. -/
def RING_CLOSURE_TOLERANCE : ℚ := 1 / 10 ^ 9

/-- `verticesEqual` (src/api/polyhedral-surface.ts lines 65-71), on the parsed rational
vertices it is applied to. -/
def verticesEqual (a b : QVertex) (tolerance : ℚ) : Bool :=
  |a.longitude - b.longitude| ≤ tolerance ∧
  |a.latitude - b.latitude| ≤ tolerance ∧
  |a.altitude - b.altitude| ≤ tolerance

/-- `parseVertexStrict` (src/api/polyhedral-surface.ts lines 79-100). -/
def parseVertexStrict (token : List Char) : Except String QVertex :=
  let parts := fieldsWs token
  if parts.length < 3 then
    .error ("Invalid coordinate in WKT: expected \"longitude latitude altitude\" but got \"" ++
      String.mk token ++ "\". " ++ "Each coordinate must have 3 space-separated numeric values.")
  else
    match jsNumber (parts.getD 0 []), jsNumber (parts.getD 1 []), jsNumber (parts.getD 2 []) with
    | some longitude, some latitude, some altitude => .ok ⟨longitude, latitude, altitude⟩
    | _, _, _ =>
        .error ("Invalid numeric value in WKT coordinate: \"" ++ String.mk token ++ "\". " ++
          "Longitude, latitude, and altitude must be finite numbers.")

/-- The comma-separated, trimmed, nonempty coordinate tokens of a ring
(`rawRing.split(",").map(s => s.trim()).filter(Boolean)`). -/
def coordTokens (rawRing : List Char) : List (List Char) :=
  ((splitComma rawRing).map trimWs).filter fun t => !t.isEmpty

end WktStrings

/-! ## Planar triangulation and ring processing -/

noncomputable section
local instance (priority := low) propDecC (p : Prop) : Decidable p :=
  Classical.propDecidable p

/-- The real-valued `Vector3` of a parsed vertex
(`new Vector3(v.longitude, v.latitude, v.altitude)`). -/
def QVertex.toV3 (v : QVertex) : V3 ℝ := ⟨(v.longitude : ℝ), (v.latitude : ℝ), (v.altitude : ℝ)⟩

/-- The `GeoVertex` of a parsed vertex (exact cast of the rational parse results). -/
def QVertex.toGeoVertex (v : QVertex) : GeoVertex := ⟨(v.longitude : ℝ), (v.latitude : ℝ), (v.altitude : ℝ)⟩

/-- 2D cross product of `a - o` and `b - o` (used only by `earcutModel`). -/
def cross2 (o a b : ℝ × ℝ) : ℝ := (a.1 - o.1) * (b.2 - o.2) - (a.2 - o.2) * (b.1 - o.1)

/-- Closed-triangle membership by sign tests (used only by `earcutModel`). -/
def inTriangle2 (a b c p : ℝ × ℝ) : Prop :=
  cross2 a b p ≥ 0 ∧ cross2 b c p ≥ 0 ∧ cross2 c a p ≥ 0

/-- The fuel-bounded ear-clipping loop of `earcutModel`. -/
def earClipAux : ℕ → List (ℕ × ℝ × ℝ) → List ℕ
  | 0, _ => []
  | _ + 1, [] => []
  | _ + 1, [_] => []
  | _ + 1, [_, _] => []
  | _ + 1, [a, b, c] => [a.1, b.1, c.1]
  | fuel + 1, a :: b :: c :: rest =>
      if cross2 a.2 b.2 c.2 > 0 ∧ ∀ p ∈ rest, ¬inTriangle2 a.2 b.2 c.2 p.2 then
        a.1 :: b.1 :: c.1 :: earClipAux fuel (a :: c :: rest)
      else earClipAux fuel (b :: c :: rest ++ [a])

/-- Modelled from the spec: three.js's internal `Earcut.triangulate` (an external
library) — §4.2 allows "any correct simple-polygon triangulator"; a simple fuel-bounded
ear clipper over the flat 2D coordinate list stands in for it.  No claim depends on the
triangles it returns. -/
def earcutModel (flat : List ℝ) : List ℕ :=
  let n := flat.length / 2
  let pts := (List.range n).map fun i => (i, flat.getD (2 * i) 0, flat.getD (2 * i + 1) 0)
  let signedArea := (List.range n).foldl
    (fun s i =>
      s + (flat.getD (2 * i) 0 * flat.getD (2 * ((i + 1) % n) + 1) 0 -
        flat.getD (2 * ((i + 1) % n)) 0 * flat.getD (2 * i + 1) 0))
    0
  earClipAux (n * n + n + 1) (if signedArea < 0 then pts.reverse else pts)

/-- The normal search of `buildPlaneBasis` (src/api/polyhedral-surface.ts lines
105-118): the first pair `(i, j)`, `1 ≤ i < j`, in lexicographic order whose cross
product exceeds the area tolerance. -/
def findNormalFrom (origin : V3 ℝ) : List (V3 ℝ) → Option (V3 ℝ)
  | [] => none
  | vi :: rest =>
      let ab := vi.sub origin
      match rest.find? (fun vj => decide (((ab).cross (vj.sub origin)).lengthSq > MIN_AREA_TOLERANCE)) with
      | some vj => some (ab.cross (vj.sub origin))
      | none => findNormalFrom origin rest

/-- `buildPlaneBasis` (src/api/polyhedral-surface.ts lines 102-130): local origin, a
robustly-found normal, and the two in-plane axes from the helper-axis trick. -/
def buildPlaneBasis (vertices : List (V3 ℝ)) : Except String (V3 ℝ × V3 ℝ × V3 ℝ) :=
  match vertices with
  | [] => .error "Cannot triangulate polygon: vertices are collinear or degenerate."
  | v0 :: rest =>
      match findNormalFrom v0 rest with
      | none => .error "Cannot triangulate polygon: vertices are collinear or degenerate."
      | some normal =>
          let n := normal.normalize
          let helperAxis : V3 ℝ := if |n.x| < 0.9 then ⟨1, 0, 0⟩ else ⟨0, 1, 0⟩
          let u := (n.cross helperAxis).normalize
          let v := (n.cross u).normalize
          .ok (v0, u, v)

/-- `triangulateFace` (src/api/polyhedral-surface.ts lines 132-178). -/
def triangulateFace (vertices : List QVertex) : Except String (List GeoTriangle) :=
  if vertices.length < 3 then
    .error "Cannot triangulate polygon face: fewer than 3 vertices."
  else if vertices.length = 3 then
    let a := (vertices.getD 0 default).toV3
    let b := (vertices.getD 1 default).toV3
    let c := (vertices.getD 2 default).toV3
    if ((b.sub a).cross (c.sub a)).lengthSq ≤ MIN_AREA_TOLERANCE then
      .error "Cannot triangulate polygon face: triangle is degenerate."
    else
      .ok [⟨(vertices.getD 0 default).toGeoVertex, (vertices.getD 1 default).toGeoVertex,
        (vertices.getD 2 default).toGeoVertex⟩]
  else
    let vectors := vertices.map QVertex.toV3
    match buildPlaneBasis vectors with
    | .error e => .error e
    | .ok basis =>
        let projected := vectors.foldr
          (fun vec acc =>
            ((vec.sub basis.1).dot basis.2.1) :: ((vec.sub basis.1).dot basis.2.2) :: acc) []
        let indices := earcutModel projected
        if indices.length = 0 ∨ indices.length % 3 ≠ 0 then
          .error "Failed to triangulate polygon face with Earcut."
        else
          .ok ((idxTriples indices).map fun t =>
            ⟨(vertices.getD t.1 default).toGeoVertex, (vertices.getD t.2.1 default).toGeoVertex,
              (vertices.getD t.2.2 default).toGeoVertex⟩)

/-- The per-polygon body of `parsePolyhedralSurfaceWKT`'s scan loop
(src/api/polyhedral-surface.ts lines 458-488): interior-ring rejection, the ≥4-token
check, strict vertex parsing, ring-closure check, and triangulation of the open ring
(the closing duplicate dropped).  `openVertices.forEach(assertFiniteVertex)` cannot fail
on parsed vertices (non-finite parses were already rejected), so it has no model. -/
def processRing (rawRing : List Char) : Except String (List GeoTriangle) :=
  if hasInteriorSep rawRing then
    .error "POLYHEDRALSURFACE faces with interior rings are not supported."
  else if (coordTokens rawRing).length < 4 then
    .error "Each polygon must have at least 4 coordinates (3 vertices + closing point)."
  else do
    let vertices ← (coordTokens rawRing).mapM parseVertexStrict
    if verticesEqual (vertices.getD 0 default) (vertices.getD (vertices.length - 1) default)
        RING_CLOSURE_TOLERANCE then
      triangulateFace vertices.dropLast
    else
      .error "Invalid polygon ring: first and last coordinates must match to close the ring."

/-- The accumulating polygon loop of `parsePolyhedralSurfaceWKT`
(`while ((match = polygonRegex.exec(content)) !== null) { … triangles.push(…) }`):
process each scanned ring in order, concatenating results, aborting at the first throw. -/
def ringFold (acc : List GeoTriangle) : List (List Char) → Except String (List GeoTriangle)
  | [] => .ok acc
  | r :: rest =>
      match processRing r with
      | .error e => .error e
      | .ok ts => ringFold (acc ++ ts) rest

/-- `parsePolyhedralSurfaceWKT` (src/api/polyhedral-surface.ts lines 426-492). -/
def parsePolyhedralSurfaceWKT (wkt : List Char) : Except String (List GeoTriangle) :=
  let trimmed := trimWs wkt
  if trimmed.isEmpty then .error "Invalid WKT: empty string."
  else
    let wktBody := trimWs (stripSRID trimmed)
    if emptySurface wktBody then .ok []
    else
      match outerMatch wktBody with
      | none =>
          .error ("Invalid WKT format: expected 'POLYHEDRALSURFACE Z (...)'. " ++
            "Received: \"" ++ String.mk (wkt.take 50) ++
            (if wkt.length > 50 then "..." else "") ++ "\"")
      | some content => ringFold [] (scanPolygons content)

end

/-! ## Claims C6 and C7: parser error behaviour -/

/-- Executable "starts with" on character lists. -/
def startsList : List Char → List Char → Bool
  | [], _ => true
  | _ :: _, [] => false
  | p :: ps, c :: cs => p = c && startsList ps cs

/-- Executable substring containment on character lists. -/
def subList (pat : List Char) : List Char → Bool
  | [] => pat.isEmpty
  | c :: rest => startsList pat (c :: rest) || subList pat rest

/-- The path of `parsePolyhedralSurfaceWKT` that reaches the polygon scan: the trimmed
input is nonempty, the (SRID-stripped) body is not an `EMPTY` surface, and the outer
grammar matches with the given content. -/
def outerPath (wkt content : List Char) : Prop :=
  (trimWs wkt).isEmpty = false ∧
  emptySurface (trimWs (stripSRID (trimWs wkt))) = false ∧
  outerMatch (trimWs (stripSRID (trimWs wkt))) = some content

/-- On the outer path, the parser is exactly the ring fold over the scanned polygons. -/
theorem parse_eq_ringFold (wkt content : List Char) (h : outerPath wkt content) :
    parsePolyhedralSurfaceWKT wkt = ringFold [] (scanPolygons content) := by
  rcases h with ⟨h1, h2, h3⟩
  unfold parsePolyhedralSurfaceWKT
  rw [if_neg (by simp [h1]), if_neg (by simp [h2]), h3]

/-- The ring fold fails as soon as some ring in the list fails. -/
theorem ringFold_error_of_mem :
    ∀ (l : List (List Char)) (acc : List GeoTriangle),
      (∃ r ∈ l, (processRing r).isOk = false) → (ringFold acc l).isOk = false := by
  intro l
  induction l with
  | nil => rintro acc ⟨r, hr, _⟩; cases hr
  | cons a t ih =>
      rintro acc ⟨r, hr, hbad⟩
      unfold ringFold
      cases hpa : processRing a with
      | error e => rfl
      | ok ts =>
          cases hr with
          | head => rw [hpa] at hbad; cases hbad
          | tail _ hr => exact ih _ ⟨r, hr, hbad⟩

/-- If every ring before some ring `r` succeeds and `r` itself fails with message `m`,
the whole fold fails with `m`. -/
theorem ringFold_error_at :
    ∀ (pre : List (List Char)) (r : List Char) (post : List (List Char))
      (acc : List GeoTriangle) (m : String),
      (∀ r' ∈ pre, (processRing r').isOk = true) → processRing r = .error m →
      ringFold acc (pre ++ r :: post) = .error m := by
  intro pre
  induction pre with
  | nil =>
      intro r post acc m _ hr
      unfold ringFold
      rw [List.nil_append]
      simp only [ringFold, hr]
  | cons a t ih =>
      intro r post acc m hpre hr
      have ha : (processRing a).isOk = true := hpre a (by simp)
      cases hpa : processRing a with
      | error e => rw [hpa] at ha; cases ha
      | ok ts =>
          have : ringFold acc ((a :: t) ++ r :: post) = ringFold (acc ++ ts) (t ++ r :: post) := by
            simp only [List.cons_append, ringFold, hpa, List.append_eq]
          rw [this]
          exact ih r post (acc ++ ts) m (fun r' hr' => hpre r' (by simp [hr'])) hr

/-- A ring whose raw content contains the interior-ring separator fails with the
interior-rings message. -/
theorem processRing_interior (r : List Char) (h : hasInteriorSep r = true) :
    processRing r = .error "POLYHEDRALSURFACE faces with interior rings are not supported." := by
  unfold processRing
  rw [if_pos h]

/-- Claim C6 (amended): whenever the parser's scan encounters a face whose ring content
contains a second parenthesized sub-ring, the parse fails — with the "interior rings are
not supported" message when the faces scanned before it are themselves well-formed; no
triangle list is ever returned for such an input. -/
theorem parser_rejects_holes :
    (∀ (wkt content : List Char), outerPath wkt content →
      (∃ r ∈ scanPolygons content, hasInteriorSep r = true) →
      (parsePolyhedralSurfaceWKT wkt).isOk = false) ∧
    (∀ (wkt content : List Char) (pre : List (List Char)) (r : List Char)
        (post : List (List Char)), outerPath wkt content →
      scanPolygons content = pre ++ r :: post → hasInteriorSep r = true →
      (∀ r' ∈ pre, (processRing r').isOk = true) →
      parsePolyhedralSurfaceWKT wkt =
        .error "POLYHEDRALSURFACE faces with interior rings are not supported.") := by
  constructor
  · rintro wkt content hpath ⟨r, hr, hhole⟩
    rw [parse_eq_ringFold wkt content hpath]
    refine ringFold_error_of_mem _ _ ⟨r, hr, ?_⟩
    rw [processRing_interior r hhole]
    rfl
  · intro wkt content pre r post hpath hscan hhole hpre
    rw [parse_eq_ringFold wkt content hpath, hscan]
    exact ringFold_error_at pre r post [] _ hpre (processRing_interior r hhole)

/-- Witness for `parser_rejects_holes`: a surface whose single face carries an interior
ring is rejected with the interior-rings message. -/
theorem parser_rejects_holes_witness :
    parsePolyhedralSurfaceWKT
        "POLYHEDRALSURFACE Z (((0 0 0, 2 0 0, 2 2 0, 0 0 0), (5 5 5, 6 6 6, 7 7 7, 5 5 5)))".toList =
      .error "POLYHEDRALSURFACE faces with interior rings are not supported." := by
  refine parser_rejects_holes.2
    "POLYHEDRALSURFACE Z (((0 0 0, 2 0 0, 2 2 0, 0 0 0), (5 5 5, 6 6 6, 7 7 7, 5 5 5)))".toList
    "((0 0 0, 2 0 0, 2 2 0, 0 0 0), (5 5 5, 6 6 6, 7 7 7, 5 5 5))".toList
    [] "0 0 0, 2 0 0, 2 2 0, 0 0 0), (5 5 5, 6 6 6, 7 7 7, 5 5 5".toList [] ⟨rfl, rfl, rfl⟩
    rfl rfl ?_
  rintro r' hr'
  cases hr'

/-- Claim C6, counterexample to the claim as stated: a surface whose *first* face is
malformed (only 3 coordinate tokens) and whose *second* face carries an interior ring is
rejected with the 4-coordinates message, which does not mention interior rings. -/
theorem parser_rejects_holes_counterexample :
    outerPath
        "POLYHEDRALSURFACE Z (((1 1 1, 2 2 2, 1 1 1)), ((0 0 0, 2 0 0, 2 2 0, 0 0 0), (5 5 5, 6 6 6, 7 7 7, 5 5 5)))".toList
        "((1 1 1, 2 2 2, 1 1 1)), ((0 0 0, 2 0 0, 2 2 0, 0 0 0), (5 5 5, 6 6 6, 7 7 7, 5 5 5))".toList ∧
    (∃ r ∈ scanPolygons
        "((1 1 1, 2 2 2, 1 1 1)), ((0 0 0, 2 0 0, 2 2 0, 0 0 0), (5 5 5, 6 6 6, 7 7 7, 5 5 5))".toList,
      hasInteriorSep r = true) ∧
    parsePolyhedralSurfaceWKT
        "POLYHEDRALSURFACE Z (((1 1 1, 2 2 2, 1 1 1)), ((0 0 0, 2 0 0, 2 2 0, 0 0 0), (5 5 5, 6 6 6, 7 7 7, 5 5 5)))".toList =
      .error "Each polygon must have at least 4 coordinates (3 vertices + closing point)." ∧
    subList "interior rings".toList
        "Each polygon must have at least 4 coordinates (3 vertices + closing point).".toList =
      false := by
  refine ⟨⟨rfl, rfl, rfl⟩, ⟨"0 0 0, 2 0 0, 2 2 0, 0 0 0), (5 5 5, 6 6 6, 7 7 7, 5 5 5".toList, ?_, rfl⟩, rfl, rfl⟩
  decide

/-- Reduction of `Except` bind on a success value. -/
theorem exceptBind_ok {α β : Type} (a : α) (f : α → Except String β) :
    (Except.ok a >>= f : Except String β) = f a := rfl

/-- Reduction of `Except` bind on an error value. -/
theorem exceptBind_error {α β : Type} (e : String) (f : α → Except String β) :
    (Except.error e >>= f : Except String β) = Except.error e := rfl

/-- A ring violating claim C7's acceptance conditions: fewer than 4 comma-separated
coordinate tokens, or parsed first and last vertices differing beyond the `1e-9`
closure tolerance. -/
def ringViolates (r : List Char) : Prop :=
  (coordTokens r).length < 4 ∨
  ∃ vs, (coordTokens r).mapM parseVertexStrict = .ok vs ∧
    verticesEqual (vs.getD 0 default) (vs.getD (vs.length - 1) default)
      RING_CLOSURE_TOLERANCE = false

/-- Claim C7: a polygon ring is accepted only with ≥ 4 coordinate tokens and first/last
parsed vertices equal within `1e-9` per component (in which case the closing duplicate is
dropped before triangulation); a ring violating either condition makes the ring
processing — and hence the whole parse containing it — fail, returning no triangles. -/
theorem ring_acceptance :
    (∀ (r : List Char) (ts : List GeoTriangle), processRing r = .ok ts →
      4 ≤ (coordTokens r).length ∧
      ∃ vs, (coordTokens r).mapM parseVertexStrict = .ok vs ∧
        verticesEqual (vs.getD 0 default) (vs.getD (vs.length - 1) default)
          RING_CLOSURE_TOLERANCE = true ∧
        triangulateFace vs.dropLast = .ok ts) ∧
    (∀ r : List Char, ringViolates r → (processRing r).isOk = false) ∧
    (∀ (wkt content : List Char), outerPath wkt content →
      (∃ r ∈ scanPolygons content, ringViolates r) →
      (parsePolyhedralSurfaceWKT wkt).isOk = false) := by
  have hok : ∀ (r : List Char) (ts : List GeoTriangle), processRing r = .ok ts →
      4 ≤ (coordTokens r).length ∧
      ∃ vs, (coordTokens r).mapM parseVertexStrict = .ok vs ∧
        verticesEqual (vs.getD 0 default) (vs.getD (vs.length - 1) default)
          RING_CLOSURE_TOLERANCE = true ∧
        triangulateFace vs.dropLast = .ok ts := by
    intro r ts h
    unfold processRing at h
    by_cases h1 : hasInteriorSep r = true
    · rw [if_pos h1] at h; cases h
    · rw [if_neg h1] at h
      by_cases h2 : (coordTokens r).length < 4
      · rw [if_pos h2] at h; cases h
      · rw [if_neg h2] at h
        refine ⟨by omega, ?_⟩
        cases hm : (coordTokens r).mapM parseVertexStrict with
        | error e => rw [hm, exceptBind_error] at h; cases h
        | ok vs =>
            rw [hm, exceptBind_ok] at h
            by_cases h3 :
              verticesEqual (vs.getD 0 default) (vs.getD (vs.length - 1) default)
                RING_CLOSURE_TOLERANCE = true
            · rw [if_pos h3] at h
              exact ⟨vs, rfl, h3, h⟩
            · rw [if_neg h3] at h; cases h
  have hviol : ∀ r : List Char, ringViolates r → (processRing r).isOk = false := by
    intro r hv
    cases hres : processRing r with
    | error e => rfl
    | ok ts =>
        exfalso
        rcases hok r ts hres with ⟨hlen, vs, hm, hcl, _⟩
        rcases hv with hv | ⟨vs', hm', hcl'⟩
        · omega
        · rw [hm'] at hm
          cases hm
          rw [hcl] at hcl'
          cases hcl'
  refine ⟨hok, hviol, ?_⟩
  rintro wkt content hpath ⟨r, hr, hv⟩
  rw [parse_eq_ringFold wkt content hpath]
  exact ringFold_error_of_mem _ _ ⟨r, hr, hviol r hv⟩

/-- The parsed open ring of the witness below. -/
def c7tri : GeoTriangle :=
  ⟨(⟨0, 0, 0⟩ : QVertex).toGeoVertex, (⟨1, 0, 0⟩ : QVertex).toGeoVertex,
    (⟨0, 1, 1⟩ : QVertex).toGeoVertex⟩

/-- Helper for the witness: a well-formed closed 4-token ring parses to the single
triangle on its three unique vertices (the closing duplicate is dropped). -/
theorem processRing_c7example :
    processRing "0 0 0, 1 0 0, 0 1 1, 0 0 0".toList = .ok [c7tri] := by
  have hm : (coordTokens "0 0 0, 1 0 0, 0 1 1, 0 0 0".toList).mapM parseVertexStrict =
      .ok [⟨0, 0, 0⟩, ⟨1, 0, 0⟩, ⟨0, 1, 1⟩, ⟨0, 0, 0⟩] := by
    with_unfolding_all rfl
  have htf : triangulateFace [⟨0, 0, 0⟩, ⟨1, 0, 0⟩, ⟨0, 1, 1⟩] = .ok [c7tri] := by
    unfold triangulateFace
    rw [if_neg (by decide), if_pos (by decide), if_neg ?harea]
    · simp [List.getD, c7tri]
    · simp only [List.getD, QVertex.toV3, V3.sub, V3.cross, V3.lengthSq, V3.dot,
        MIN_AREA_TOLERANCE, List.get?]
      norm_num
  unfold processRing
  rw [if_neg (by decide), if_neg (by decide), hm, exceptBind_ok,
    if_pos (by with_unfolding_all decide)]
  exact htf

/-- Witness for `ring_acceptance`: the success shape on a concrete well-formed ring, and
the failure of a concrete 3-token ring. -/
theorem ring_acceptance_witness :
    (4 ≤ (coordTokens "0 0 0, 1 0 0, 0 1 1, 0 0 0".toList).length ∧
      ∃ vs, (coordTokens "0 0 0, 1 0 0, 0 1 1, 0 0 0".toList).mapM parseVertexStrict =
          .ok vs ∧
        verticesEqual (vs.getD 0 default) (vs.getD (vs.length - 1) default)
          RING_CLOSURE_TOLERANCE = true ∧
        triangulateFace vs.dropLast = .ok [c7tri]) ∧
    (processRing "0 0 0, 1 1 1, 0 0 0".toList).isOk = false := by
  constructor
  · exact ring_acceptance.1 "0 0 0, 1 0 0, 0 1 1, 0 0 0".toList [c7tri] processRing_c7example
  · exact ring_acceptance.2.1 "0 0 0, 1 1 1, 0 0 0".toList (Or.inl (by decide))

/-! ## WKT encoding (src/api/polyhedral-surface.ts lines 317-347)

`Number.prototype.toFixed(p)` is modelled per the ECMAScript specification: the integer
`n` nearest to `|x| * 10^p` (ties to the larger `n`, i.e. Mathlib's `round`), rendered
with a decimal point `p` digits from the right, and a leading `-` for negative inputs. -/

section Digits

/-- The decimal digit characters of a natural number, most significant first. -/
def natDigits (n : ℕ) : List Char :=
  if n = 0 then ['0'] else (Nat.digits 10 n).reverse.map fun d => Char.ofNat (d + 48)

/-- The digits-with-point rendering of the scaled nonnegative integer `n`
(`p` fractional digits, zero-padded). -/
def toFixedNN (p : ℕ) (n : ℕ) : List Char :=
  natDigits (n / 10 ^ p) ++
    '.' :: (List.replicate (p - (natDigits (n % 10 ^ p)).length) '0' ++ natDigits (n % 10 ^ p))

end Digits

noncomputable section
local instance (priority := low) propDecD (p : Prop) : Decidable p :=
  Classical.propDecidable p

/-- `v.toFixed(p)` for a real `v` (ES: negative inputs render as `-` followed by the
rendering of the magnitude; ties round to the larger scaled integer). -/
def toFixed (p : ℕ) (x : ℝ) : List Char :=
  if x < 0 then '-' :: toFixedNN p (round (-x * 10 ^ p)).toNat
  else toFixedNN p (round (x * 10 ^ p)).toNat

/-- The exact rational value denoted by `toFixed p x`. -/
def fixedVal (p : ℕ) (x : ℝ) : ℚ :=
  if x < 0 then -(((round (-x * 10 ^ p)).toNat : ℚ) / 10 ^ p)
  else ((round (x * 10 ^ p)).toNat : ℚ) / 10 ^ p

/-- `formatCoord` (src/api/polyhedral-surface.ts lines 331-336): the three fixed-point
components joined by single spaces. -/
def formatCoord (p : ℕ) (v : GeoVertex) : List Char :=
  toFixed p v.longitude ++ ' ' :: (toFixed p v.latitude ++ ' ' :: toFixed p v.altitude)

/-- The closed ring content `c0, c1, c2, c0` of one triangle. -/
def ringContent (p : ℕ) (tri : GeoTriangle) : List Char :=
  formatCoord p tri.v0 ++ ',' :: ' ' :: (formatCoord p tri.v1 ++
    ',' :: ' ' :: (formatCoord p tri.v2 ++ ',' :: ' ' :: formatCoord p tri.v0))

/-- One encoded polygon `((c0, c1, c2, c0))`. -/
def ringString (p : ℕ) (tri : GeoTriangle) : List Char :=
  '(' :: '(' :: (ringContent p tri ++ [')', ')'])

/-- The polygons joined by `", "` (`polygons.join(", ")`). -/
def encodeBody (p : ℕ) : List GeoTriangle → List Char
  | [] => []
  | [t] => ringString p t
  | t :: rest => ringString p t ++ ',' :: ' ' :: encodeBody p rest

/-- The literal header `POLYHEDRALSURFACE Z (`. -/
def wktHeader : List Char :=
  surfaceKeyword ++ [' ', 'Z', ' ', '(']

/-- `bufferGeometryToWKT` (src/api/polyhedral-surface.ts lines 317-347); the source's
default `precision` is 8 (passed explicitly here). -/
def bufferGeometryToWKT (g : BufferGeometry ℝ) (origin : Coords) (precision : ℕ) :
    Except String (List Char) :=
  match extractGeoTriangles g origin with
  | .error e => .error e
  | .ok triangles =>
      if triangles.length = 0 then
        .error ("BufferGeometry has no triangular faces to convert. " ++
          "The geometry must contain indexed triangles or non-indexed vertex triplets.")
      else .ok (wktHeader ++ encodeBody precision triangles ++ [')'])

/-- The vertex actually denoted by the encoded text of `v` at precision `p`. -/
def roundedQVertex (p : ℕ) (v : GeoVertex) : QVertex :=
  ⟨fixedVal p v.longitude, fixedVal p v.latitude, fixedVal p v.altitude⟩

/-- The triangle actually denoted by the encoded text of `tri` at precision `p`. -/
def decodedTriangle (p : ℕ) (tri : GeoTriangle) : GeoTriangle :=
  ⟨(roundedQVertex p tri.v0).toGeoVertex, (roundedQVertex p tri.v1).toGeoVertex,
    (roundedQVertex p tri.v2).toGeoVertex⟩

end

/-! ### Digit-level facts -/

theorem digitVal_ofNat {d : ℕ} (h : d < 10) :
    digitVal (Char.ofNat (d + 48)) = d := by
  interval_cases d <;> decide

theorem isDigitChar_ofNat {d : ℕ} (h : d < 10) :
    isDigitChar (Char.ofNat (d + 48)) = true := by
  interval_cases d <;> decide

/-- Every character of `natDigits n` is a decimal digit. -/
theorem natDigits_digits (n : ℕ) : ∀ c ∈ natDigits n, isDigitChar c = true := by
  intro c hc
  unfold natDigits at hc
  by_cases h : n = 0
  · rw [if_pos h] at hc
    simp at hc
    subst hc
    decide
  · rw [if_neg h] at hc
    rcases List.mem_map.1 hc with ⟨d, hd, rfl⟩
    exact isDigitChar_ofNat (Nat.digits_lt_base (by norm_num) (List.mem_reverse.1 hd))

/-- `natDigits` is never empty. -/
theorem natDigits_ne_nil (n : ℕ) : natDigits n ≠ [] := by
  unfold natDigits
  by_cases h : n = 0
  · rw [if_pos h]; simp
  · rw [if_neg h]
    simp [Nat.digits_ne_nil_iff_ne_zero, h]

/-- Folding the digit characters back (most significant first) recovers the number. -/
theorem foldl_digits (L : List ℕ) (h : ∀ d ∈ L, d < 10) (a : ℕ) :
    (L.reverse.map fun d => Char.ofNat (d + 48)).foldl (fun n c => n * 10 + digitVal c) a =
      a * 10 ^ L.length + Nat.ofDigits 10 L := by
  induction L generalizing a with
  | nil => simp
  | cons d L ih =>
      have hd : d < 10 := h d (by simp)
      rw [List.reverse_cons, List.map_append, List.foldl_append,
        ih (fun x hx => h x (by simp [hx])) a]
      simp only [List.map_cons, List.map_nil, List.foldl_cons, List.foldl_nil,
        digitVal_ofNat hd, Nat.ofDigits_cons, List.length_cons]
      ring

/-- `digitsVal` inverts `natDigits`. -/
theorem digitsVal_natDigits (n : ℕ) : digitsVal (natDigits n) = n := by
  unfold natDigits digitsVal
  by_cases h : n = 0
  · rw [if_pos h, h]; decide
  · rw [if_neg h, foldl_digits _ (fun d hd => Nat.digits_lt_base (by norm_num) hd) 0,
      Nat.ofDigits_digits]
    simp

/-- Leading zeros do not change `digitsVal`. -/
theorem digitsVal_replicate_zero (k : ℕ) (l : List Char) :
    digitsVal (List.replicate k '0' ++ l) = digitsVal l := by
  induction k with
  | zero => simp
  | succ k ih =>
      rw [List.replicate_succ, List.cons_append]
      unfold digitsVal at ih ⊢
      simp only [List.foldl_cons]
      have : (0 : ℕ) * 10 + digitVal '0' = 0 := by decide
      rw [this, ih]

/-- The digit string of `m < 10^p` has at most `p` characters. -/
theorem natDigits_length_le {m p : ℕ} (hp : 0 < p) (h : m < 10 ^ p) :
    (natDigits m).length ≤ p := by
  unfold natDigits
  by_cases h0 : m = 0
  · rw [if_pos h0]; simpa using hp
  · rw [if_neg h0]
    simp only [List.length_map, List.length_reverse]
    rw [Nat.digits_len 10 m (by norm_num) h0]
    have := Nat.log_lt_of_lt_pow h0 h
    omega

/-! ### Parsing back what `toFixed` rendered -/

theorem takeWhile_all {α : Type} (p : α → Bool) :
    ∀ l : List α, (∀ a ∈ l, p a = true) → l.takeWhile p = l ∧ l.dropWhile p = [] := by
  intro l
  induction l with
  | nil => intro _; exact ⟨rfl, rfl⟩
  | cons a t ih =>
      intro h
      have ha : p a = true := h a (by simp)
      have ht := ih fun x hx => h x (by simp [hx])
      rw [List.takeWhile_cons, List.dropWhile_cons, ha]
      simp [ht.1, ht.2]

theorem takeWhile_digits_dot (A B : List Char) (h : ∀ a ∈ A, isDigitChar a = true) :
    (A ++ '.' :: B).takeWhile isDigitChar = A ∧
      (A ++ '.' :: B).dropWhile isDigitChar = '.' :: B := by
  induction A with
  | nil => exact ⟨rfl, rfl⟩
  | cons a t ih =>
      have ha : isDigitChar a = true := h a (by simp)
      have ht := ih fun x hx => h x (by simp [hx])
      rw [List.cons_append, List.takeWhile_cons, List.dropWhile_cons, ha]
      simp [ht.1, ht.2]

/-- The fractional digit block of `toFixedNN` has length exactly `p` and value
`n % 10 ^ p`. -/
theorem frac_block (p n : ℕ) (hp : 0 < p) :
    (List.replicate (p - (natDigits (n % 10 ^ p)).length) '0' ++
        natDigits (n % 10 ^ p)).length = p ∧
      digitsVal (List.replicate (p - (natDigits (n % 10 ^ p)).length) '0' ++
        natDigits (n % 10 ^ p)) = n % 10 ^ p ∧
      ∀ c ∈ List.replicate (p - (natDigits (n % 10 ^ p)).length) '0' ++
        natDigits (n % 10 ^ p), isDigitChar c = true := by
  have hlt : n % 10 ^ p < 10 ^ p := Nat.mod_lt _ (by positivity)
  have hlen : (natDigits (n % 10 ^ p)).length ≤ p := natDigits_length_le hp hlt
  refine ⟨?_, ?_, ?_⟩
  · rw [List.length_append, List.length_replicate]
    omega
  · rw [digitsVal_replicate_zero, digitsVal_natDigits]
  · intro c hc
    rcases List.mem_append.1 hc with hc | hc
    · rw [List.eq_of_mem_replicate hc]; decide
    · exact natDigits_digits _ c hc

/-- `jsNumberMag` recovers the scaled integer from `toFixedNN`. -/
theorem jsNumberMag_eq_of (s A F : List Char) (hA : s.takeWhile isDigitChar = A)
    (hd : s.dropWhile isDigitChar = '.' :: F)
    (hF : F.takeWhile isDigitChar = F) (hFd : F.dropWhile isDigitChar = [])
    (hne : A.isEmpty = false) :
    jsNumberMag s = some ((digitsVal A : ℚ) + (digitsVal F : ℚ) / 10 ^ F.length) := by
  unfold jsNumberMag
  simp only [hA, hd]
  rw [hF, hFd, hne]
  simp only [Bool.false_and, Bool.false_eq_true, if_false, jsExponent]

theorem jsNumberMag_toFixedNN (p n : ℕ) (hp : 0 < p) :
    jsNumberMag (toFixedNN p n) = some ((n : ℚ) / 10 ^ p) := by
  obtain ⟨hflen, hfval, hfdig⟩ := frac_block p n hp
  obtain ⟨ht, hd⟩ := takeWhile_digits_dot (natDigits (n / 10 ^ p)) _ (natDigits_digits _)
  obtain ⟨ht2, hd2⟩ := takeWhile_all isDigitChar _ hfdig
  have hne : (natDigits (n / 10 ^ p)).isEmpty = false := by
    cases hnd : natDigits (n / 10 ^ p) with
    | nil => exact absurd hnd (natDigits_ne_nil _)
    | cons a t => rfl
  rw [jsNumberMag_eq_of (toFixedNN p n) (natDigits (n / 10 ^ p))
      (List.replicate (p - (natDigits (n % 10 ^ p)).length) '0' ++ natDigits (n % 10 ^ p))
      ht hd ht2 hd2 hne]
  rw [digitsVal_natDigits, hfval, hflen]
  congr 1
  have key : (n / 10 ^ p) * 10 ^ p + n % 10 ^ p = n := by
    rw [Nat.mul_comm]
    exact Nat.div_add_mod n (10 ^ p)
  have h10 : ((10 : ℚ) ^ p) ≠ 0 := by positivity
  rw [eq_div_iff h10, add_mul, div_mul_cancel₀ _ h10]
  exact_mod_cast key

/-- `toFixed` always starts with `-` or a digit, and `jsNumber` recovers exactly the
rational value it denotes. -/
theorem jsNumber_toFixed (p : ℕ) (hp : 0 < p) (x : ℝ) :
    jsNumber (toFixed p x) = some (fixedVal p x) := by
  unfold toFixed fixedVal
  by_cases hx : x < 0
  · rw [if_pos hx, if_pos hx]
    show (jsNumberMag (toFixedNN p (round (-x * 10 ^ p)).toNat)).map _ = _
    rw [jsNumberMag_toFixedNN p ((round (-x * 10 ^ p)).toNat) hp]
    rfl
  · rw [if_neg hx, if_neg hx]
    cases hnd : natDigits ((round (x * 10 ^ p)).toNat / 10 ^ p) with
    | nil => exact absurd hnd (natDigits_ne_nil _)
    | cons c cs =>
        have hc : isDigitChar c = true := by
          refine natDigits_digits ((round (x * 10 ^ p)).toNat / 10 ^ p) c ?_
          rw [hnd]; simp
        have hcp : c ≠ '+' := by intro h; rw [h] at hc; cases hc
        have hcm : c ≠ '-' := by intro h; rw [h] at hc; cases hc
        have hshape : toFixedNN p (round (x * 10 ^ p)).toNat =
            c :: (cs ++ '.' :: (List.replicate
              (p - (natDigits ((round (x * 10 ^ p)).toNat % 10 ^ p)).length) '0' ++
              natDigits ((round (x * 10 ^ p)).toNat % 10 ^ p))) := by
          unfold toFixedNN
          rw [hnd]
          rfl
        rw [hshape]
        unfold jsNumber
        split
        · simp_all
        · rename_i heq
          rw [List.cons.injEq] at heq
          exact absurd heq.1 hcp
        · rename_i heq
          rw [List.cons.injEq] at heq
          exact absurd heq.1 hcm
        · rw [← hshape, jsNumberMag_toFixedNN p ((round (x * 10 ^ p)).toNat) hp]

/-! ### Accuracy and sign of `fixedVal` -/

theorem fixedVal_close (p : ℕ) (x : ℝ) :
    |x - ((fixedVal p x : ℚ) : ℝ)| ≤ 1 / 2 / 10 ^ p := by
  have h10 : (0 : ℝ) < 10 ^ p := by positivity
  unfold fixedVal
  by_cases hx : x < 0
  · rw [if_pos hx]
    have hr : 0 ≤ round (-x * 10 ^ p) := by
      rw [round_eq]
      refine Int.floor_nonneg.2 ?_
      nlinarith [hx.le]
    have hcast : ((-(((round (-x * 10 ^ p)).toNat : ℚ) / 10 ^ p) : ℚ) : ℝ) =
        -(((round (-x * 10 ^ p) : ℤ) : ℝ) / 10 ^ p) := by
      rw [show ((round (-x * 10 ^ p)).toNat : ℚ) = ((round (-x * 10 ^ p) : ℤ) : ℚ) by
        exact_mod_cast Int.toNat_of_nonneg hr]
      push_cast
      ring
    rw [hcast]
    have hrw : x - -(((round (-x * 10 ^ p) : ℤ) : ℝ) / 10 ^ p) =
        -((-x * 10 ^ p - round (-x * 10 ^ p)) / 10 ^ p) := by
      field_simp
      ring
    rw [hrw, abs_neg, abs_div, abs_of_pos h10]
    exact (div_le_div_iff_of_pos_right h10).2 (abs_sub_round _)
  · rw [if_neg hx]
    have hr : 0 ≤ round (x * 10 ^ p) := by
      rw [round_eq]
      refine Int.floor_nonneg.2 ?_
      push_neg at hx
      nlinarith
    have hcast : (((((round (x * 10 ^ p)).toNat : ℚ) / 10 ^ p) : ℚ) : ℝ) =
        ((round (x * 10 ^ p) : ℤ) : ℝ) / 10 ^ p := by
      rw [show ((round (x * 10 ^ p)).toNat : ℚ) = ((round (x * 10 ^ p) : ℤ) : ℚ) by
        exact_mod_cast Int.toNat_of_nonneg hr]
      push_cast
      ring
    rw [hcast]
    have hrw : x - ((round (x * 10 ^ p) : ℤ) : ℝ) / 10 ^ p =
        (x * 10 ^ p - round (x * 10 ^ p)) / 10 ^ p := by
      field_simp
    rw [hrw, abs_div, abs_of_pos h10]
    exact (div_le_div_iff_of_pos_right h10).2 (abs_sub_round _)

theorem fixedVal_zero (p : ℕ) : fixedVal p 0 = 0 := by
  unfold fixedVal
  rw [if_neg (lt_irrefl 0), zero_mul, round_zero, Int.toNat_zero, Nat.cast_zero, zero_div]

theorem fixedVal_nonneg (p : ℕ) (x : ℝ) (hx : 0 ≤ x) : 0 ≤ fixedVal p x := by
  unfold fixedVal
  rw [if_neg (not_lt.2 hx)]
  positivity

/-! ### Character sets of the encoder output -/

theorem toFixedNN_chars (p n : ℕ) :
    ∀ c ∈ toFixedNN p n, isDigitChar c = true ∨ c = '.' := by
  intro c hc
  unfold toFixedNN at hc
  simp only [List.mem_append, List.mem_cons] at hc
  rcases hc with hc | hc | hc | hc
  · exact Or.inl (natDigits_digits _ c hc)
  · exact Or.inr hc
  · rw [List.eq_of_mem_replicate hc]
    exact Or.inl (by decide)
  · exact Or.inl (natDigits_digits _ c hc)

theorem toFixed_chars (p : ℕ) (x : ℝ) :
    ∀ c ∈ toFixed p x, isDigitChar c = true ∨ c = '.' ∨ c = '-' := by
  intro c hc
  unfold toFixed at hc
  by_cases hx : x < 0
  · rw [if_pos hx] at hc
    cases hc with
    | head => exact Or.inr (Or.inr rfl)
    | tail _ hc =>
        rcases toFixedNN_chars _ _ c hc with h | h
        · exact Or.inl h
        · exact Or.inr (Or.inl h)
  · rw [if_neg hx] at hc
    rcases toFixedNN_chars _ _ c hc with h | h
    · exact Or.inl h
    · exact Or.inr (Or.inl h)

theorem formatCoord_chars (p : ℕ) (v : GeoVertex) :
    ∀ c ∈ formatCoord p v, isDigitChar c = true ∨ c = '.' ∨ c = '-' ∨ c = ' ' := by
  intro c hc
  unfold formatCoord at hc
  simp only [List.mem_append, List.mem_cons] at hc
  rcases hc with hc | hc | hc | hc | hc
  · rcases toFixed_chars p _ c hc with h | h | h
    · exact Or.inl h
    · exact Or.inr (Or.inl h)
    · exact Or.inr (Or.inr (Or.inl h))
  · exact Or.inr (Or.inr (Or.inr hc))
  · rcases toFixed_chars p _ c hc with h | h | h
    · exact Or.inl h
    · exact Or.inr (Or.inl h)
    · exact Or.inr (Or.inr (Or.inl h))
  · exact Or.inr (Or.inr (Or.inr hc))
  · rcases toFixed_chars p _ c hc with h | h | h
    · exact Or.inl h
    · exact Or.inr (Or.inl h)
    · exact Or.inr (Or.inr (Or.inl h))

theorem ringContent_chars (p : ℕ) (t : GeoTriangle) :
    ∀ c ∈ ringContent p t,
      isDigitChar c = true ∨ c = '.' ∨ c = '-' ∨ c = ' ' ∨ c = ',' := by
  have hf : ∀ (v : GeoVertex) (c : Char), c ∈ formatCoord p v →
      isDigitChar c = true ∨ c = '.' ∨ c = '-' ∨ c = ' ' ∨ c = ',' := by
    intro v c hc
    rcases formatCoord_chars p v c hc with h | h | h | h
    · exact Or.inl h
    · exact Or.inr (Or.inl h)
    · exact Or.inr (Or.inr (Or.inl h))
    · exact Or.inr (Or.inr (Or.inr (Or.inl h)))
  intro c hc
  unfold ringContent at hc
  simp only [List.mem_append, List.mem_cons] at hc
  rcases hc with hc | hc | hc | hc | hc | hc | hc | hc | hc | hc
  · exact hf _ c hc
  · exact Or.inr (Or.inr (Or.inr (Or.inr hc)))
  · exact Or.inr (Or.inr (Or.inr (Or.inl hc)))
  · exact hf _ c hc
  · exact Or.inr (Or.inr (Or.inr (Or.inr hc)))
  · exact Or.inr (Or.inr (Or.inr (Or.inl hc)))
  · exact hf _ c hc
  · exact Or.inr (Or.inr (Or.inr (Or.inr hc)))
  · exact Or.inr (Or.inr (Or.inr (Or.inl hc)))
  · exact hf _ c hc

theorem digit_not_special (c : Char) (h : isDigitChar c = true) :
    isWsChar c = false ∧ c ≠ '(' ∧ c ≠ ')' ∧ c ≠ ',' := by
  refine ⟨?_, ?_, ?_, ?_⟩
  · cases hw : isWsChar c
    · rfl
    · exfalso
      simp only [isWsChar, Bool.or_eq_true, decide_eq_true_eq] at hw
      rcases hw with ((((h' | h') | h') | h') | h') | h' <;> subst h' <;>
        exact absurd h (by decide)
  · intro h'; subst h'; exact absurd h (by decide)
  · intro h'; subst h'; exact absurd h (by decide)
  · intro h'; subst h'; exact absurd h (by decide)

/-- No character of an encoded ring is a parenthesis. -/
theorem ringContent_no_paren (p : ℕ) (t : GeoTriangle) :
    ∀ c ∈ ringContent p t, c ≠ '(' ∧ c ≠ ')' := by
  intro c hc
  rcases ringContent_chars p t c hc with h | h | h | h | h
  · exact ⟨(digit_not_special c h).2.1, (digit_not_special c h).2.2.1⟩
  · subst h; exact ⟨by decide, by decide⟩
  · subst h; exact ⟨by decide, by decide⟩
  · subst h; exact ⟨by decide, by decide⟩
  · subst h; exact ⟨by decide, by decide⟩

/-- No character of a fixed-point token is whitespace or a comma. -/
theorem toFixed_not_ws (p : ℕ) (x : ℝ) :
    ∀ c ∈ toFixed p x, isWsChar c = false ∧ c ≠ ',' := by
  intro c hc
  rcases toFixed_chars p x c hc with h | h | h
  · exact ⟨(digit_not_special c h).1, (digit_not_special c h).2.2.2⟩
  · subst h; exact ⟨by decide, by decide⟩
  · subst h; exact ⟨by decide, by decide⟩

theorem formatCoord_no_comma (p : ℕ) (v : GeoVertex) :
    ∀ c ∈ formatCoord p v, c ≠ ',' := by
  intro c hc
  rcases formatCoord_chars p v c hc with h | h | h | h
  · exact (digit_not_special c h).2.2.2
  · subst h; decide
  · subst h; decide
  · subst h; decide

/-! ### Heads and last characters of encoded tokens -/

theorem getLast?_cons_ne {α : Type} (a : α) (l : List α) (h : l ≠ []) :
    (a :: l).getLast? = l.getLast? := by
  rw [show a :: l = [a] ++ l from rfl]
  exact List.getLast?_append_of_ne_nil [a] h

theorem toFixedNN_ne_nil (p n : ℕ) : toFixedNN p n ≠ [] := by
  unfold toFixedNN
  simp

theorem toFixed_cons (p : ℕ) (x : ℝ) :
    ∃ c l, toFixed p x = c :: l ∧ isWsChar c = false := by
  unfold toFixed
  by_cases hx : x < 0
  · rw [if_pos hx]
    exact ⟨'-', _, rfl, by decide⟩
  · rw [if_neg hx]
    unfold toFixedNN
    cases hnd : natDigits ((round (x * 10 ^ p)).toNat / 10 ^ p) with
    | nil => exact absurd hnd (natDigits_ne_nil _)
    | cons c cs =>
        refine ⟨c, _, rfl, ?_⟩
        have hc : isDigitChar c = true := natDigits_digits _ c (by rw [hnd]; simp)
        exact (digit_not_special c hc).1

theorem toFixed_getLast (p : ℕ) (x : ℝ) :
    ∃ c, (toFixed p x).getLast? = some c ∧ isWsChar c = false := by
  have hlast : ∀ n : ℕ, ∃ c, (toFixedNN p n).getLast? = some c ∧ isWsChar c = false := by
    intro n
    have hne : natDigits (n % 10 ^ p) ≠ [] := natDigits_ne_nil _
    have h1 : List.replicate (p - (natDigits (n % 10 ^ p)).length) '0' ++
        natDigits (n % 10 ^ p) ≠ [] := by
      intro hcon
      exact hne (List.append_eq_nil.1 hcon).2
    have hd := natDigits_digits (n % 10 ^ p) _ (List.getLast_mem hne)
    refine ⟨(natDigits (n % 10 ^ p)).getLast hne, ?_, (digit_not_special _ hd).1⟩
    unfold toFixedNN
    rw [List.getLast?_append_of_ne_nil _ (by simp), getLast?_cons_ne _ _ h1,
      List.getLast?_append_of_ne_nil _ hne, List.getLast?_eq_getLast _ hne]
  unfold toFixed
  by_cases hx : x < 0
  · rw [if_pos hx]
    rcases hlast (round (-x * 10 ^ p)).toNat with ⟨c, hc, hw⟩
    refine ⟨c, ?_, hw⟩
    rw [getLast?_cons_ne _ _ (toFixedNN_ne_nil p _)]
    exact hc
  · rw [if_neg hx]
    exact hlast _

/-! ### Trimming, splitting and scanning the encoded text -/

theorem trimL_eq_self {l : List Char} (h : ∀ c, l.head? = some c → isWsChar c = false) :
    trimL l = l := by
  cases l with
  | nil => rfl
  | cons a t =>
      unfold trimL
      rw [h a rfl]
      simp

theorem trimR_eq_self {l : List Char} (h : ∀ c, l.getLast? = some c → isWsChar c = false) :
    trimR l = l := by
  unfold trimR
  rw [trimL_eq_self, List.reverse_reverse]
  intro c hc
  rw [List.head?_reverse] at hc
  exact h c hc

theorem trimWs_eq_self {l : List Char}
    (h1 : ∀ c, l.head? = some c → isWsChar c = false)
    (h2 : ∀ c, l.getLast? = some c → isWsChar c = false) :
    trimWs l = l := by
  unfold trimWs
  rw [trimL_eq_self h1, trimR_eq_self h2]

theorem trimL_cons_ws (c : Char) (l : List Char) (h : isWsChar c = true) :
    trimL (c :: l) = trimL l := by
  show (if isWsChar c = true then trimL l else c :: l) = trimL l
  rw [if_pos h]

theorem trimWs_cons_ws (c : Char) (l : List Char) (h : isWsChar c = true) :
    trimWs (c :: l) = trimWs l := by
  unfold trimWs
  rw [trimL_cons_ws c l h]

theorem stripCI_self (pat : List Char) (h : ∀ c ∈ pat, upChar c = c) :
    ∀ s, stripCI pat (pat ++ s) = some s := by
  induction pat with
  | nil => intro s; rfl
  | cons p ps ih =>
      intro s
      rw [List.cons_append]
      show (if upChar p = p then stripCI ps (ps ++ s) else none) = some s
      rw [if_pos (h p (by simp))]
      exact ih (fun c hc => h c (by simp [hc])) s

theorem splitComma_no_comma (a : List Char) (h : ∀ c ∈ a, c ≠ ',') :
    splitComma a = [a] := by
  induction a with
  | nil => rfl
  | cons c t ih =>
      rw [splitComma.eq_def]
      split
      · rename_i heq
        exact absurd heq (List.cons_ne_nil _ _)
      · rename_i rest heq
        rw [List.cons.injEq] at heq
        exact absurd heq.1 (h c (by simp))
      · rename_i hguard heq
        rw [List.cons.injEq] at heq
        obtain ⟨hc, hr⟩ := heq
        subst hc
        subst hr
        rw [ih (fun x hx => h x (by simp [hx]))]

theorem splitComma_append (a l : List Char) (h : ∀ c ∈ a, c ≠ ',') :
    splitComma (a ++ ',' :: l) = a :: splitComma l := by
  induction a with
  | nil =>
      rw [List.nil_append, splitComma.eq_def]
      split
      · rename_i heq
        exact absurd heq (List.cons_ne_nil _ _)
      · rename_i rest heq
        rw [List.cons.injEq] at heq
        rw [← heq.2]
      · rename_i hguard heq
        rw [List.cons.injEq] at heq
        exact absurd heq.1.symm hguard
  | cons c t ih =>
      rw [List.cons_append, splitComma.eq_def]
      split
      · rename_i heq
        exact absurd heq (List.cons_ne_nil _ _)
      · rename_i rest heq
        rw [List.cons.injEq] at heq
        exact absurd heq.1 (h c (by simp))
      · rename_i hguard heq
        rw [List.cons.injEq] at heq
        obtain ⟨hc, hr⟩ := heq
        subst hc
        subst hr
        rw [ih (fun x hx => h x (by simp [hx]))]

theorem fieldsWsAux_token (t : List Char) (h : ∀ c ∈ t, isWsChar c = false) :
    ∀ acc rest, fieldsWsAux acc (t ++ rest) = fieldsWsAux (t.reverse ++ acc) rest := by
  induction t with
  | nil => intro acc rest; rfl
  | cons c t' ih =>
      intro acc rest
      rw [List.cons_append]
      show (if isWsChar c = true then
          if acc.isEmpty = true then fieldsWsAux [] (t' ++ rest)
          else acc.reverse :: fieldsWsAux [] (t' ++ rest)
        else fieldsWsAux (c :: acc) (t' ++ rest)) = _
      rw [h c (by simp)]
      simp only [Bool.false_eq_true, if_false]
      rw [ih (fun x hx => h x (by simp [hx])) (c :: acc) rest]
      congr 1
      simp

theorem fieldsWsAux_ws_sep (acc rest : List Char) (c : Char) (hc : isWsChar c = true)
    (hne : acc.isEmpty = false) :
    fieldsWsAux acc (c :: rest) = acc.reverse :: fieldsWsAux [] rest := by
  show (if isWsChar c = true then
      if acc.isEmpty = true then fieldsWsAux [] rest else acc.reverse :: fieldsWsAux [] rest
    else fieldsWsAux (c :: acc) rest) = _
  rw [hc, hne]
  simp

theorem fieldsWsAux_last (acc : List Char) (hne : acc.isEmpty = false) :
    fieldsWsAux acc [] = [acc.reverse] := by
  show (if acc.isEmpty = true then [] else [acc.reverse]) = _
  rw [hne]
  simp

theorem reverse_isEmpty_false (t : List Char) (h : t ≠ []) : t.reverse.isEmpty = false := by
  cases hr : t.reverse with
  | nil => exact absurd (by simpa using hr) h
  | cons a l => rfl

theorem fieldsWs_three (t1 t2 t3 : List Char)
    (h1 : ∀ c ∈ t1, isWsChar c = false) (hn1 : t1 ≠ [])
    (h2 : ∀ c ∈ t2, isWsChar c = false) (hn2 : t2 ≠ [])
    (h3 : ∀ c ∈ t3, isWsChar c = false) (hn3 : t3 ≠ []) :
    fieldsWs (t1 ++ ' ' :: (t2 ++ ' ' :: t3)) = [t1, t2, t3] := by
  unfold fieldsWs
  rw [fieldsWsAux_token t1 h1 [] _, List.append_nil,
    fieldsWsAux_ws_sep _ _ ' ' (by decide) (reverse_isEmpty_false t1 hn1),
    List.reverse_reverse,
    fieldsWsAux_token t2 h2 [] _, List.append_nil,
    fieldsWsAux_ws_sep _ _ ' ' (by decide) (reverse_isEmpty_false t2 hn2),
    List.reverse_reverse]
  conv_lhs => rw [← List.append_nil t3]
  rw [fieldsWsAux_token t3 h3 [] [], List.append_nil,
    fieldsWsAux_last _ (reverse_isEmpty_false t3 hn3), List.reverse_reverse]

theorem findOpen_no_paren (s : List Char) (h : ∀ c ∈ s, c ≠ '(') : findOpen s = none := by
  induction s with
  | nil => rfl
  | cons c t ih =>
      rw [findOpen.eq_def]
      split
      · rename_i rest heq
        rw [List.cons.injEq] at heq
        exact absurd heq.1 (h c (by simp))
      · rename_i c' rest heq
        rw [List.cons.injEq] at heq
        rw [← heq.2]
        exact ih (fun x hx => h x (by simp [hx]))
      · rename_i heq
        exact absurd heq (List.cons_ne_nil _ _)

theorem findOpen_append (sep : List Char) (h : ∀ c ∈ sep, c ≠ '(') (X : List Char) :
    findOpen (sep ++ X) = findOpen X := by
  induction sep with
  | nil => rfl
  | cons c t ih =>
      rw [List.cons_append, findOpen.eq_def]
      split
      · rename_i rest heq
        rw [List.cons.injEq] at heq
        exact absurd heq.1 (h c (by simp))
      · rename_i c' rest heq
        rw [List.cons.injEq] at heq
        rw [← heq.2]
        exact ih (fun x hx => h x (by simp [hx]))
      · rename_i heq
        exact absurd heq (List.cons_ne_nil _ _)

theorem findOpen_open (X : List Char) : findOpen ('(' :: '(' :: X) = some X := rfl

theorem takeUntilClose_encode (content : List Char) (h : ∀ c ∈ content, c ≠ ')') :
    ∀ rest : List Char,
      takeUntilClose (content ++ ')' :: ')' :: rest) = some (content, rest) := by
  induction content with
  | nil => intro rest; rfl
  | cons c t ih =>
      intro rest
      rw [List.cons_append, takeUntilClose.eq_def]
      split
      · rename_i r heq
        rw [List.cons.injEq] at heq
        exact absurd heq.1 (h c (by simp))
      · rename_i c' r heq
        rw [List.cons.injEq] at heq
        obtain ⟨hc, hr⟩ := heq
        subst hc
        rw [← hr, ih (fun x hx => h x (by simp [hx])) rest]
        rfl
      · rename_i heq
        exact absurd heq (List.cons_ne_nil _ _)

theorem interiorSepAt_ne (c : Char) (hc : c ≠ ')') (l : List Char) :
    interiorSepAt (c :: l) = false := by
  rw [interiorSepAt.eq_def]
  split
  · rename_i r heq
    rw [List.cons.injEq] at heq
    exact absurd heq.1 hc
  · rfl

theorem hasInteriorSep_no_paren (s : List Char) (h : ∀ c ∈ s, c ≠ ')') :
    hasInteriorSep s = false := by
  induction s with
  | nil => rfl
  | cons c t ih =>
      unfold hasInteriorSep
      rw [interiorSepAt_ne c (h c (by simp)) t, ih (fun x hx => h x (by simp [hx]))]
      rfl

theorem scanPolygonsAux_nil (fuel : ℕ) : scanPolygonsAux fuel [] = [] := by
  cases fuel with
  | zero => rfl
  | succ f => rfl

theorem scanPolygonsAux_none (fuel : ℕ) (s : List Char) (h : findOpen s = none) :
    scanPolygonsAux (fuel + 1) s = [] := by
  unfold scanPolygonsAux
  rw [h]

theorem scanPolygonsAux_step (fuel : ℕ) (s afterOpen content rest : List Char)
    (h1 : findOpen s = some afterOpen)
    (h2 : takeUntilClose afterOpen = some (content, rest)) :
    scanPolygonsAux (fuel + 1) s = trimWs content :: scanPolygonsAux fuel rest := by
  unfold scanPolygonsAux
  rw [h1]
  split
  · rename_i heq
    simp at heq
  · rename_i a heq
    rw [Option.some.injEq] at heq
    subst heq
    rw [h2]
    split
    · rename_i heq2
      simp at heq2
    · rename_i pr heq2
      rw [Option.some.injEq, Prod.mk.injEq] at heq2
      obtain ⟨hc, hr⟩ := heq2
      subst hc
      subst hr
      rw [scanPolygonsAux.eq_def]

/-- One encoded polygon always starts with `(`. -/
theorem encodeBody_cons (p : ℕ) (t : GeoTriangle) (rest : List GeoTriangle) :
    ∃ l, encodeBody p (t :: rest) = '(' :: l := by
  cases rest with
  | nil => exact ⟨_, rfl⟩
  | cons r rs => exact ⟨_, rfl⟩

theorem encodeBody_length (p : ℕ) :
    ∀ ts : List GeoTriangle, ts.length ≤ (encodeBody p ts).length := by
  intro ts
  induction ts with
  | nil => simp [encodeBody]
  | cons t rest ih =>
      cases rest with
      | nil =>
          show 1 ≤ (ringString p t).length
          unfold ringString
          simp
      | cons r rs =>
          show (t :: r :: rs).length ≤
            (ringString p t ++ ',' :: ' ' :: encodeBody p (r :: rs)).length
          rw [List.length_append]
          unfold ringString
          simp only [List.length_cons]
          simp only [List.length_cons] at ih ⊢
          omega

theorem encodeBody_cons_cons (p : ℕ) (t r : GeoTriangle) (rs : List GeoTriangle) :
    encodeBody p (t :: r :: rs) =
      '(' :: '(' :: (ringContent p t ++
        ')' :: ')' :: (',' :: ' ' :: encodeBody p (r :: rs))) := by
  show ringString p t ++ ',' :: ' ' :: encodeBody p (r :: rs) = _
  unfold ringString
  simp

/-- The polygon scan recovers exactly the trimmed ring contents of the encoded body. -/
theorem scanPolygonsAux_encode (p : ℕ) :
    ∀ (ts : List GeoTriangle) (fuel : ℕ) (sep : List Char),
      ts.length < fuel → (∀ c ∈ sep, c ≠ '(') →
      scanPolygonsAux fuel (sep ++ encodeBody p ts) =
        ts.map fun t => trimWs (ringContent p t) := by
  intro ts
  induction ts with
  | nil =>
      intro fuel sep hf hsep
      cases fuel with
      | zero => cases hf
      | succ f =>
          show scanPolygonsAux (f + 1) (sep ++ []) = []
          rw [List.append_nil]
          exact scanPolygonsAux_none f sep (findOpen_no_paren sep hsep)
  | cons t rest ih =>
      intro fuel sep hf hsep
      cases fuel with
      | zero => cases hf
      | succ f =>
          have hnp2 : ∀ c ∈ ringContent p t, c ≠ ')' := fun c hc =>
            (ringContent_no_paren p t c hc).2
          cases rest with
          | nil =>
              have h1 : findOpen (sep ++ encodeBody p [t]) =
                  some (ringContent p t ++ ')' :: ')' :: []) := by
                rw [findOpen_append sep hsep]
                rfl
              rw [scanPolygonsAux_step f _ _ _ _ h1 (takeUntilClose_encode _ hnp2 []),
                scanPolygonsAux_nil f]
              rfl
          | cons r rs =>
              have h1 : findOpen (sep ++ encodeBody p (t :: r :: rs)) =
                  some (ringContent p t ++
                    ')' :: ')' :: (',' :: ' ' :: encodeBody p (r :: rs))) := by
                rw [encodeBody_cons_cons, findOpen_append sep hsep]
                rfl
              rw [scanPolygonsAux_step f _ _ _ _ h1
                (takeUntilClose_encode _ hnp2 _)]
              have hrec := ih f [',', ' ']
                (by simp only [List.length_cons] at hf ⊢; omega) (by decide)
              rw [show (',' :: ' ' :: encodeBody p (r :: rs)) =
                  [',', ' '] ++ encodeBody p (r :: rs) from rfl, hrec]
              rfl

theorem scanPolygons_encode (p : ℕ) (ts : List GeoTriangle) :
    scanPolygons (encodeBody p ts) = ts.map fun t => trimWs (ringContent p t) := by
  unfold scanPolygons
  rw [show encodeBody p ts = [] ++ encodeBody p ts from rfl]
  refine scanPolygonsAux_encode p ts _ [] ?_ (by simp)
  have := encodeBody_length p ts
  simp only [List.nil_append, List.length_append]
  omega

/-! ### Parsing an encoded ring -/

theorem formatCoord_head (p : ℕ) (v : GeoVertex) :
    ∃ c l, formatCoord p v = c :: l ∧ isWsChar c = false := by
  rcases toFixed_cons p v.longitude with ⟨c, l, hcl, hw⟩
  refine ⟨c, l ++ ' ' :: (toFixed p v.latitude ++ ' ' :: toFixed p v.altitude), ?_, hw⟩
  unfold formatCoord
  rw [hcl, List.cons_append]

theorem formatCoord_ne_nil (p : ℕ) (v : GeoVertex) : formatCoord p v ≠ [] := by
  rcases formatCoord_head p v with ⟨c, l, hs, _⟩
  rw [hs]
  exact List.cons_ne_nil c l

theorem toFixed_ne_nil (p : ℕ) (x : ℝ) : toFixed p x ≠ [] := by
  rcases toFixed_cons p x with ⟨c, l, hs, _⟩
  rw [hs]
  exact List.cons_ne_nil c l

theorem formatCoord_getLast (p : ℕ) (v : GeoVertex) :
    ∃ c, (formatCoord p v).getLast? = some c ∧ isWsChar c = false := by
  rcases toFixed_getLast p v.altitude with ⟨c, hc, hw⟩
  refine ⟨c, ?_, hw⟩
  unfold formatCoord
  rw [List.getLast?_append_of_ne_nil _ (by simp), getLast?_cons_ne _ _ (by simp),
    List.getLast?_append_of_ne_nil _ (by simp [toFixed_ne_nil p v.altitude]),
    getLast?_cons_ne _ _ (toFixed_ne_nil p v.altitude)]
  exact hc

theorem trimWs_formatCoord (p : ℕ) (v : GeoVertex) :
    trimWs (formatCoord p v) = formatCoord p v := by
  rcases formatCoord_head p v with ⟨c0, l0, hshape, hw0⟩
  rcases formatCoord_getLast p v with ⟨c1, hl, hw1⟩
  refine trimWs_eq_self ?_ ?_
  · intro c hc
    rw [hshape, show (c0 :: l0).head? = some c0 from rfl] at hc
    rwa [← Option.some.inj hc]
  · intro c hc
    rw [hl] at hc
    rwa [← Option.some.inj hc]

theorem ringContent_head (p : ℕ) (t : GeoTriangle) :
    ∃ c l, ringContent p t = c :: l ∧ isWsChar c = false := by
  rcases formatCoord_head p t.v0 with ⟨c, l, hcl, hw⟩
  refine ⟨c, l ++ ',' :: ' ' :: (formatCoord p t.v1 ++ ',' :: ' ' ::
    (formatCoord p t.v2 ++ ',' :: ' ' :: formatCoord p t.v0)), ?_, hw⟩
  unfold ringContent
  rw [hcl, List.cons_append]

theorem ringContent_getLast (p : ℕ) (t : GeoTriangle) :
    ∃ c, (ringContent p t).getLast? = some c ∧ isWsChar c = false := by
  rcases formatCoord_getLast p t.v0 with ⟨c, hc, hw⟩
  refine ⟨c, ?_, hw⟩
  unfold ringContent
  rw [List.getLast?_append_of_ne_nil _ (by simp), getLast?_cons_ne _ _ (by simp),
    getLast?_cons_ne _ _ (by simp [formatCoord_ne_nil p t.v1]),
    List.getLast?_append_of_ne_nil _ (by simp), getLast?_cons_ne _ _ (by simp),
    getLast?_cons_ne _ _ (by simp [formatCoord_ne_nil p t.v2]),
    List.getLast?_append_of_ne_nil _ (by simp), getLast?_cons_ne _ _ (by simp),
    getLast?_cons_ne _ _ (formatCoord_ne_nil p t.v0)]
  exact hc

theorem trimWs_ringContent (p : ℕ) (t : GeoTriangle) :
    trimWs (ringContent p t) = ringContent p t := by
  rcases ringContent_head p t with ⟨c0, l0, hshape, hw0⟩
  rcases ringContent_getLast p t with ⟨c1, hl, hw1⟩
  refine trimWs_eq_self ?_ ?_
  · intro c hc
    rw [hshape, show (c0 :: l0).head? = some c0 from rfl] at hc
    rwa [← Option.some.inj hc]
  · intro c hc
    rw [hl] at hc
    rwa [← Option.some.inj hc]

theorem parseVertexStrict_formatCoord (p : ℕ) (hp : 0 < p) (v : GeoVertex) :
    parseVertexStrict (formatCoord p v) = .ok (roundedQVertex p v) := by
  have hfw : fieldsWs (formatCoord p v) =
      [toFixed p v.longitude, toFixed p v.latitude, toFixed p v.altitude] := by
    unfold formatCoord
    refine fieldsWs_three _ _ _ (fun c hc => (toFixed_not_ws p _ c hc).1) (toFixed_ne_nil p _)
      (fun c hc => (toFixed_not_ws p _ c hc).1) (toFixed_ne_nil p _)
      (fun c hc => (toFixed_not_ws p _ c hc).1) (toFixed_ne_nil p _)
  unfold parseVertexStrict
  rw [hfw]
  simp only [List.length_cons, List.length_nil, List.getD_cons_zero, List.getD_cons_succ,
    jsNumber_toFixed p hp]
  rw [if_neg (by omega)]
  rfl

theorem coordTokens_ringContent (p : ℕ) (t : GeoTriangle) :
    coordTokens (ringContent p t) =
      [formatCoord p t.v0, formatCoord p t.v1, formatCoord p t.v2, formatCoord p t.v0] := by
  have hcons : ∀ v : GeoVertex, ∀ c ∈ ' ' :: formatCoord p v, c ≠ ',' := by
    intro v c hc
    cases hc with
    | head => decide
    | tail _ hc => exact formatCoord_no_comma p v c hc
  have hsplit : splitComma (ringContent p t) =
      [formatCoord p t.v0, ' ' :: formatCoord p t.v1, ' ' :: formatCoord p t.v2,
        ' ' :: formatCoord p t.v0] := by
    unfold ringContent
    rw [splitComma_append _ _ (formatCoord_no_comma p _),
      show ' ' :: (formatCoord p t.v1 ++ ',' :: ' ' ::
          (formatCoord p t.v2 ++ ',' :: ' ' :: formatCoord p t.v0)) =
        (' ' :: formatCoord p t.v1) ++ ',' ::
          (' ' :: (formatCoord p t.v2 ++ ',' :: ' ' :: formatCoord p t.v0)) from rfl,
      splitComma_append _ _ (hcons t.v1),
      show ' ' :: (formatCoord p t.v2 ++ ',' :: ' ' :: formatCoord p t.v0) =
        (' ' :: formatCoord p t.v2) ++ ',' :: (' ' :: formatCoord p t.v0) from rfl,
      splitComma_append _ _ (hcons t.v2),
      splitComma_no_comma _ (hcons t.v0)]
  have hne : ∀ v : GeoVertex, (formatCoord p v).isEmpty = false := by
    intro v
    rcases formatCoord_head p v with ⟨c, l, hs, _⟩
    rw [hs]
    rfl
  have hsp : ∀ l : List Char, trimWs (' ' :: l) = trimWs l := fun l =>
    trimWs_cons_ws ' ' l (by decide)
  unfold coordTokens
  rw [hsplit]
  simp only [List.map_cons, List.map_nil, hsp, trimWs_formatCoord]
  simp [List.filter, hne]

theorem verticesEqual_self (q : QVertex) :
    verticesEqual q q RING_CLOSURE_TOLERANCE = true := by
  unfold verticesEqual RING_CLOSURE_TOLERANCE
  simp only [sub_self, abs_zero, decide_eq_true_eq]
  norm_num

theorem processRing_ringContent (p : ℕ) (hp : 0 < p) (t : GeoTriangle) :
    processRing (ringContent p t) =
      triangulateFace [roundedQVertex p t.v0, roundedQVertex p t.v1,
        roundedQVertex p t.v2] := by
  unfold processRing
  rw [hasInteriorSep_no_paren _ (fun c hc => (ringContent_no_paren p t c hc).2)]
  simp only [Bool.false_eq_true, if_false]
  rw [coordTokens_ringContent]
  rw [if_neg (by simp)]
  have hmapM : ([formatCoord p t.v0, formatCoord p t.v1, formatCoord p t.v2,
      formatCoord p t.v0].mapM parseVertexStrict) =
      .ok [roundedQVertex p t.v0, roundedQVertex p t.v1, roundedQVertex p t.v2,
        roundedQVertex p t.v0] := by
    simp only [List.mapM, List.mapM.loop, parseVertexStrict_formatCoord p hp,
      exceptBind_ok]
    rfl
  rw [hmapM, exceptBind_ok]
  rw [show ([roundedQVertex p t.v0, roundedQVertex p t.v1, roundedQVertex p t.v2,
      roundedQVertex p t.v0].getD 0 default) = roundedQVertex p t.v0 from rfl,
    show ([roundedQVertex p t.v0, roundedQVertex p t.v1, roundedQVertex p t.v2,
      roundedQVertex p t.v0].getD
        ([roundedQVertex p t.v0, roundedQVertex p t.v1, roundedQVertex p t.v2,
          roundedQVertex p t.v0].length - 1) default) = roundedQVertex p t.v0 from rfl,
    verticesEqual_self]
  simp only [if_true]
  rfl

/-- Success of the accumulating ring loop on per-ring successes. -/
theorem ringFold_map_ok (f : GeoTriangle → List Char) (g : GeoTriangle → GeoTriangle) :
    ∀ (ts : List GeoTriangle) (acc : List GeoTriangle),
      (∀ t ∈ ts, processRing (f t) = .ok [g t]) →
      ringFold acc (ts.map f) = .ok (acc ++ ts.map g) := by
  intro ts
  induction ts with
  | nil =>
      intro acc h
      simp [ringFold]
  | cons t rest ih =>
      intro acc h
      simp only [List.map_cons]
      unfold ringFold
      simp only [h t (by simp)]
      rw [ih (acc ++ [g t]) (fun x hx => h x (by simp [hx]))]
      simp

/-- The accumulating ring loop aborts at the first throwing ring. -/
theorem ringFold_error_head (acc : List GeoTriangle) (r : List Char)
    (rest : List (List Char)) (e : String) (h : processRing r = .error e) :
    ringFold acc (r :: rest) = .error e := by
  unfold ringFold
  simp only [h]

/-! ### The outer grammar on encoded text -/

theorem wktHeader_split (X : List Char) :
    wktHeader ++ X = surfaceKeyword ++ ([' ', 'Z', ' ', '('] ++ X) := by
  unfold wktHeader
  rw [List.append_assoc]

theorem emptySurface_encode (X : List Char) :
    emptySurface (wktHeader ++ X) = false := by
  unfold emptySurface
  rw [wktHeader_split, stripCI_self surfaceKeyword (by decide) _]
  rfl

theorem outerMatch_encode (B : List Char) (hB : trimL B = B) :
    outerMatch (wktHeader ++ (B ++ [')'])) = some B := by
  unfold outerMatch
  rw [wktHeader_split, stripCI_self surfaceKeyword (by decide) _]
  show (match (B ++ [')']).getLast? with
    | some ')' => some (trimL (B ++ [')']).dropLast)
    | _ => none) = some B
  rw [List.getLast?_concat]
  show some (trimL (B ++ [')']).dropLast) = some B
  rw [List.dropLast_concat, hB]

/-- Parsing the encoder's output reduces to folding the ring processor over the
encoded rings. -/
theorem parse_encode (p : ℕ) (ts : List GeoTriangle) (hne : ts ≠ []) :
    parsePolyhedralSurfaceWKT (wktHeader ++ encodeBody p ts ++ [')']) =
      ringFold [] (ts.map fun t => ringContent p t) := by
  obtain ⟨t0, rest0, rfl⟩ : ∃ t0 rest0, ts = t0 :: rest0 := by
    cases ts with
    | nil => exact absurd rfl hne
    | cons a l => exact ⟨a, l, rfl⟩
  rw [List.append_assoc]
  have hhead2 : ∀ c, (wktHeader ++ (encodeBody p (t0 :: rest0) ++ [')'])).head? = some c →
      isWsChar c = false := by
    intro c hc
    rw [show (wktHeader ++ (encodeBody p (t0 :: rest0) ++ [')'])).head? = some 'P'
      from rfl] at hc
    rw [← Option.some.inj hc]
    decide
  have hlast2 : ∀ c, (wktHeader ++ (encodeBody p (t0 :: rest0) ++ [')'])).getLast? = some c →
      isWsChar c = false := by
    intro c hc
    rw [List.getLast?_append_of_ne_nil _ (by simp), List.getLast?_concat] at hc
    rw [← Option.some.inj hc]
    decide
  have htrim : trimWs (wktHeader ++ (encodeBody p (t0 :: rest0) ++ [')'])) =
      wktHeader ++ (encodeBody p (t0 :: rest0) ++ [')']) := trimWs_eq_self hhead2 hlast2
  have hBtrim : trimL (encodeBody p (t0 :: rest0)) = encodeBody p (t0 :: rest0) := by
    rcases encodeBody_cons p t0 rest0 with ⟨l, hl⟩
    rw [hl]
    refine trimL_eq_self ?_
    intro c hc
    rw [show ('(' :: l).head? = some '(' from rfl] at hc
    rw [← Option.some.inj hc]
    decide
  unfold parsePolyhedralSurfaceWKT
  simp only [htrim,
    show stripSRID (wktHeader ++ (encodeBody p (t0 :: rest0) ++ [')'])) =
      wktHeader ++ (encodeBody p (t0 :: rest0) ++ [')']) from rfl,
    emptySurface_encode,
    show (wktHeader ++ (encodeBody p (t0 :: rest0) ++ [')'])).isEmpty = false from rfl,
    Bool.false_eq_true, if_false, outerMatch_encode _ hBtrim]
  rw [scanPolygons_encode]
  congr 1
  refine List.map_congr_left ?_
  intro t _
  exact trimWs_ringContent p t

/-! ### Triangulation of a parsed 3-vertex ring -/

theorem triangulateFace_three_ok (q0 q1 q2 : QVertex)
    (h : (MIN_AREA_TOLERANCE : ℝ) <
      ((q1.toV3.sub q0.toV3).cross (q2.toV3.sub q0.toV3)).lengthSq) :
    triangulateFace [q0, q1, q2] =
      .ok [⟨q0.toGeoVertex, q1.toGeoVertex, q2.toGeoVertex⟩] := by
  unfold triangulateFace
  rw [if_neg (by simp), if_pos (by simp)]
  simp only [List.getD_cons_zero, List.getD_cons_succ]
  rw [if_neg (not_le.2 h)]

theorem triangulateFace_three_error (q0 q1 q2 : QVertex)
    (h : ((q1.toV3.sub q0.toV3).cross (q2.toV3.sub q0.toV3)).lengthSq ≤
      (MIN_AREA_TOLERANCE : ℝ)) :
    triangulateFace [q0, q1, q2] =
      .error "Cannot triangulate polygon face: triangle is degenerate." := by
  unfold triangulateFace
  rw [if_neg (by simp), if_pos (by simp)]
  simp only [List.getD_cons_zero, List.getD_cons_succ]
  rw [if_pos h]

/-- The claimed round-trip accuracy: `1e-6` degrees in longitude/latitude, `1e-2`
meters in altitude. -/
def geoVertexClose (v d : GeoVertex) : Prop :=
  |v.longitude - d.longitude| ≤ 1 / 10 ^ 6 ∧ |v.latitude - d.latitude| ≤ 1 / 10 ^ 6 ∧
    |v.altitude - d.altitude| ≤ 1 / 10 ^ 2

theorem decoded_close (t : GeoTriangle) :
    geoVertexClose t.v0 (decodedTriangle 8 t).v0 ∧
      geoVertexClose t.v1 (decodedTriangle 8 t).v1 ∧
      geoVertexClose t.v2 (decodedTriangle 8 t).v2 := by
  have key : ∀ v : GeoVertex, geoVertexClose v ((roundedQVertex 8 v).toGeoVertex) := by
    intro v
    have h1 := fixedVal_close 8 v.longitude
    have h2 := fixedVal_close 8 v.latitude
    have h3 := fixedVal_close 8 v.altitude
    have hle : (1 : ℝ) / 2 / 10 ^ 8 ≤ 1 / 10 ^ 6 := by norm_num
    have hle2 : (1 : ℝ) / 2 / 10 ^ 8 ≤ 1 / 10 ^ 2 := by norm_num
    exact ⟨h1.trans hle, h2.trans hle, h3.trans hle2⟩
  exact ⟨key t.v0, key t.v1, key t.v2⟩

theorem bufferGeometryToWKT_ok (g : BufferGeometry ℝ) (origin : Coords) (p : ℕ)
    (ts : List GeoTriangle) (hex : extractGeoTriangles g origin = .ok ts) (hne : ts ≠ []) :
    bufferGeometryToWKT g origin p = .ok (wktHeader ++ encodeBody p ts ++ [')']) := by
  unfold bufferGeometryToWKT
  simp only [hex]
  rw [if_neg (fun hlen => hne (List.length_eq_zero.1 hlen))]

/-- Claim C1 (amended): for every geometry whose triangle extraction succeeds with a
nonempty list, *provided every extracted triangle still spans more than the degenerate-
area tolerance `1e-12` after its vertices are rounded to 8 decimals*, decoding the WKT
text produced at precision 8 succeeds, yields exactly one `GeoTriangle` per extracted
triangle (so the same count), and every decoded vertex agrees with the corresponding
pre-encode vertex within `1e-6` degrees in longitude and latitude and within `1e-2`
meters in altitude (the rounding error is at most `5e-9` per coordinate).  The original
claim is false without the area proviso: rounding can collapse a small face below the
parser's degeneracy tolerance, making the decode throw (see the counterexample). -/
theorem wkt_roundtrip (g : BufferGeometry ℝ) (origin : Coords) (ts : List GeoTriangle)
    (hex : extractGeoTriangles g origin = .ok ts) (hne : ts ≠ [])
    (harea : ∀ t ∈ ts, (MIN_AREA_TOLERANCE : ℝ) <
      (((roundedQVertex 8 t.v1).toV3.sub (roundedQVertex 8 t.v0).toV3).cross
        ((roundedQVertex 8 t.v2).toV3.sub (roundedQVertex 8 t.v0).toV3)).lengthSq) :
    bufferGeometryToWKT g origin 8 = .ok (wktHeader ++ encodeBody 8 ts ++ [')']) ∧
    parsePolyhedralSurfaceWKT (wktHeader ++ encodeBody 8 ts ++ [')']) =
      .ok (ts.map (decodedTriangle 8)) ∧
    (ts.map (decodedTriangle 8)).length = ts.length ∧
    ∀ t ∈ ts, geoVertexClose t.v0 (decodedTriangle 8 t).v0 ∧
      geoVertexClose t.v1 (decodedTriangle 8 t).v1 ∧
      geoVertexClose t.v2 (decodedTriangle 8 t).v2 := by
  refine ⟨bufferGeometryToWKT_ok g origin 8 ts hex hne, ?_,
    List.length_map _ _, fun t _ => decoded_close t⟩
  rw [parse_encode 8 ts hne]
  rw [ringFold_map_ok (fun t => ringContent 8 t) (decodedTriangle 8) ts [] ?_]
  · rw [List.nil_append]
  · intro t ht
    rw [processRing_ringContent 8 (by norm_num) t,
      triangulateFace_three_ok _ _ _ (harea t ht)]
    rfl

/-! ### Witness data for the amended claim C1 -/

noncomputable section
local instance (priority := low) propDecE (p : Prop) : Decidable p :=
  Classical.propDecidable p

/-- Witness geometry: one local triangle with 100 km legs along the x and −z axes. -/
def wGeom : BufferGeometry ℝ :=
  ⟨some ⟨[0, 0, 0, 100000, 0, 0, 0, 0, -100000], 3⟩, none⟩

def wOrigin : Coords := ⟨0, 0, none⟩

/-- The geo triangle extracted from `wGeom` at `wOrigin` (legs of ≈0.9° along the
longitude and latitude axes). -/
def wTri : GeoTriangle :=
  ⟨⟨0 + 0 / earthRadius * RAD2DEG / Real.cos (0 * DEG2RAD),
      0 + -0 / earthRadius * RAD2DEG, 0 + 0⟩,
   ⟨0 + 100000 / earthRadius * RAD2DEG / Real.cos (0 * DEG2RAD),
      0 + -0 / earthRadius * RAD2DEG, 0 + 0⟩,
   ⟨0 + 0 / earthRadius * RAD2DEG / Real.cos (0 * DEG2RAD),
      0 + -(-100000) / earthRadius * RAD2DEG, 0 + 0⟩⟩

end

theorem wExtract : extractGeoTriangles wGeom wOrigin = .ok [wTri] := rfl

theorem roundedQVertex_zero :
    roundedQVertex 8 ⟨0 + 0 / earthRadius * RAD2DEG / Real.cos (0 * DEG2RAD),
      0 + -0 / earthRadius * RAD2DEG, 0 + 0⟩ = ⟨0, 0, 0⟩ := by
  show (⟨fixedVal 8 (0 + 0 / earthRadius * RAD2DEG / Real.cos (0 * DEG2RAD)),
    fixedVal 8 (0 + -0 / earthRadius * RAD2DEG), fixedVal 8 (0 + 0)⟩ : QVertex) = ⟨0, 0, 0⟩
  rw [show (0 : ℝ) + 0 / earthRadius * RAD2DEG / Real.cos (0 * DEG2RAD) = 0 by norm_num,
    show (0 : ℝ) + -0 / earthRadius * RAD2DEG = 0 by norm_num,
    show (0 : ℝ) + 0 = 0 by norm_num]
  simp only [fixedVal_zero]

theorem rounded_area_formula (a b : ℚ) :
    (((⟨a, 0, 0⟩ : QVertex).toV3.sub ((⟨0, 0, 0⟩ : QVertex).toV3)).cross
      ((⟨0, b, 0⟩ : QVertex).toV3.sub ((⟨0, 0, 0⟩ : QVertex).toV3))).lengthSq =
      ((a : ℝ) * (b : ℝ)) ^ 2 := by
  simp [QVertex.toV3, V3.sub, V3.cross, V3.lengthSq, V3.dot]
  ring

theorem wL_bounds :
    0.89 < (0 : ℝ) + 100000 / earthRadius * RAD2DEG / Real.cos (0 * DEG2RAD) ∧
      (0 : ℝ) + 100000 / earthRadius * RAD2DEG / Real.cos (0 * DEG2RAD) < 0.91 := by
  have hpi := Real.pi_pos
  have hval : (0 : ℝ) + 100000 / earthRadius * RAD2DEG / Real.cos (0 * DEG2RAD) =
      18000000 / (6371008.8 * Real.pi) := by
    rw [zero_mul, Real.cos_zero, div_one, zero_add]
    unfold RAD2DEG earthRadius
    field_simp
    ring
  rw [hval]
  constructor
  · rw [lt_div_iff (by positivity)]
    nlinarith [Real.pi_lt_d2]
  · rw [div_lt_iff (by positivity)]
    nlinarith [Real.pi_gt_d2]

theorem wL2_bounds :
    0.89 < (0 : ℝ) + -(-100000) / earthRadius * RAD2DEG ∧
      (0 : ℝ) + -(-100000) / earthRadius * RAD2DEG < 0.91 := by
  have hpi := Real.pi_pos
  have hval : (0 : ℝ) + -(-100000) / earthRadius * RAD2DEG =
      18000000 / (6371008.8 * Real.pi) := by
    unfold RAD2DEG earthRadius
    field_simp
    ring
  rw [hval]
  constructor
  · rw [lt_div_iff (by positivity)]
    nlinarith [Real.pi_lt_d2]
  · rw [div_lt_iff (by positivity)]
    nlinarith [Real.pi_gt_d2]

theorem wAreaBound : (MIN_AREA_TOLERANCE : ℝ) <
    (((roundedQVertex 8 wTri.v1).toV3.sub (roundedQVertex 8 wTri.v0).toV3).cross
      ((roundedQVertex 8 wTri.v2).toV3.sub (roundedQVertex 8 wTri.v0).toV3)).lengthSq := by
  have h0 : roundedQVertex 8 wTri.v0 = ⟨0, 0, 0⟩ := roundedQVertex_zero
  have h1 : roundedQVertex 8 wTri.v1 =
      ⟨fixedVal 8 ((0 : ℝ) + 100000 / earthRadius * RAD2DEG / Real.cos (0 * DEG2RAD)),
        0, 0⟩ := by
    show (⟨fixedVal 8 ((0 : ℝ) + 100000 / earthRadius * RAD2DEG / Real.cos (0 * DEG2RAD)),
      fixedVal 8 ((0 : ℝ) + -0 / earthRadius * RAD2DEG),
      fixedVal 8 ((0 : ℝ) + 0)⟩ : QVertex) = _
    rw [show (0 : ℝ) + -0 / earthRadius * RAD2DEG = 0 by norm_num,
      show (0 : ℝ) + 0 = 0 by norm_num]
    simp only [fixedVal_zero]
  have h2 : roundedQVertex 8 wTri.v2 =
      ⟨0, fixedVal 8 ((0 : ℝ) + -(-100000) / earthRadius * RAD2DEG), 0⟩ := by
    show (⟨fixedVal 8 ((0 : ℝ) + 0 / earthRadius * RAD2DEG / Real.cos (0 * DEG2RAD)),
      fixedVal 8 ((0 : ℝ) + -(-100000) / earthRadius * RAD2DEG),
      fixedVal 8 ((0 : ℝ) + 0)⟩ : QVertex) = _
    rw [show (0 : ℝ) + 0 / earthRadius * RAD2DEG / Real.cos (0 * DEG2RAD) = 0 by norm_num,
      show (0 : ℝ) + 0 = 0 by norm_num]
    simp only [fixedVal_zero]
  rw [h0, h1, h2, rounded_area_formula]
  have hc1 := fixedVal_close 8 ((0 : ℝ) + 100000 / earthRadius * RAD2DEG /
    Real.cos (0 * DEG2RAD))
  have hc2 := fixedVal_close 8 ((0 : ℝ) + -(-100000) / earthRadius * RAD2DEG)
  rw [abs_le] at hc1 hc2
  obtain ⟨hlo1, hhi1⟩ := wL_bounds
  obtain ⟨hlo2, hhi2⟩ := wL2_bounds
  have hb1 : (0.88 : ℝ) < ((fixedVal 8 ((0 : ℝ) + 100000 / earthRadius * RAD2DEG /
      Real.cos (0 * DEG2RAD)) : ℚ) : ℝ) := by
    have := hc1.2
    norm_num at this ⊢
    linarith
  have hb2 : (0.88 : ℝ) < ((fixedVal 8 ((0 : ℝ) + -(-100000) / earthRadius * RAD2DEG) :
      ℚ) : ℝ) := by
    have := hc2.2
    norm_num at this ⊢
    linarith
  have hprod : (0.77 : ℝ) <
      ((fixedVal 8 ((0 : ℝ) + 100000 / earthRadius * RAD2DEG /
        Real.cos (0 * DEG2RAD)) : ℚ) : ℝ) *
      ((fixedVal 8 ((0 : ℝ) + -(-100000) / earthRadius * RAD2DEG) : ℚ) : ℝ) := by
    nlinarith
  rw [show (MIN_AREA_TOLERANCE : ℝ) = 1 / 10 ^ 12 from rfl]
  nlinarith

/-- Witness for `wkt_roundtrip`: the 100 km right triangle `wGeom` at origin `(0, 0)`;
its single extracted triangle stays non-degenerate after rounding and the encoded text
decodes back to the rounded triangle. -/
theorem wkt_roundtrip_witness :
    (extractGeoTriangles wGeom wOrigin = .ok [wTri] ∧
      ([wTri] : List GeoTriangle) ≠ [] ∧
      (∀ t ∈ ([wTri] : List GeoTriangle), (MIN_AREA_TOLERANCE : ℝ) <
        (((roundedQVertex 8 t.v1).toV3.sub (roundedQVertex 8 t.v0).toV3).cross
          ((roundedQVertex 8 t.v2).toV3.sub (roundedQVertex 8 t.v0).toV3)).lengthSq)) ∧
    (bufferGeometryToWKT wGeom wOrigin 8 =
        .ok (wktHeader ++ encodeBody 8 [wTri] ++ [')']) ∧
      parsePolyhedralSurfaceWKT (wktHeader ++ encodeBody 8 [wTri] ++ [')']) =
        .ok ([wTri].map (decodedTriangle 8)) ∧
      ([wTri].map (decodedTriangle 8)).length = ([wTri] : List GeoTriangle).length ∧
      ∀ t ∈ ([wTri] : List GeoTriangle), geoVertexClose t.v0 (decodedTriangle 8 t).v0 ∧
        geoVertexClose t.v1 (decodedTriangle 8 t).v1 ∧
        geoVertexClose t.v2 (decodedTriangle 8 t).v2) :=
  ⟨⟨wExtract, by simp, fun t ht => by rw [List.mem_singleton.1 ht]; exact wAreaBound⟩,
    wkt_roundtrip wGeom wOrigin [wTri] wExtract (by simp)
      (fun t ht => by rw [List.mem_singleton.1 ht]; exact wAreaBound)⟩

/-! ### Counterexample data for claim C1 -/

noncomputable section
local instance (priority := low) propDecF (p : Prop) : Decidable p :=
  Classical.propDecidable p

/-- Counterexample geometry: a watertight 1 cm tetrahedron (4 faces); its flat base
face `A B C` is listed first. -/
def cGeom : BufferGeometry ℝ :=
  ⟨some ⟨[0, 0, 0, 1/100, 0, 0, 0, 0, -(1/100),
          0, 0, 0, 1/100, 0, 0, 0, 1/100, 0,
          0, 0, 0, 0, 0, -(1/100), 0, 1/100, 0,
          1/100, 0, 0, 0, 0, -(1/100), 0, 1/100, 0], 3⟩, none⟩

/-- The geo vertices of the tetrahedron at origin `(0, 0)`. -/
def cVA : GeoVertex :=
  ⟨0 + 0 / earthRadius * RAD2DEG / Real.cos (0 * DEG2RAD),
    0 + -0 / earthRadius * RAD2DEG, 0 + 0⟩

def cVB : GeoVertex :=
  ⟨0 + (1/100) / earthRadius * RAD2DEG / Real.cos (0 * DEG2RAD),
    0 + -0 / earthRadius * RAD2DEG, 0 + 0⟩

def cVC : GeoVertex :=
  ⟨0 + 0 / earthRadius * RAD2DEG / Real.cos (0 * DEG2RAD),
    0 + -(-(1/100)) / earthRadius * RAD2DEG, 0 + 0⟩

def cVD : GeoVertex :=
  ⟨0 + 0 / earthRadius * RAD2DEG / Real.cos (0 * DEG2RAD),
    0 + -0 / earthRadius * RAD2DEG, 0 + 1/100⟩

def cT1 : GeoTriangle := ⟨cVA, cVB, cVC⟩

def cT2 : GeoTriangle := ⟨cVA, cVB, cVD⟩

def cT3 : GeoTriangle := ⟨cVA, cVC, cVD⟩

def cT4 : GeoTriangle := ⟨cVB, cVC, cVD⟩

end

/-- The same tetrahedron positions as exact rationals, for the watertightness check. -/
def cGeomQ : BufferGeometry ℚ :=
  ⟨some ⟨[0, 0, 0, 1/100, 0, 0, 0, 0, -(1/100),
          0, 0, 0, 1/100, 0, 0, 0, 1/100, 0,
          0, 0, 0, 0, 0, -(1/100), 0, 1/100, 0,
          1/100, 0, 0, 0, 0, -(1/100), 0, 1/100, 0], 3⟩, none⟩

theorem cExtract : extractGeoTriangles cGeom wOrigin = .ok [cT1, cT2, cT3, cT4] := rfl

theorem cL_bounds :
    0 ≤ (0 : ℝ) + (1/100) / earthRadius * RAD2DEG / Real.cos (0 * DEG2RAD) ∧
      (0 : ℝ) + (1/100) / earthRadius * RAD2DEG / Real.cos (0 * DEG2RAD) < 1 / 10 ^ 7 := by
  have hpi := Real.pi_pos
  have hne : Real.pi ≠ 0 := Real.pi_ne_zero
  have hval : (0 : ℝ) + (1/100) / earthRadius * RAD2DEG / Real.cos (0 * DEG2RAD) =
      180 / (6371008.8 * 100 * Real.pi) := by
    rw [zero_mul, Real.cos_zero, div_one, zero_add]
    unfold RAD2DEG earthRadius
    rw [div_mul_div_comm, div_eq_div_iff (by positivity) (by positivity)]
    ring
  rw [hval]
  constructor
  · positivity
  · rw [div_lt_iff (by positivity)]
    nlinarith [Real.pi_gt_d2]

theorem cL2_bounds :
    0 ≤ (0 : ℝ) + -(-(1/100)) / earthRadius * RAD2DEG ∧
      (0 : ℝ) + -(-(1/100)) / earthRadius * RAD2DEG < 1 / 10 ^ 7 := by
  have hpi := Real.pi_pos
  have hne : Real.pi ≠ 0 := Real.pi_ne_zero
  have hval : (0 : ℝ) + -(-(1/100)) / earthRadius * RAD2DEG =
      180 / (6371008.8 * 100 * Real.pi) := by
    rw [neg_neg, zero_add]
    unfold RAD2DEG earthRadius
    rw [div_mul_div_comm, div_eq_div_iff (by positivity) (by positivity)]
    ring
  rw [hval]
  constructor
  · positivity
  · rw [div_lt_iff (by positivity)]
    nlinarith [Real.pi_gt_d2]

/-- The rounded base face of the 1 cm tetrahedron is degenerate: its legs round to at
most `1.5e-8` degrees, so the squared cross-product area is far below `1e-12`. -/
theorem cT1_degenerate :
    processRing (ringContent 8 cT1) =
      .error "Cannot triangulate polygon face: triangle is degenerate." := by
  rw [processRing_ringContent 8 (by norm_num) cT1]
  have h0 : roundedQVertex 8 cT1.v0 = ⟨0, 0, 0⟩ := roundedQVertex_zero
  have h1 : roundedQVertex 8 cT1.v1 =
      ⟨fixedVal 8 ((0 : ℝ) + (1/100) / earthRadius * RAD2DEG / Real.cos (0 * DEG2RAD)),
        0, 0⟩ := by
    show (⟨fixedVal 8 ((0 : ℝ) + (1/100) / earthRadius * RAD2DEG /
        Real.cos (0 * DEG2RAD)),
      fixedVal 8 ((0 : ℝ) + -0 / earthRadius * RAD2DEG),
      fixedVal 8 ((0 : ℝ) + 0)⟩ : QVertex) = _
    rw [show (0 : ℝ) + -0 / earthRadius * RAD2DEG = 0 by norm_num,
      show (0 : ℝ) + 0 = 0 by norm_num]
    simp only [fixedVal_zero]
  have h2 : roundedQVertex 8 cT1.v2 =
      ⟨0, fixedVal 8 ((0 : ℝ) + -(-(1/100)) / earthRadius * RAD2DEG), 0⟩ := by
    show (⟨fixedVal 8 ((0 : ℝ) + 0 / earthRadius * RAD2DEG / Real.cos (0 * DEG2RAD)),
      fixedVal 8 ((0 : ℝ) + -(-(1/100)) / earthRadius * RAD2DEG),
      fixedVal 8 ((0 : ℝ) + 0)⟩ : QVertex) = _
    rw [show (0 : ℝ) + 0 / earthRadius * RAD2DEG / Real.cos (0 * DEG2RAD) = 0 by norm_num,
      show (0 : ℝ) + 0 = 0 by norm_num]
    simp only [fixedVal_zero]
  rw [h0, h1, h2]
  refine triangulateFace_three_error _ _ _ ?_
  rw [rounded_area_formula]
  have hc1 := fixedVal_close 8 ((0 : ℝ) + (1/100) / earthRadius * RAD2DEG /
    Real.cos (0 * DEG2RAD))
  have hc2 := fixedVal_close 8 ((0 : ℝ) + -(-(1/100)) / earthRadius * RAD2DEG)
  rw [abs_le] at hc1 hc2
  obtain ⟨hlo1, hhi1⟩ := cL_bounds
  obtain ⟨hlo2, hhi2⟩ := cL2_bounds
  have hn1 : (0 : ℝ) ≤ ((fixedVal 8 ((0 : ℝ) + (1/100) / earthRadius * RAD2DEG /
      Real.cos (0 * DEG2RAD)) : ℚ) : ℝ) := by
    rw [Rat.cast_nonneg]
    exact fixedVal_nonneg 8 _ hlo1
  have hn2 : (0 : ℝ) ≤ ((fixedVal 8 ((0 : ℝ) + -(-(1/100)) / earthRadius * RAD2DEG) :
      ℚ) : ℝ) := by
    rw [Rat.cast_nonneg]
    exact fixedVal_nonneg 8 _ hlo2
  have hu1 : ((fixedVal 8 ((0 : ℝ) + (1/100) / earthRadius * RAD2DEG /
      Real.cos (0 * DEG2RAD)) : ℚ) : ℝ) ≤ 2 / 10 ^ 7 := by
    linarith [hc1.1, hhi1]
  have hu2 : ((fixedVal 8 ((0 : ℝ) + -(-(1/100)) / earthRadius * RAD2DEG) : ℚ) : ℝ) ≤
      2 / 10 ^ 7 := by
    linarith [hc2.1, hhi2]
  rw [show (MIN_AREA_TOLERANCE : ℝ) = 1 / 10 ^ 12 from rfl]
  have hprod : ((fixedVal 8 ((0 : ℝ) + (1/100) / earthRadius * RAD2DEG /
      Real.cos (0 * DEG2RAD)) : ℚ) : ℝ) *
      ((fixedVal 8 ((0 : ℝ) + -(-(1/100)) / earthRadius * RAD2DEG) : ℚ) : ℝ) ≤
      4 / 10 ^ 14 := by
    nlinarith
  have hprodnn : (0 : ℝ) ≤ ((fixedVal 8 ((0 : ℝ) + (1/100) / earthRadius * RAD2DEG /
      Real.cos (0 * DEG2RAD)) : ℚ) : ℝ) *
      ((fixedVal 8 ((0 : ℝ) + -(-(1/100)) / earthRadius * RAD2DEG) : ℚ) : ℝ) :=
    mul_nonneg hn1 hn2
  nlinarith

/-- Claim C1 counterexample: the 1 cm tetrahedron `cGeom` is a watertight triangle mesh
(its rational copy validates with `isValid = true`), its extraction and encoding at
precision 8 succeed, yet decoding the produced WKT text throws (the base face's
coordinates round to ≈`1e-7` degrees, making its area fall below the parser's `1e-12`
degeneracy tolerance), so the decode does *not* yield the same number of triangles as
the extraction — refuting the unconditional round-trip claim. -/
theorem wkt_roundtrip_counterexample :
    (validatePolyhedronGeometry cGeomQ (1 / 10 ^ 6)).isValid = true ∧
    extractGeoTriangles cGeom wOrigin = .ok [cT1, cT2, cT3, cT4] ∧
    bufferGeometryToWKT cGeom wOrigin 8 =
      .ok (wktHeader ++ encodeBody 8 [cT1, cT2, cT3, cT4] ++ [')']) ∧
    (parsePolyhedralSurfaceWKT
      (wktHeader ++ encodeBody 8 [cT1, cT2, cT3, cT4] ++ [')'])).isOk = false := by
  refine ⟨by with_unfolding_all decide, cExtract,
    bufferGeometryToWKT_ok _ _ _ _ cExtract (by simp), ?_⟩
  rw [parse_encode 8 _ (by simp), List.map_cons,
    ringFold_error_head _ _ _ _ cT1_degenerate]
  rfl

/-! ### Claim C3: the conversion formula and the mercator memo -/

theorem cacheLookup_insert_self (c : MercCache) (k : ℤ) (v : ℝ) :
    cacheLookup (cacheInsert c k v) k = some v := by
  unfold cacheInsert cacheLookup
  rw [if_pos rfl]

theorem cacheLookup_insert_ne (c : MercCache) (k k' : ℤ) (v : ℝ) (h : k ≠ k') :
    cacheLookup (cacheInsert c k v) k' = cacheLookup c k' := by
  show (if k = k' then some v else cacheLookup c k') = cacheLookup c k'
  rw [if_neg h]

theorem getMercatorScale_hit (c : MercCache) (lat : ℝ) (v : ℝ)
    (h : cacheLookup c (round (lat * 1000)) = some v) :
    getMercatorScale c lat = (v, c) := by
  unfold getMercatorScale
  simp only [h]

theorem getMercatorScale_miss (c : MercCache) (lat : ℝ)
    (h : cacheLookup c (round (lat * 1000)) = none) :
    getMercatorScale c lat = (1 / Real.cos (lat * DEG2RAD),
      cacheInsert c (round (lat * 1000)) (1 / Real.cos (lat * DEG2RAD))) := by
  unfold getMercatorScale
  simp only [h]

/-- Cached entries survive the averaging fold: the fold only ever inserts at keys it
found empty. -/
theorem mercFold_preserves :
    ∀ (l : List ℝ) (c : MercCache) (total : ℝ) (k : ℤ) (v : ℝ),
      cacheLookup c k = some v → cacheLookup (mercFold c total l).2 k = some v := by
  intro l
  induction l with
  | nil => intro c total k v h; exact h
  | cons a t ih =>
      intro c total k v h
      show cacheLookup
        (mercFold (getMercatorScale c a).2 (total + (getMercatorScale c a).1) t).2 k =
        some v
      cases hl : cacheLookup c (round (a * 1000)) with
      | some w =>
          rw [getMercatorScale_hit c a w hl]
          exact ih c _ k v h
      | none =>
          rw [getMercatorScale_miss c a hl]
          refine ih _ _ k v ?_
          rw [cacheLookup_insert_ne _ _ _ _ ?_]
          · exact h
          · intro he
            rw [he, h] at hl
            cases hl

/-- The first sample latitude (the origin latitude, up to arithmetic) is in the sample
list. -/
theorem sampleLats_head_mem (o p : ℝ) (steps : ℕ) :
    o + (p - o) / (steps : ℝ) * ((0 : ℕ) : ℝ) ∈ sampleLats o p steps := by
  unfold sampleLats
  exact List.mem_map_of_mem (fun i : ℕ => o + (p - o) / (steps : ℝ) * (i : ℝ))
    (List.mem_range.2 (Nat.succ_pos steps))

/-- Over a fresh-enough cache with pairwise-distinct rounded keys, the averaging fold
sums the scales of the *exact* sample latitudes, and afterwards every sample latitude's
bucket holds the scale of that exact latitude. -/
theorem mercFold_distinct :
    ∀ (l : List ℝ) (c : MercCache) (total : ℝ),
      (∀ lat ∈ l, cacheLookup c (round (lat * 1000)) = none) →
      l.Pairwise (fun a b => round (a * 1000) ≠ round (b * 1000)) →
      (mercFold c total l).1 =
        total + (l.map fun lat => 1 / Real.cos (lat * DEG2RAD)).sum ∧
      ∀ lat' ∈ l, cacheLookup (mercFold c total l).2 (round (lat' * 1000)) =
        some (1 / Real.cos (lat' * DEG2RAD)) := by
  intro l
  induction l with
  | nil =>
      intro c total h1 h2
      exact ⟨by simp [mercFold], by simp⟩
  | cons a t ih =>
      intro c total h1 h2
      rw [List.pairwise_cons] at h2
      obtain ⟨ha, ht⟩ := h2
      have hmiss := h1 a (by simp)
      have hstep : mercFold c total (a :: t) =
          mercFold (cacheInsert c (round (a * 1000)) (1 / Real.cos (a * DEG2RAD)))
            (total + 1 / Real.cos (a * DEG2RAD)) t := by
        show mercFold (getMercatorScale c a).2 (total + (getMercatorScale c a).1) t = _
        rw [getMercatorScale_miss c a hmiss]
      have h1' : ∀ lat ∈ t, cacheLookup
          (cacheInsert c (round (a * 1000)) (1 / Real.cos (a * DEG2RAD)))
          (round (lat * 1000)) = none := by
        intro lat hlat
        rw [cacheLookup_insert_ne _ _ _ _ (ha lat hlat)]
        exact h1 lat (by simp [hlat])
      obtain ⟨hsum, hcache⟩ := ih _ _ h1' ht
      constructor
      · rw [hstep, hsum, List.map_cons, List.sum_cons]
        ring
      · intro lat' hl
        cases hl with
        | head =>
            rw [hstep]
            exact mercFold_preserves t _ _ _ _ (cacheLookup_insert_self c _ _)
        | tail _ hl =>
            rw [hstep]
            exact hcache lat' hl

/-- A second pass over already-cached sample latitudes returns the same total and
leaves the cache unchanged (the stored values are the scales of the exact latitudes). -/
theorem mercFold_cached :
    ∀ (l : List ℝ) (c : MercCache) (total : ℝ),
      (∀ lat ∈ l, cacheLookup c (round (lat * 1000)) =
        some (1 / Real.cos (lat * DEG2RAD))) →
      mercFold c total l =
        (total + (l.map fun lat => 1 / Real.cos (lat * DEG2RAD)).sum, c) := by
  intro l
  induction l with
  | nil =>
      intro c total h
      simp [mercFold]
  | cons a t ih =>
      intro c total h
      show mercFold (getMercatorScale c a).2 (total + (getMercatorScale c a).1) t = _
      rw [getMercatorScale_hit c a _ (h a (by simp)),
        ih c _ (fun x hx => h x (by simp [hx]))]
      rw [List.map_cons, List.sum_cons]
      rw [Prod.mk.injEq]
      exact ⟨by ring, rfl⟩

theorem round_lt_round_of_gap {a b : ℝ} (h : a + 1 ≤ b) : round a < round b := by
  rw [round_eq, round_eq]
  have h1 : ⌊a + 1 / 2 + 1⌋ = ⌊a + 1 / 2⌋ + 1 := Int.floor_add_one _
  have h2 : ⌊a + 1 / 2 + 1⌋ ≤ ⌊b + 1 / 2⌋ := Int.floor_le_floor (by linarith)
  omega

/-- Sample latitudes whose spacing exceeds one key unit land in pairwise-distinct memo
buckets. -/
theorem sampleLats_pairwise_of_gap (o p : ℝ) (steps : ℕ)
    (hgap : 1 ≤ (p - o) / (steps : ℝ) * 1000) :
    (sampleLats o p steps).Pairwise
      (fun a b => round (a * 1000) ≠ round (b * 1000)) := by
  unfold sampleLats
  rw [List.pairwise_map]
  refine (List.pairwise_lt_range (steps + 1)).imp ?_
  intro i j hij
  have hij' : (i : ℝ) + 1 ≤ (j : ℝ) := by exact_mod_cast hij
  have hS : (0 : ℝ) ≤ (p - o) / (steps : ℝ) * 1000 := by linarith
  refine ne_of_lt (round_lt_round_of_gap ?_)
  have hkey : (p - o) / (steps : ℝ) * 1000 ≤
      (p - o) / (steps : ℝ) * 1000 * ((j : ℝ) - (i : ℝ)) := by
    nlinarith
  nlinarith

/-- Full evaluation of `coordsToVector3` when every sample bucket is initially absent
and the buckets are pairwise distinct: the output formula and the final cache. -/
theorem coordsToVector3_eval (cache : MercCache) (point origin : Coords)
    (hdist : (sampleLats origin.latitude point.latitude
        ((⌈|point.latitude - origin.latitude|⌉).toNat * 100 + 1)).Pairwise
      (fun a b => round (a * 1000) ≠ round (b * 1000)))
    (hnone : ∀ lat ∈ sampleLats origin.latitude point.latitude
        ((⌈|point.latitude - origin.latitude|⌉).toNat * 100 + 1),
      cacheLookup cache (round (lat * 1000)) = none) :
    coordsToVector3 cache point origin =
      (⟨(point.longitude - origin.longitude) * DEG2RAD * earthRadius *
          Real.cos (origin.latitude * DEG2RAD),
        point.altitudeOr0 - origin.altitudeOr0,
        -((point.latitude - origin.latitude) * DEG2RAD) * earthRadius /
            (1 / Real.cos (origin.latitude * DEG2RAD)) *
          (((sampleLats origin.latitude point.latitude
              ((⌈|point.latitude - origin.latitude|⌉).toNat * 100 + 1)).map
                fun lat => 1 / Real.cos (lat * DEG2RAD)).sum /
            ((((⌈|point.latitude - origin.latitude|⌉).toNat * 100 + 1 : ℕ) : ℝ) + 1))⟩,
       (mercFold cache 0 (sampleLats origin.latitude point.latitude
         ((⌈|point.latitude - origin.latitude|⌉).toNat * 100 + 1))).2) := by
  obtain ⟨hsum, hcache⟩ := mercFold_distinct _ cache 0 hnone hdist
  have horigin := hcache _ (sampleLats_head_mem origin.latitude point.latitude
    ((⌈|point.latitude - origin.latitude|⌉).toNat * 100 + 1))
  rw [show origin.latitude + (point.latitude - origin.latitude) /
      (((⌈|point.latitude - origin.latitude|⌉).toNat * 100 + 1 : ℕ) : ℝ) * ((0 : ℕ) : ℝ) =
      origin.latitude by push_cast; ring] at horigin
  unfold coordsToVector3 averageMercatorScale
  simp only []
  rw [getMercatorScale_hit _ _ _ horigin]
  rw [hsum, zero_add]

/-- Evaluation of `coordsToVector3` when every sample bucket is already cached with the
scale of its exact latitude: same formula, cache unchanged. -/
theorem coordsToVector3_eval_cached (cache : MercCache) (point origin : Coords)
    (hsome : ∀ lat ∈ sampleLats origin.latitude point.latitude
        ((⌈|point.latitude - origin.latitude|⌉).toNat * 100 + 1),
      cacheLookup cache (round (lat * 1000)) = some (1 / Real.cos (lat * DEG2RAD))) :
    coordsToVector3 cache point origin =
      (⟨(point.longitude - origin.longitude) * DEG2RAD * earthRadius *
          Real.cos (origin.latitude * DEG2RAD),
        point.altitudeOr0 - origin.altitudeOr0,
        -((point.latitude - origin.latitude) * DEG2RAD) * earthRadius /
            (1 / Real.cos (origin.latitude * DEG2RAD)) *
          (((sampleLats origin.latitude point.latitude
              ((⌈|point.latitude - origin.latitude|⌉).toNat * 100 + 1)).map
                fun lat => 1 / Real.cos (lat * DEG2RAD)).sum /
            ((((⌈|point.latitude - origin.latitude|⌉).toNat * 100 + 1 : ℕ) : ℝ) + 1))⟩,
       cache) := by
  have hfold := mercFold_cached _ cache 0 hsome
  have horigin := hsome _ (sampleLats_head_mem origin.latitude point.latitude
    ((⌈|point.latitude - origin.latitude|⌉).toNat * 100 + 1))
  rw [show origin.latitude + (point.latitude - origin.latitude) /
      (((⌈|point.latitude - origin.latitude|⌉).toNat * 100 + 1 : ℕ) : ℝ) * ((0 : ℕ) : ℝ) =
      origin.latitude by push_cast; ring] at horigin
  unfold coordsToVector3 averageMercatorScale
  simp only []
  rw [hfold]
  simp only []
  rw [getMercatorScale_hit _ _ _ horigin, zero_add]

/-- Claim C3 (amended): for every point and origin whose sample latitudes fall into
pairwise-distinct memo buckets (latitude rounded to 3 decimals), `coordsToVector3` from
a fresh cache returns exactly
`x = Δlongitude_rad · R · cos(lat_origin_rad)`, `y = Δaltitude`, and
`z = −Δlatitude_rad · R / (1/cos(lat_origin_rad)) · avgScale` where `avgScale` averages
`1/cos` of the **exact** sample latitudes over `⌈|Δlatitude|⌉ · 100 + 1` integration
steps — the step count uses the *ceiling* of `|Δlatitude|` (not `|Δlatitude|` itself),
and the memoized value is `1/cos` of the exact latitude stored under the rounded key
(not `1/cos` of the rounded latitude), contrary to the claim's wording (see the
counterexample). -/
theorem coordsToVector3_characterization (point origin : Coords)
    (hdist : (sampleLats origin.latitude point.latitude
        ((⌈|point.latitude - origin.latitude|⌉).toNat * 100 + 1)).Pairwise
      (fun a b => round (a * 1000) ≠ round (b * 1000))) :
    (coordsToVector3 MercCache.fresh point origin).1 =
      ⟨(point.longitude - origin.longitude) * DEG2RAD * earthRadius *
          Real.cos (origin.latitude * DEG2RAD),
        point.altitudeOr0 - origin.altitudeOr0,
        -((point.latitude - origin.latitude) * DEG2RAD) * earthRadius /
            (1 / Real.cos (origin.latitude * DEG2RAD)) *
          (((sampleLats origin.latitude point.latitude
              ((⌈|point.latitude - origin.latitude|⌉).toNat * 100 + 1)).map
                fun lat => 1 / Real.cos (lat * DEG2RAD)).sum /
            ((((⌈|point.latitude - origin.latitude|⌉).toNat * 100 + 1 : ℕ) : ℝ) + 1))⟩ := by
  rw [coordsToVector3_eval MercCache.fresh point origin hdist (fun lat _ => rfl)]

/-- The 102 sample latitudes between latitudes 0 and 1 fall into pairwise-distinct memo
buckets (consecutive keys differ by ≈10). -/
theorem wC3_pairwise :
    (sampleLats (0 : ℝ) 1 ((⌈|(1 : ℝ) - 0|⌉).toNat * 100 + 1)).Pairwise
      (fun a b => round (a * 1000) ≠ round (b * 1000)) := by
  have hceil : (⌈|(1 : ℝ) - 0|⌉).toNat * 100 + 1 = 101 := by
    rw [show |(1 : ℝ) - 0| = 1 by rw [sub_zero]; exact abs_of_pos (by norm_num),
      Int.ceil_one]
    norm_num
  rw [hceil]
  refine sampleLats_pairwise_of_gap 0 1 101 ?_
  norm_num

/-- Witness for `coordsToVector3_characterization`: origin latitude 0, point latitude 1
(101 steps, all 102 buckets distinct). -/
theorem coordsToVector3_characterization_witness :
    ((sampleLats (0 : ℝ) 1 ((⌈|(1 : ℝ) - 0|⌉).toNat * 100 + 1)).Pairwise
      (fun a b => round (a * 1000) ≠ round (b * 1000))) ∧
    (coordsToVector3 MercCache.fresh ⟨0, 1, none⟩ ⟨0, 0, none⟩).1 =
      ⟨((0 : ℝ) - 0) * DEG2RAD * earthRadius * Real.cos ((0 : ℝ) * DEG2RAD),
        (Coords.altitudeOr0 ⟨0, 1, none⟩) - (Coords.altitudeOr0 ⟨0, 0, none⟩),
        -(((1 : ℝ) - 0) * DEG2RAD) * earthRadius /
            (1 / Real.cos ((0 : ℝ) * DEG2RAD)) *
          (((sampleLats (0 : ℝ) 1 ((⌈|(1 : ℝ) - 0|⌉).toNat * 100 + 1)).map
              fun lat => 1 / Real.cos (lat * DEG2RAD)).sum /
            ((((⌈|(1 : ℝ) - 0|⌉).toNat * 100 + 1 : ℕ) : ℝ) + 1))⟩ :=
  ⟨wC3_pairwise, coordsToVector3_characterization ⟨0, 1, none⟩ ⟨0, 0, none⟩ wC3_pairwise⟩

noncomputable section

/-- The step count as claim C3's words state it: `|Δlatitude| × 100 + 1`. -/
def claimStepsC3 (latDiff : ℝ) : ℝ := |latDiff| * 100 + 1

/-- The memoized scale value as claim C3's parenthetical states it: `1/cos` of the
latitude rounded to 3 decimal degrees. -/
def claimMercValueC3 (lat : ℝ) : ℝ :=
  1 / Real.cos (((round (lat * 1000) : ℤ) : ℝ) / 1000 * DEG2RAD)

end

/-- Claim C3 counterexample: at `Δlatitude = 1/2` the source's step count
`⌈|Δlat|⌉ · 100 + 1 = 101` differs from the claimed `|Δlat| · 100 + 1 = 51`; and at
latitude `1/2000` the scale the source computes and memoizes is `1/cos` of the *exact*
latitude, which differs from the claimed `1/cos` of the *rounded* latitude `1/1000`. -/
theorem coordsToVector3_claim_counterexample :
    ((((⌈|(1 / 2 : ℝ) - 0|⌉).toNat * 100 + 1 : ℕ) : ℝ) ≠ claimStepsC3 ((1 / 2 : ℝ) - 0)) ∧
    (getMercatorScale MercCache.fresh (1 / 2000)).1 =
      1 / Real.cos ((1 / 2000 : ℝ) * DEG2RAD) ∧
    (getMercatorScale MercCache.fresh (1 / 2000)).1 ≠ claimMercValueC3 (1 / 2000) := by
  have hpi := Real.pi_pos
  have habs : |(1 / 2 : ℝ) - 0| = 1 / 2 := by
    rw [sub_zero]
    exact abs_of_pos (by norm_num)
  have hceil : ⌈(1 / 2 : ℝ)⌉ = 1 := by
    rw [Int.ceil_eq_iff]
    norm_num
  have hround : round ((1 / 2000 : ℝ) * 1000) = 1 := by
    rw [show (1 / 2000 : ℝ) * 1000 = 1 / 2 by norm_num, round_eq,
      show (1 : ℝ) / 2 + 1 / 2 = 1 by norm_num, Int.floor_one]
  have hval : (getMercatorScale MercCache.fresh (1 / 2000)).1 =
      1 / Real.cos ((1 / 2000 : ℝ) * DEG2RAD) := by
    rw [getMercatorScale_miss MercCache.fresh (1 / 2000) rfl]
  refine ⟨?_, hval, ?_⟩
  · rw [claimStepsC3, habs, hceil]
    norm_num
  · rw [hval, claimMercValueC3, hround]
    have hcos1 : Real.cos ((1 / 1000 : ℝ) * DEG2RAD) <
        Real.cos ((1 / 2000 : ℝ) * DEG2RAD) := by
      refine Real.cos_lt_cos_of_nonneg_of_le_pi ?_ ?_ ?_
      · unfold DEG2RAD
        positivity
      · unfold DEG2RAD
        nlinarith
      · unfold DEG2RAD
        nlinarith
    have hpos : 0 < Real.cos ((1 / 1000 : ℝ) * DEG2RAD) := by
      refine Real.cos_pos_of_mem_Ioo ⟨?_, ?_⟩
      · unfold DEG2RAD
        nlinarith
      · unfold DEG2RAD
        nlinarith
    have hlt : 1 / Real.cos ((1 / 2000 : ℝ) * DEG2RAD) <
        1 / Real.cos ((1 / 1000 : ℝ) * DEG2RAD) :=
      one_div_lt_one_div_of_lt hpos hcos1
    intro he
    rw [show ((1 : ℤ) : ℝ) / 1000 = (1 / 1000 : ℝ) by norm_num] at he
    rw [he] at hlt
    exact lt_irrefl _ hlt

/-! ### Claim C2: containment parity, counterexample data -/

noncomputable section
local instance (priority := low) propDecG (p : Prop) : Decidable p :=
  Classical.propDecidable p

/-- Counterexample geometry for claim C2: one triangle in the local plane `z = -100000`
(about 0.9° of latitude away from the origin). -/
def c2Geom : BufferGeometry ℝ :=
  ⟨some ⟨[0, 0, -100000, 1, 0, -100000, 0, 1, -100000], 3⟩, none⟩

/-- Its extracted geo triangle at origin `(0, 0)`: all three vertices at latitude
`≈0.899°`. -/
def c2Tri : GeoTriangle :=
  ⟨⟨0 + 0 / earthRadius * RAD2DEG / Real.cos (0 * DEG2RAD),
      0 + -(-100000) / earthRadius * RAD2DEG, 0 + 0⟩,
   ⟨0 + 1 / earthRadius * RAD2DEG / Real.cos (0 * DEG2RAD),
      0 + -(-100000) / earthRadius * RAD2DEG, 0 + 0⟩,
   ⟨0 + 0 / earthRadius * RAD2DEG / Real.cos (0 * DEG2RAD),
      0 + -(-100000) / earthRadius * RAD2DEG, 0 + 1⟩⟩

/-- The sum of memoized scales over the 102 sample latitudes from 0 to ≈0.899°. -/
def c2S : ℝ :=
  ((sampleLats 0 (0 + -(-100000) / earthRadius * RAD2DEG) 101).map
    fun lat => 1 / Real.cos (lat * DEG2RAD)).sum

/-- The (drifted) local `z` the geo engine reconstructs for the triangle's vertices. -/
def c2Z : ℝ :=
  -((0 + -(-100000) / earthRadius * RAD2DEG - 0) * DEG2RAD) * earthRadius /
      (1 / Real.cos ((0 : ℝ) * DEG2RAD)) * (c2S / (((101 : ℕ) : ℝ) + 1))

/-- The mercator cache after the first vertex conversion. -/
def c2C : MercCache :=
  (mercFold MercCache.fresh 0
    (sampleLats 0 (0 + -(-100000) / earthRadius * RAD2DEG) 101)).2

end

theorem c2Extract : extractGeoTriangles c2Geom wOrigin = .ok [c2Tri] := rfl

theorem c2_steps :
    (⌈|(0 + -(-100000) / earthRadius * RAD2DEG : ℝ) - 0|⌉).toNat * 100 + 1 = 101 := by
  obtain ⟨hlo, hhi⟩ := wL2_bounds
  have habs : |(0 + -(-100000) / earthRadius * RAD2DEG : ℝ) - 0| =
      0 + -(-100000) / earthRadius * RAD2DEG := by
    rw [sub_zero]
    exact abs_of_pos (by linarith)
  rw [habs]
  have hceil : ⌈(0 + -(-100000) / earthRadius * RAD2DEG : ℝ)⌉ = 1 := by
    rw [Int.ceil_eq_iff]
    constructor
    · push_cast
      linarith
    · push_cast
      linarith
  rw [hceil]
  rfl

theorem c2_pairwise :
    (sampleLats 0 (0 + -(-100000) / earthRadius * RAD2DEG : ℝ) 101).Pairwise
      (fun a b => round (a * 1000) ≠ round (b * 1000)) := by
  obtain ⟨hlo, hhi⟩ := wL2_bounds
  refine sampleLats_pairwise_of_gap 0 _ 101 ?_
  push_cast
  rw [sub_zero]
  rw [div_mul_eq_mul_div, le_div_iff (by norm_num)]
  linarith

theorem c2_cacheProp :
    ∀ lat ∈ sampleLats 0 (0 + -(-100000) / earthRadius * RAD2DEG : ℝ) 101,
      cacheLookup c2C (round (lat * 1000)) = some (1 / Real.cos (lat * DEG2RAD)) :=
  (mercFold_distinct _ MercCache.fresh 0 (fun _ _ => rfl) c2_pairwise).2

theorem c2_conv0 :
    geoVertexToVector3 MercCache.fresh c2Tri.v0 wOrigin = (⟨0, 0, c2Z⟩, c2C) := by
  show coordsToVector3 MercCache.fresh
    ⟨0 + 0 / earthRadius * RAD2DEG / Real.cos (0 * DEG2RAD),
      0 + -(-100000) / earthRadius * RAD2DEG, some (0 + 0)⟩ ⟨0, 0, none⟩ = _
  rw [coordsToVector3_eval MercCache.fresh _ _ (by rw [c2_steps]; exact c2_pairwise)
    (fun lat _ => rfl)]
  simp only []
  rw [c2_steps]
  rw [Prod.mk.injEq, V3.mk.injEq]
  refine ⟨⟨?_, ?_, rfl⟩, rfl⟩
  · norm_num
  · show (0 : ℝ) + 0 - Coords.altitudeOr0 ⟨0, 0, none⟩ = 0
    unfold Coords.altitudeOr0
    norm_num

theorem c2_conv1 :
    geoVertexToVector3 c2C c2Tri.v1 wOrigin = (⟨1, 0, c2Z⟩, c2C) := by
  have hpi : Real.pi ≠ 0 := Real.pi_ne_zero
  have hR : earthRadius ≠ 0 := ne_of_gt earthRadius_pos
  show coordsToVector3 c2C
    ⟨0 + 1 / earthRadius * RAD2DEG / Real.cos (0 * DEG2RAD),
      0 + -(-100000) / earthRadius * RAD2DEG, some (0 + 0)⟩ ⟨0, 0, none⟩ = _
  rw [coordsToVector3_eval_cached _ _ _ (by rw [c2_steps]; exact c2_cacheProp)]
  simp only []
  rw [c2_steps]
  rw [Prod.mk.injEq, V3.mk.injEq]
  refine ⟨⟨?_, ?_, rfl⟩, rfl⟩
  · rw [zero_mul, Real.cos_zero]
    unfold RAD2DEG DEG2RAD earthRadius
    unfold earthRadius at hR
    field_simp
    ring
  · show (0 : ℝ) + 0 - Coords.altitudeOr0 ⟨0, 0, none⟩ = 0
    unfold Coords.altitudeOr0
    norm_num

theorem c2_conv2 :
    geoVertexToVector3 c2C c2Tri.v2 wOrigin = (⟨0, 1, c2Z⟩, c2C) := by
  show coordsToVector3 c2C
    ⟨0 + 0 / earthRadius * RAD2DEG / Real.cos (0 * DEG2RAD),
      0 + -(-100000) / earthRadius * RAD2DEG, some (0 + 1)⟩ ⟨0, 0, none⟩ = _
  rw [coordsToVector3_eval_cached _ _ _ (by rw [c2_steps]; exact c2_cacheProp)]
  simp only []
  rw [c2_steps]
  rw [Prod.mk.injEq, V3.mk.injEq]
  refine ⟨⟨?_, ?_, rfl⟩, rfl⟩
  · norm_num
  · show (0 : ℝ) + 1 - Coords.altitudeOr0 ⟨0, 0, none⟩ = 1
    unfold Coords.altitudeOr0
    norm_num

/-! ### The drift bound for claim C2 -/

theorem sum_map_lower {α : Type} (f : α → ℝ) (c : ℝ) :
    ∀ l : List α, (∀ a ∈ l, c ≤ f a) → (l.length : ℝ) * c ≤ (l.map f).sum := by
  intro l
  induction l with
  | nil => intro h; simp
  | cons a t ih =>
      intro h
      simp only [List.map_cons, List.sum_cons, List.length_cons]
      have ht := ih (fun x hx => h x (by simp [hx]))
      have ha := h a (by simp)
      push_cast
      nlinarith

theorem inv_cos_ge_one_of {θ : ℝ} (h0 : 0 ≤ θ) (h1 : θ ≤ 1 / 60) :
    1 ≤ 1 / Real.cos θ := by
  have hpos : 0 < Real.cos θ := by
    refine Real.cos_pos_of_mem_Ioo ⟨?_, ?_⟩
    · nlinarith [Real.pi_gt_d2]
    · nlinarith [Real.pi_gt_d2]
  rw [le_div_iff₀ hpos]
  nlinarith [Real.cos_le_one θ]

theorem inv_cos_ge_of {θ : ℝ} (h0 : 78 / 10000 ≤ θ) (h1 : θ ≤ 1 / 60) :
    1 + 3 / 100000 ≤ 1 / Real.cos θ := by
  have hb := Real.cos_bound (x := θ) (by rw [abs_of_nonneg (by linarith)]; linarith)
  rw [abs_of_nonneg (by linarith : (0 : ℝ) ≤ θ), abs_le] at hb
  have hcos_le : Real.cos θ ≤ 1 - θ ^ 2 / 2 + θ ^ 4 * (5 / 96) := by linarith [hb.2]
  have hpos : 0 < Real.cos θ := by
    refine Real.cos_pos_of_mem_Ioo ⟨?_, ?_⟩
    · nlinarith [Real.pi_gt_d2]
    · nlinarith [Real.pi_gt_d2]
  rw [le_div_iff₀ hpos]
  have hsq : (78 / 10000 : ℝ) ^ 2 ≤ θ ^ 2 := by nlinarith
  have hq : θ ^ 4 ≤ (1 / 60 : ℝ) ^ 4 := pow_le_pow_left (by linarith) h1 4
  nlinarith [hcos_le, hsq, hq, sq_nonneg θ]

theorem c2S_lower : 102 + 153 / 100000 ≤ c2S := by
  obtain ⟨hlo, hhi⟩ := wL2_bounds
  have hpi3 := Real.pi_gt_d2
  have hpi4 := Real.pi_lt_d2
  have hDlo : (314 / 100 : ℝ) / 180 ≤ DEG2RAD := by
    unfold DEG2RAD
    rw [div_le_div_iff (by norm_num) (by norm_num)]
    nlinarith
  have hDhi : DEG2RAD ≤ (315 / 100 : ℝ) / 180 := by
    unfold DEG2RAD
    rw [div_le_div_iff (by norm_num) (by norm_num)]
    nlinarith
  have hDpos : 0 < DEG2RAD := DEG2RAD_pos
  set L := (0 : ℝ) + -(-100000) / earthRadius * RAD2DEG with hLdef
  clear_value L
  have hlo' : (89 / 100 : ℝ) < L := by
    rw [show (89 / 100 : ℝ) = 0.89 by norm_num]
    exact hlo
  have hhi' : L < (91 / 100 : ℝ) := by
    rw [show (91 / 100 : ℝ) = 0.91 by norm_num]
    exact hhi
  have hterm_all : ∀ i : ℕ, i ∈ List.range 102 →
      (1 : ℝ) ≤ 1 / Real.cos ((0 + (L - 0) / ((101 : ℕ) : ℝ) * (i : ℝ)) * DEG2RAD) := by
    intro i hi
    rw [List.mem_range] at hi
    have hi' : (i : ℝ) ≤ 101 := by exact_mod_cast Nat.lt_succ_iff.1 hi
    have hi0 : (0 : ℝ) ≤ (i : ℝ) := Nat.cast_nonneg i
    have hy0 : (0 : ℝ) ≤ 0 + (L - 0) / ((101 : ℕ) : ℝ) * (i : ℝ) := by
      have hnn : (0 : ℝ) ≤ (L - 0) / ((101 : ℕ) : ℝ) * (i : ℝ) :=
        mul_nonneg (div_nonneg (by linarith) (by norm_num)) hi0
      linarith
    have hy1 : 0 + (L - 0) / ((101 : ℕ) : ℝ) * (i : ℝ) ≤ 91 / 100 := by
      push_cast
      rw [sub_zero, zero_add, div_mul_eq_mul_div, div_le_iff (by norm_num)]
      nlinarith
    refine inv_cos_ge_one_of (mul_nonneg hy0 hDpos.le) ?_
    have hprod := mul_le_mul hy1 hDhi hDpos.le (by norm_num : (0 : ℝ) ≤ 91 / 100)
    linarith
  have hterm_hi : ∀ i : ℕ, i ∈ (List.range 51).map (51 + ·) →
      (1 : ℝ) + 3 / 100000 ≤
        1 / Real.cos ((0 + (L - 0) / ((101 : ℕ) : ℝ) * (i : ℝ)) * DEG2RAD) := by
    intro i hi
    rw [List.mem_map] at hi
    obtain ⟨k, hk, hki⟩ := hi
    rw [List.mem_range] at hk
    have hk' : (k : ℝ) ≤ 50 := by exact_mod_cast Nat.lt_succ_iff.1 hk
    have hk0 : (0 : ℝ) ≤ (k : ℝ) := Nat.cast_nonneg k
    have hi51 : (51 : ℝ) ≤ (i : ℝ) := by
      rw [← hki]
      push_cast
      linarith
    have hi' : (i : ℝ) ≤ 101 := by
      rw [← hki]
      push_cast
      linarith
    have hkey : (0 : ℝ) + (L - 0) / ((101 : ℕ) : ℝ) * (i : ℝ) = L * (i : ℝ) / 101 := by
      push_cast
      ring
    have hy0 : (89 / 100 : ℝ) * 51 / 101 ≤ 0 + (L - 0) / ((101 : ℕ) : ℝ) * (i : ℝ) := by
      rw [hkey, div_le_div_iff (by norm_num) (by norm_num)]
      nlinarith
    have hy0' : (0 : ℝ) ≤ 0 + (L - 0) / ((101 : ℕ) : ℝ) * (i : ℝ) := by
      have : (0 : ℝ) ≤ (89 / 100 : ℝ) * 51 / 101 := by norm_num
      linarith
    have hy1 : 0 + (L - 0) / ((101 : ℕ) : ℝ) * (i : ℝ) ≤ 91 / 100 := by
      push_cast
      rw [sub_zero, zero_add, div_mul_eq_mul_div, div_le_iff (by norm_num)]
      nlinarith
    refine inv_cos_ge_of ?_ ?_
    · have hprod := mul_le_mul hy0 hDlo (by norm_num : (0 : ℝ) ≤ 314 / 100 / 180) hy0'
      nlinarith
    · have hprod := mul_le_mul hy1 hDhi hDpos.le (by norm_num : (0 : ℝ) ≤ 91 / 100)
      linarith
  have hsplit : c2S =
      (((List.range 51).map fun i : ℕ =>
          1 / Real.cos ((0 + (L - 0) / ((101 : ℕ) : ℝ) * (i : ℝ)) * DEG2RAD)).sum +
       (((List.range 51).map (51 + ·)).map fun i : ℕ =>
          1 / Real.cos ((0 + (L - 0) / ((101 : ℕ) : ℝ) * (i : ℝ)) * DEG2RAD)).sum) := by
    rw [hLdef]
    unfold c2S
    rw [show sampleLats 0 ((0 : ℝ) + -(-100000) / earthRadius * RAD2DEG) 101 =
        (List.range 102).map (fun i : ℕ =>
          0 + (((0 : ℝ) + -(-100000) / earthRadius * RAD2DEG) - 0) / ((101 : ℕ) : ℝ) *
            (i : ℝ)) from rfl]
    rw [List.map_map, show (102 : ℕ) = 51 + 51 from rfl, List.range_add,
      List.map_append, List.sum_append]
    rfl
  rw [hsplit]
  have h1 := sum_map_lower
    (fun i : ℕ => 1 / Real.cos ((0 + (L - 0) / ((101 : ℕ) : ℝ) * (i : ℝ)) * DEG2RAD)) 1
    (List.range 51)
    (fun i hi => hterm_all i (by rw [List.mem_range] at hi ⊢; omega))
  have h2 := sum_map_lower
    (fun i : ℕ => 1 / Real.cos ((0 + (L - 0) / ((101 : ℕ) : ℝ) * (i : ℝ)) * DEG2RAD))
    (1 + 3 / 100000) ((List.range 51).map (51 + ·)) hterm_hi
  rw [List.length_range] at h1
  rw [List.length_map, List.length_range] at h2
  push_cast at h1 h2
  linarith

/-- The reconstructed `z` has drifted at least 1.5 meters below the original plane. -/
theorem c2Z_le : c2Z ≤ -100001 := by
  have hS := c2S_lower
  have hpi : Real.pi ≠ 0 := Real.pi_ne_zero
  have hR : earthRadius ≠ 0 := ne_of_gt earthRadius_pos
  have hkey : c2Z = -100000 * (c2S / 102) := by
    unfold c2Z
    rw [zero_mul, Real.cos_zero]
    unfold RAD2DEG DEG2RAD
    unfold earthRadius at hR ⊢
    push_cast
    field_simp
    ring
  rw [hkey]
  linarith

/-- All three components of the fixed ray direction are positive. -/
theorem ray_direction_pos :
    0 < RAY_DIRECTION.x ∧ 0 < RAY_DIRECTION.y ∧ 0 < RAY_DIRECTION.z := by
  have hsq : (V3.mk (1 : ℝ) 0.0001 0.0001).lengthSq = 100000002 / 100000000 := by
    norm_num [V3.lengthSq, V3.dot]
  have hlen : (V3.mk (1 : ℝ) 0.0001 0.0001).length =
      Real.sqrt (100000002 / 100000000) := by
    rw [V3.length, hsq]
  have hpos : 0 < Real.sqrt (100000002 / 100000000) := Real.sqrt_pos.2 (by norm_num)
  unfold RAY_DIRECTION V3.normalize
  rw [hlen, if_neg (ne_of_gt hpos)]
  exact ⟨div_pos (by norm_num) hpos, div_pos (by norm_num) hpos,
    div_pos (by norm_num) hpos⟩

/-- First branch of `closestPointToPoint`: when the point projects behind vertex `a`
along both edges, the closest point is `a` itself. -/
theorem closestPoint_first (a b c p : V3 ℝ)
    (h1 : (b.sub a).dot (p.sub a) ≤ 0) (h2 : (c.sub a).dot (p.sub a) ≤ 0) :
    closestPointToPoint a b c p = a := by
  unfold closestPointToPoint
  simp only []
  rw [if_pos ⟨h1, h2⟩]

/-- The upward-offset ray from `(0,0,-100000)` misses every triangle lying in a plane
strictly below it: the first barycentric test of `intersectTriangle` is negative. -/
theorem c2_ray_miss (Z : ℝ) (hZ : Z < -100000) :
    intersectTriangle ⟨0, 0, -100000⟩ RAY_DIRECTION ⟨0, 0, Z⟩ ⟨1, 0, Z⟩ ⟨0, 1, Z⟩ false
      = none := by
  obtain ⟨hx, hy, hz⟩ := ray_direction_pos
  have he1 : (V3.mk (1 : ℝ) 0 Z).sub ⟨0, 0, Z⟩ = ⟨1, 0, 0⟩ := by
    simp [V3.sub, V3.mk.injEq]
  have he2 : (V3.mk (0 : ℝ) 1 Z).sub ⟨0, 0, Z⟩ = ⟨0, 1, 0⟩ := by
    simp [V3.sub, V3.mk.injEq]
  have hn : (V3.mk (1 : ℝ) 0 0).cross ⟨0, 1, 0⟩ = ⟨0, 0, 1⟩ := by
    simp only [V3.cross, V3.mk.injEq]
    norm_num
  have hDdN : RAY_DIRECTION.dot ⟨0, 0, 1⟩ = RAY_DIRECTION.z := by
    simp [V3.dot]
  unfold intersectTriangle
  simp only []
  rw [he1, he2, hn, hDdN, if_pos hz, if_neg Bool.false_ne_true]
  have hdiff : (V3.mk (0 : ℝ) 0 (-100000)).sub ⟨0, 0, Z⟩ = ⟨0, 0, -100000 - Z⟩ := by
    simp [V3.sub, V3.mk.injEq]
  have hc2 : (V3.mk (0 : ℝ) 0 (-100000 - Z)).cross ⟨0, 1, 0⟩ =
      ⟨-(-100000 - Z), 0, 0⟩ := by
    simp only [V3.cross, V3.mk.injEq]
    norm_num
  have hdq : RAY_DIRECTION.dot ⟨-(-100000 - Z), 0, 0⟩ =
      -(-100000 - Z) * RAY_DIRECTION.x := by
    simp [V3.dot]
    ring
  unfold intersectTriangleCore
  simp only []
  rw [hdiff, hc2, hdq]
  have hneg : 1 * (-(-100000 - Z) * RAY_DIRECTION.x) < 0 := by
    have h : (0 : ℝ) < -100000 - Z := by linarith
    nlinarith
  rw [if_pos hneg]

/-- The mesh-flavoured engine classifies `(0,0,-100000)` as a boundary point of the
counterexample triangle: it is literally the first vertex. -/
theorem c2_mesh :
    isPointInPolyhedron ⟨0, 0, -100000⟩ c2Geom = .ok ⟨true, true, 0⟩ := by
  have hclose : closestPointToPoint ⟨0, 0, -100000⟩ ⟨1, 0, -100000⟩ ⟨0, 1, -100000⟩
      ⟨0, 0, -100000⟩ = ⟨0, 0, -100000⟩ :=
    closestPoint_first _ _ _ _ (by norm_num [V3.sub, V3.dot])
      (by norm_num [V3.sub, V3.dot])
  have hsurf : onSurfaceB ⟨0, 0, -100000⟩ (triangleList 0 c2Geom) BOUNDARY_TOLERANCE
      = true := by
    rw [show triangleList 0 c2Geom =
      [(⟨0, 0, -100000⟩, ⟨1, 0, -100000⟩, ⟨0, 1, -100000⟩)] from rfl]
    unfold onSurfaceB
    simp only [List.any_cons, List.any_nil, Bool.or_false]
    rw [hclose]
    norm_num [V3.distSq, V3.sub, V3.lengthSq, V3.dot, BOUNDARY_TOLERANCE]
  show (if onSurfaceB ⟨0, 0, -100000⟩ (triangleList 0 c2Geom) BOUNDARY_TOLERANCE
      then (Except.ok ⟨true, true, 0⟩ : Except String PointInPolyhedronResult)
      else
        let n := countRayHits ⟨0, 0, -100000⟩ (triangleList 0 c2Geom)
        Except.ok ⟨decide (n % 2 = 1), false, n⟩) = Except.ok ⟨true, true, 0⟩
  rw [hsurf]
  simp

noncomputable section

/-- The contribution of a single triangle to the ray-hit count. -/
def rayStep (rayOrigin : V3 ℝ) (t : V3 ℝ × V3 ℝ × V3 ℝ) : ℕ :=
  match intersectTriangle rayOrigin RAY_DIRECTION t.1 t.2.1 t.2.2 false with
  | none => 0
  | some target =>
      if (target.sub rayOrigin).dot RAY_DIRECTION > RAY_EPSILON then 1 else 0

end

/-- The fold of `countRayHits` from any accumulator is the accumulator plus the sum of
the per-triangle contributions. -/
theorem countRayHits_aux (p : V3 ℝ) :
    ∀ (tris : List (V3 ℝ × V3 ℝ × V3 ℝ)) (n : ℕ),
      List.foldl
        (fun m t =>
          match intersectTriangle p RAY_DIRECTION t.1 t.2.1 t.2.2 false with
          | none => m
          | some target =>
              if (target.sub p).dot RAY_DIRECTION > RAY_EPSILON then m + 1 else m)
        n tris = n + (tris.map (rayStep p)).sum := by
  intro tris
  induction tris with
  | nil =>
      intro n
      simp
  | cons t rest ih =>
      intro n
      simp only [List.foldl_cons, List.map_cons, List.sum_cons]
      rcases h : intersectTriangle p RAY_DIRECTION t.1 t.2.1 t.2.2 false with _ | target
      · simp only [h, rayStep]
        rw [ih]
        omega
      · simp only [h, rayStep]
        by_cases hc : (target.sub p).dot RAY_DIRECTION > RAY_EPSILON
        · rw [if_pos hc, if_pos hc, ih]
          omega
        · rw [if_neg hc, if_neg hc, ih]
          omega

theorem countRayHits_sum (p : V3 ℝ) (tris : List (V3 ℝ × V3 ℝ × V3 ℝ)) :
    countRayHits p tris = (tris.map (rayStep p)).sum := by
  unfold countRayHits
  rw [countRayHits_aux]
  omega

/-- One unfolding of the geo-triangle containment loop at a cons cell. -/
theorem geoLoop_cons (rayOrigin : V3 ℝ) (origin : Coords) (cache : MercCache) (n : ℕ)
    (tri : GeoTriangle) (rest : List GeoTriangle) :
    isPointInGeoTrianglesLoop rayOrigin origin cache n (tri :: rest) =
      (let ra := geoVertexToVector3 cache tri.v0 origin
       let rb := geoVertexToVector3 ra.2 tri.v1 origin
       let rc := geoVertexToVector3 rb.2 tri.v2 origin
       if rayOrigin.distSq (closestPointToPoint ra.1 rb.1 rc.1 rayOrigin) ≤
           BOUNDARY_TOLERANCE ^ 2 then
         (⟨true, true, 0⟩, rc.2)
       else
         isPointInGeoTrianglesLoop rayOrigin origin rc.2
           (match intersectTriangle rayOrigin RAY_DIRECTION ra.1 rb.1 rc.1 false with
            | none => n
            | some target =>
                if (target.sub rayOrigin).dot RAY_DIRECTION > RAY_EPSILON then n + 1
                else n)
           rest) := rfl

set_option maxRecDepth 4000 in
/-- Counterexample run of the geo-triangle engine: the drifted triangle is no longer
within boundary tolerance, and the ray misses it, so the point tests outside. -/
theorem c2_geo :
    isPointInGeoTriangles ⟨0, 0, -100000⟩ [c2Tri] wOrigin MercCache.fresh =
      (⟨false, false, 0⟩, c2C) := by
  have hZ := c2Z_le
  have hZ' : c2Z < -100000 := by linarith
  unfold isPointInGeoTriangles
  rw [geoLoop_cons]
  simp only []
  rw [c2_conv0]
  simp only []
  rw [c2_conv1]
  simp only []
  rw [c2_conv2]
  simp only []
  have hcp : closestPointToPoint ⟨0, 0, c2Z⟩ ⟨1, 0, c2Z⟩ ⟨0, 1, c2Z⟩ ⟨0, 0, -100000⟩ =
      ⟨0, 0, c2Z⟩ :=
    closestPoint_first _ _ _ _ (by norm_num [V3.sub, V3.dot])
      (by norm_num [V3.sub, V3.dot])
  rw [hcp]
  have hfar : ¬ (V3.distSq ⟨0, 0, -100000⟩ (V3.mk (0 : ℝ) 0 c2Z) ≤
      BOUNDARY_TOLERANCE ^ 2) := by
    have hd : V3.distSq ⟨0, 0, -100000⟩ (V3.mk (0 : ℝ) 0 c2Z) =
        (-100000 - c2Z) * (-100000 - c2Z) := by
      unfold V3.distSq V3.lengthSq V3.sub V3.dot
      simp only []
      ring
    have htol : BOUNDARY_TOLERANCE ^ 2 = 1 / 1000000 := by
      unfold BOUNDARY_TOLERANCE
      norm_num
    rw [hd, htol]
    intro hle
    nlinarith [hZ, sq_nonneg (-100000 - c2Z - 1)]
  rw [if_neg hfar]
  rw [c2_ray_miss c2Z hZ']
  rfl

/-- Counterexample to claim C2: for the triangle of `c2Geom` (a plane 100 km below an
origin at latitude 0) the mesh-flavoured test reports the query point — the triangle's
own first vertex — as inside-on-boundary, while the geo-triangle test on the extracted
triangles of the *same* geometry reports it strictly outside: the averaged-mercator
reconstruction puts the triangle more than a meter lower, so the boundary check and the
ray both miss it. -/
theorem containment_parity_counterexample :
    extractGeoTriangles c2Geom wOrigin = .ok [c2Tri] ∧
    isPointInPolyhedron ⟨0, 0, -100000⟩ c2Geom = .ok ⟨true, true, 0⟩ ∧
    (isPointInGeoTriangles ⟨0, 0, -100000⟩ [c2Tri] wOrigin MercCache.fresh).1 =
      ⟨false, false, 0⟩ :=
  ⟨c2Extract, c2_mesh, by rw [c2_geo]⟩

/-- When every geo vertex converts back to its exact local position regardless of the
cache state, the geo-triangle loop computes, for any starting cache and accumulator,
exactly the boundary/parity answer of the local triangle list. -/
theorem geoLoop_eq (point : V3 ℝ) (origin : Coords)
    (trip : GeoTriangle → V3 ℝ × V3 ℝ × V3 ℝ) :
    ∀ ts : List GeoTriangle,
      (∀ cache : MercCache, ∀ tri ∈ ts,
        (geoVertexToVector3 cache tri.v0 origin).1 = (trip tri).1 ∧
        (geoVertexToVector3 cache tri.v1 origin).1 = (trip tri).2.1 ∧
        (geoVertexToVector3 cache tri.v2 origin).1 = (trip tri).2.2) →
      ∀ (cache : MercCache) (n : ℕ),
        (isPointInGeoTrianglesLoop point origin cache n ts).1 =
          (if onSurfaceB point (ts.map trip) BOUNDARY_TOLERANCE then ⟨true, true, 0⟩
           else ⟨decide ((n + countRayHits point (ts.map trip)) % 2 = 1), false,
                 n + countRayHits point (ts.map trip)⟩) := by
  intro ts
  induction ts with
  | nil =>
      intro _ cache n
      simp [isPointInGeoTrianglesLoop, onSurfaceB, countRayHits]
  | cons tri rest ih =>
      intro hconv cache n
      have hrest : ∀ cache : MercCache, ∀ t ∈ rest,
          (geoVertexToVector3 cache t.v0 origin).1 = (trip t).1 ∧
          (geoVertexToVector3 cache t.v1 origin).1 = (trip t).2.1 ∧
          (geoVertexToVector3 cache t.v2 origin).1 = (trip t).2.2 :=
        fun cache t ht => hconv cache t (List.mem_cons_of_mem _ ht)
      obtain ⟨h0, -, -⟩ := hconv cache tri (by simp)
      obtain ⟨-, h1, -⟩ := hconv (geoVertexToVector3 cache tri.v0 origin).2 tri (by simp)
      obtain ⟨-, -, h2⟩ := hconv
        (geoVertexToVector3 (geoVertexToVector3 cache tri.v0 origin).2 tri.v1 origin).2
        tri (by simp)
      rw [geoLoop_cons]
      simp only []
      rw [h0, h1, h2]
      have hOcons : onSurfaceB point ((tri :: rest).map trip) BOUNDARY_TOLERANCE =
          (decide (point.distSq
              (closestPointToPoint (trip tri).1 (trip tri).2.1 (trip tri).2.2 point) ≤
                BOUNDARY_TOLERANCE ^ 2) ||
            onSurfaceB point (rest.map trip) BOUNDARY_TOLERANCE) := by
        simp only [List.map_cons, onSurfaceB, List.any_cons]
      by_cases hb : point.distSq
          (closestPointToPoint (trip tri).1 (trip tri).2.1 (trip tri).2.2 point) ≤
            BOUNDARY_TOLERANCE ^ 2
      · rw [if_pos hb]
        have hst : onSurfaceB point ((tri :: rest).map trip) BOUNDARY_TOLERANCE = true := by
          rw [hOcons, decide_eq_true hb, Bool.true_or]
        rw [if_pos hst]
      · rw [if_neg hb]
        have hsf : onSurfaceB point ((tri :: rest).map trip) BOUNDARY_TOLERANCE =
            onSurfaceB point (rest.map trip) BOUNDARY_TOLERANCE := by
          rw [hOcons, decide_eq_false hb, Bool.false_or]
        rw [hsf]
        have hcnt : countRayHits point ((tri :: rest).map trip) =
            rayStep point (trip tri) + countRayHits point (rest.map trip) := by
          simp only [List.map_cons]
          rw [countRayHits_sum, countRayHits_sum, List.map_cons, List.sum_cons]
        rw [hcnt]
        rcases h : intersectTriangle point RAY_DIRECTION (trip tri).1 (trip tri).2.1
            (trip tri).2.2 false with _ | target
        · simp only [h]
          rw [ih hrest _ n]
          have hrs : rayStep point (trip tri) = 0 := by
            simp only [rayStep, h]
          rw [hrs]
          simp only [Nat.zero_add]
        · by_cases hc : (target.sub point).dot RAY_DIRECTION > RAY_EPSILON
          · simp only [h]
            rw [if_pos hc, ih hrest _ (n + 1)]
            have hrs : rayStep point (trip tri) = 1 := by
              simp only [rayStep, h]
              rw [if_pos hc]
            rw [hrs]
            have he : n + 1 + countRayHits point (rest.map trip) =
                n + (1 + countRayHits point (rest.map trip)) := by omega
            rw [he]
          · simp only [h]
            rw [if_neg hc, ih hrest _ n]
            have hrs : rayStep point (trip tri) = 0 := by
              simp only [rayStep, h]
              rw [if_neg hc]
            rw [hrs]
            simp only [Nat.zero_add]

/-- Claim C2 (amended): for every geometry with a well-formed 3-component position
attribute, every origin, every 3D point and every triangle list `ts` whose vertices
convert back (under every cache state) to exactly the local triangles the mesh walk
visits, the mesh-based test `isPointInPolyhedron` succeeds and the triangle-list-based
test `isPointInGeoTriangles point ts origin` returns the very same record — in
particular the same `inside` — from every starting cache.  (The unconditional claim is
refuted by `containment_parity_counterexample`: the reconstruction of the vertices is
in general not exact, and the drift flips `inside`.) -/
theorem containment_parity_of_exact
    (point : V3 ℝ) (g : BufferGeometry ℝ) (origin : Coords) (pa : PositionAttr ℝ)
    (hp : g.position = some pa) (hitem : pa.itemSize = 3)
    (hlen : g.index = none → pa.array.length % 3 = 0)
    (hidx : (g.index.getD []).length % 3 = 0)
    (ts : List GeoTriangle) (trip : GeoTriangle → V3 ℝ × V3 ℝ × V3 ℝ)
    (htl : triangleList 0 g = ts.map trip)
    (hconv : ∀ cache : MercCache, ∀ tri ∈ ts,
      (geoVertexToVector3 cache tri.v0 origin).1 = (trip tri).1 ∧
      (geoVertexToVector3 cache tri.v1 origin).1 = (trip tri).2.1 ∧
      (geoVertexToVector3 cache tri.v2 origin).1 = (trip tri).2.2) :
    ∃ r : PointInPolyhedronResult,
      isPointInPolyhedron point g = .ok r ∧
      ∀ cache : MercCache, (isPointInGeoTriangles point ts origin cache).1 = r := by
  have hmesh : isPointInPolyhedron point g =
      .ok (if onSurfaceB point (triangleList 0 g) BOUNDARY_TOLERANCE then ⟨true, true, 0⟩
           else ⟨decide (countRayHits point (triangleList 0 g) % 2 = 1), false,
                 countRayHits point (triangleList 0 g)⟩) := by
    unfold isPointInPolyhedron
    rw [hp]
    simp only []
    rw [if_neg (by simp [hitem])]
    rw [if_neg (fun hcontra => hcontra.2 (hlen hcontra.1))]
    rw [if_neg (by simp [hidx])]
    by_cases hs : onSurfaceB point (triangleList 0 g) BOUNDARY_TOLERANCE = true
    · rw [if_pos hs, if_pos hs]
    · rw [if_neg hs, if_neg hs]
  refine ⟨_, hmesh, ?_⟩
  intro cache
  unfold isPointInGeoTriangles
  rw [geoLoop_eq point origin trip ts hconv cache 0, htl]
  simp only [Nat.zero_add]

/-- Componentwise equality of vectors. -/
theorem v3ext {α : Type} {a b : V3 α} (hx : a.x = b.x) (hy : a.y = b.y)
    (hz : a.z = b.z) : a = b := by
  cases a
  cases b
  simp only [V3.mk.injEq]
  exact ⟨hx, hy, hz⟩

noncomputable section

/-- Witness geometry for the amended claim C2: one triangle in the local plane `z = 0`
through the origin, where the geo reconstruction is exact for every cache state. -/
def w2Geom : BufferGeometry ℝ :=
  ⟨some ⟨[0, 0, 0, 1, 0, 0, 0, 1, 0], 3⟩, none⟩

/-- Its extracted geo triangle at origin `(0, 0)`. -/
def w2Tri : GeoTriangle :=
  ⟨⟨0 + 0 / earthRadius * RAD2DEG / Real.cos (0 * DEG2RAD),
      0 + -0 / earthRadius * RAD2DEG, 0 + 0⟩,
   ⟨0 + 1 / earthRadius * RAD2DEG / Real.cos (0 * DEG2RAD),
      0 + -0 / earthRadius * RAD2DEG, 0 + 0⟩,
   ⟨0 + 0 / earthRadius * RAD2DEG / Real.cos (0 * DEG2RAD),
      0 + -0 / earthRadius * RAD2DEG, 0 + 1⟩⟩

/-- The local triangle the witness geometry's mesh walk visits. -/
def w2trip : GeoTriangle → V3 ℝ × V3 ℝ × V3 ℝ :=
  fun _ => (⟨0, 0, 0⟩, ⟨1, 0, 0⟩, ⟨0, 1, 0⟩)

end

theorem w2Extract : extractGeoTriangles w2Geom wOrigin = .ok [w2Tri] := rfl

/-- A vertex extracted from the local plane `z = 0` at origin `(0,0)` converts back to
exactly its local position, for every cache state: the zero latitude difference kills
the averaged-mercator `z` entirely. -/
theorem conv_flat (cache : MercCache) (xv yv : ℝ) :
    (coordsToVector3 cache
        ⟨0 + xv / earthRadius * RAD2DEG / Real.cos (0 * DEG2RAD),
         0 + -0 / earthRadius * RAD2DEG, some (0 + yv)⟩ ⟨0, 0, none⟩).1 =
      ⟨xv, yv, 0⟩ := by
  have hpi : Real.pi ≠ 0 := Real.pi_ne_zero
  have hR : earthRadius ≠ 0 := ne_of_gt earthRadius_pos
  apply v3ext
  · rw [coordsToVector3_x]
    show (0 + xv / earthRadius * RAD2DEG / Real.cos (0 * DEG2RAD) - 0) * DEG2RAD *
        earthRadius * Real.cos ((0 : ℝ) * DEG2RAD) = xv
    rw [zero_mul, Real.cos_zero]
    unfold RAD2DEG DEG2RAD
    unfold earthRadius at hR ⊢
    field_simp
    ring
  · rw [coordsToVector3_y]
    show (0 + yv) - Coords.altitudeOr0 ⟨0, 0, none⟩ = yv
    unfold Coords.altitudeOr0
    simp
  · rw [coordsToVector3_z_eq_zero_of_lat_eq]
    show (0 : ℝ) + -0 / earthRadius * RAD2DEG = 0
    simp

/-- The three vertices of the witness triangle convert exactly, from every cache. -/
theorem w2conv : ∀ cache : MercCache, ∀ tri ∈ [w2Tri],
    (geoVertexToVector3 cache tri.v0 wOrigin).1 = (w2trip tri).1 ∧
    (geoVertexToVector3 cache tri.v1 wOrigin).1 = (w2trip tri).2.1 ∧
    (geoVertexToVector3 cache tri.v2 wOrigin).1 = (w2trip tri).2.2 := by
  intro cache tri htri
  rw [List.mem_singleton] at htri
  subst htri
  refine ⟨?_, ?_, ?_⟩
  · show (coordsToVector3 cache
        ⟨0 + 0 / earthRadius * RAD2DEG / Real.cos (0 * DEG2RAD),
         0 + -0 / earthRadius * RAD2DEG, some (0 + 0)⟩ ⟨0, 0, none⟩).1 = ⟨0, 0, 0⟩
    exact conv_flat cache 0 0
  · show (coordsToVector3 cache
        ⟨0 + 1 / earthRadius * RAD2DEG / Real.cos (0 * DEG2RAD),
         0 + -0 / earthRadius * RAD2DEG, some (0 + 0)⟩ ⟨0, 0, none⟩).1 = ⟨1, 0, 0⟩
    exact conv_flat cache 1 0
  · show (coordsToVector3 cache
        ⟨0 + 0 / earthRadius * RAD2DEG / Real.cos (0 * DEG2RAD),
         0 + -0 / earthRadius * RAD2DEG, some (0 + 1)⟩ ⟨0, 0, none⟩).1 = ⟨0, 1, 0⟩
    exact conv_flat cache 0 1

/-- Witness for the amended claim C2, at the witness triangle in the plane `z = 0` and
the query point `(2, 2, 2)`. -/
theorem containment_parity_of_exact_witness :
    ∃ r : PointInPolyhedronResult,
      isPointInPolyhedron ⟨2, 2, 2⟩ w2Geom = .ok r ∧
      ∀ cache : MercCache,
        (isPointInGeoTriangles ⟨2, 2, 2⟩ [w2Tri] wOrigin cache).1 = r :=
  containment_parity_of_exact ⟨2, 2, 2⟩ w2Geom wOrigin ⟨[0, 0, 0, 1, 0, 0, 0, 1, 0], 3⟩
    rfl rfl (fun _ => rfl) rfl [w2Tri] w2trip rfl w2conv

end ReactThreeMap
